import Mathlib

/-!
# Rigs of Rods: `GfxActor` graphics synchronisation

A shallow embedding of parts of `source/main/gfx/GfxActor.cpp` and of the message filter of
`source/main/gui/panels/GUI_ConsoleView.cpp`.

* `float` values are elements of a linearly ordered field `α` (exact arithmetic, no rounding,
  no NaN); concrete evaluations use `ℚ`, the camera theorems use `ℝ` with `Real.sqrt`.
* Pointers that the source compares against `nullptr` are `Option`s or `Bool`s.
* Calls into the rendering engine, the particle pools, the sound system and writes into the
  physics actor are recorded, in program order, in a list of effects.
-/

namespace RoR

/-! ## Vectors (`Ogre::Vector3`) -/

/-- Three-component vector, the layout of `Ogre::Vector3`. -/
structure Vector3 (α : Type) where
  x : α
  y : α
  z : α
deriving DecidableEq

namespace Vector3

variable {α : Type} [LinearOrderedField α]

/-- The constant `Ogre::Vector3::ZERO`. -/
def ZERO : Vector3 α := ⟨0, 0, 0⟩

/-- Component-wise sum (`operator+`). -/
def add (a b : Vector3 α) : Vector3 α := ⟨a.x + b.x, a.y + b.y, a.z + b.z⟩

/-- Component-wise difference (`operator-`). -/
def sub (a b : Vector3 α) : Vector3 α := ⟨a.x - b.x, a.y - b.y, a.z - b.z⟩

/-- Unary minus. -/
def neg (a : Vector3 α) : Vector3 α := ⟨-a.x, -a.y, -a.z⟩

/-- Scalar times vector (`operator*(Real, Vector3)`). -/
def smul (s : α) (a : Vector3 α) : Vector3 α := ⟨s * a.x, s * a.y, s * a.z⟩

/-- Vector divided by a scalar: Ogre multiplies by the reciprocal `1 / s`. -/
def divScalar (a : Vector3 α) (s : α) : Vector3 α :=
  ⟨a.x * (1 / s), a.y * (1 / s), a.z * (1 / s)⟩

/-- Scalar product, as `Ogre::Vector3::dotProduct`. -/
def dotProduct (a b : Vector3 α) : α := a.x * b.x + a.y * b.y + a.z * b.z

/-- Vector product, as `Ogre::Vector3::crossProduct`. -/
def crossProduct (a b : Vector3 α) : Vector3 α :=
  ⟨a.y * b.z - a.z * b.y, a.z * b.x - a.x * b.z, a.x * b.y - a.y * b.x⟩

/-- Squared Euclidean length, as `Ogre::Vector3::squaredLength`. -/
def squaredLength (a : Vector3 α) : α := a.x * a.x + a.y * a.y + a.z * a.z

/-- Euclidean length for a given square-root function. -/
def length (sqrt : α → α) (a : Vector3 α) : α := sqrt (squaredLength a)

/-- In-place normalisation `Ogre::Vector3::normalise`: the vector is scaled by the reciprocal of
its length when that length is positive and is left as it is otherwise. -/
def normalise (sqrt : α → α) (a : Vector3 α) : Vector3 α :=
  if 0 < length sqrt a then
    ⟨a.x * (1 / length sqrt a), a.y * (1 / length sqrt a), a.z * (1 / length sqrt a)⟩
  else a

end Vector3

/-! ## Particle effects (`GfxActor::UpdateParticles`) -/

/-- Surface kind of a ground model (`Collisions::FX_*`). The source names three kinds; every
other enumerator goes to the `default` label of the `switch`. -/
inductive SurfaceType where
  | FX_HARD
  | FX_DUSTY
  | FX_CLUMPY
  | other (code : Nat)
deriving DecidableEq

/-- The fields of `ground_model_t` read by `UpdateParticles`; the colour is kept as a code. -/
structure ground_model_t where
  fx_type : SurfaceType
  fx_colour : Nat
deriving DecidableEq

/-- The fields of the physics node `node_t` read by `UpdateParticles`. -/
structure node_t (α : Type) where
  AbsPosition : Vector3 α
  Velocity : Vector3 α
  nd_under_water : Bool
  nd_collision_gm : Option ground_model_t
  nd_collision_slip : α
  iswheel : Int
  wheelid : Nat

/-- Per-node graphics state `GfxActor::NodeGfx`. -/
structure NodeGfx (α : Type) where
  nx_node_idx : Nat
  nx_wet_time_sec : α
  nx_no_particles : Bool
  nx_may_get_wet : Bool
  nx_is_hot : Bool
  nx_no_sparks : Bool
  nx_under_water_prev : Bool

/-- Constructor `NodeGfx::NodeGfx(uint16_t node_idx)`: the node starts dry. -/
def NodeGfx.new {α : Type} [LinearOrderedField α] (node_idx : Nat) : NodeGfx α :=
  { nx_node_idx := node_idx
    nx_wet_time_sec := -1
    nx_no_particles := false
    nx_may_get_wet := false
    nx_is_hot := false
    nx_no_sparks := true
    nx_under_water_prev := false }

/-- Observable actions of `UpdateParticles`: particle allocations on the dust pools, the two
sound commands, and the writes into `m_actor->ar_wheels[wheel]`. -/
inductive Effect (α : Type) where
  | allocDrip (pos vel : Vector3 α) (time : α)
  | allocVapour (pos vel : Vector3 α) (time : α)
  | allocSplash (pos vel : Vector3 α)
  | allocRipple (pos vel : Vector3 α)
  | malloc (pos vel : Vector3 α) (colour : Nat)
  | allocClump (pos vel : Vector3 α) (colour : Nat)
  | allocSmoke (pos vel : Vector3 α)
  | allocSparks (pos vel : Vector3 α)
  | soundModulate (value : α)
  | soundPlayOnce
  | setIsSkiding (wheel : Nat) (value : Bool)
  | setLastContactInner (wheel : Nat) (pos : Vector3 α)
  | setLastContactOuter (wheel : Nat) (pos : Vector3 α)
  | setLastContactType (wheel : Nat) (value : Int)
  | setLastSlip (wheel : Nat) (slip : α)
  | setLastGroundModel (wheel : Nat) (gm : ground_model_t)

/-- What `UpdateParticles` reads besides the `NodeGfx` list: the actor's nodes, the skidmark
switch, the terrain's static water height (`none` when the terrain has no water) and, for each
particle pool member, whether the pointer is non-null. -/
structure ParticleEnv (α : Type) where
  ar_nodes : Nat → node_t α
  use_skidmarks : Bool
  water : Option α
  m_particles_drip : Bool
  m_particles_misc : Bool
  m_particles_splash : Bool
  m_particles_ripple : Bool
  m_particles_sparks : Bool
  m_particles_clump : Bool

section Particles

variable {α : Type} [LinearOrderedField α]

/-- Local `water_height`: zero unless the terrain has water. -/
def waterHeight (env : ParticleEnv α) : α :=
  match env.water with
  | some h => h
  | none => 0

/-- First block of the loop body, "Wet effects - water dripping and vapour". -/
def wetEffects (env : ParticleEnv α) (n : node_t α) (dt_sec : α) (nfx : NodeGfx α) :
    NodeGfx α × List (Effect α) :=
  if nfx.nx_may_get_wet && !nfx.nx_no_particles then
    -- Getting out of water?
    let wet1 : α := if !n.nd_under_water && nfx.nx_under_water_prev then 0 else nfx.nx_wet_time_sec
    -- Dripping water?
    if wet1 ≠ -1 then
      let wet2 : α := wet1 + dt_sec
      if wet2 > 5 then
        -- Dries off in 5 sec
        ({ nfx with nx_wet_time_sec := -1 }, [])
      else if nfx.nx_may_get_wet then
        ({ nfx with nx_wet_time_sec := wet2 },
          (if env.m_particles_drip then
            [Effect.allocDrip n.AbsPosition n.Velocity wet2] else [])
          ++ (if nfx.nx_is_hot && env.m_particles_misc then
            [Effect.allocVapour n.AbsPosition n.Velocity wet2] else []))
      else ({ nfx with nx_wet_time_sec := wet2 }, [])
    else ({ nfx with nx_wet_time_sec := wet1 }, [])
  else (nfx, [])

/-- Second block of the loop body, "Water splash and ripple". -/
def splashEffects (env : ParticleEnv α) (n : node_t α) (nfx : NodeGfx α) : List (Effect α) :=
  if n.nd_under_water && !nfx.nx_no_particles then
    if waterHeight env - n.AbsPosition.y < 2 / 10 ∧ n.Velocity.squaredLength > 4 then
      (if env.m_particles_splash then [Effect.allocSplash n.AbsPosition n.Velocity] else [])
      ++ (if env.m_particles_ripple then [Effect.allocRipple n.AbsPosition n.Velocity] else [])
    else []
  else []

/-- The `FX_HARD` case of the ground-collision `switch`. -/
def hardSurfaceEffects (env : ParticleEnv α) (n : node_t α) (nfx : NodeGfx α)
    (gm : ground_model_t) : List (Effect α) :=
  if n.iswheel ≠ 0 then
    -- SKID_THRESHOLD = 10
    if n.nd_collision_slip > 10 then
      [Effect.soundModulate ((n.nd_collision_slip - 10) / 10), Effect.soundPlayOnce]
      ++ (if env.m_particles_misc then [Effect.allocSmoke n.AbsPosition n.Velocity] else [])
      ++ (if env.use_skidmarks then
            [Effect.setIsSkiding n.wheelid true,
             (if Int.tmod n.iswheel 2 = 0 then Effect.setLastContactInner n.wheelid n.AbsPosition
              else Effect.setLastContactOuter n.wheelid n.AbsPosition),
             Effect.setLastContactType n.wheelid (Int.tmod n.iswheel 2),
             Effect.setLastSlip n.wheelid n.nd_collision_slip,
             Effect.setLastGroundModel n.wheelid gm]
          else [])
    else
      (if env.use_skidmarks then [Effect.setIsSkiding n.wheelid false] else [])
  else
    if !nfx.nx_no_sparks ∧ n.nd_collision_slip > 1 ∧ env.m_particles_sparks then
      [Effect.allocSparks n.AbsPosition n.Velocity]
    else []

/-- Third block of the loop body, "Ground collision (dust, sparks, tyre smoke, clumps...)". -/
def groundEffects (env : ParticleEnv α) (n : node_t α) (nfx : NodeGfx α) : List (Effect α) :=
  match n.nd_collision_gm with
  | none => []
  | some gm =>
    if !nfx.nx_no_particles then
      match gm.fx_type with
      | SurfaceType.FX_DUSTY =>
        if env.m_particles_misc then
          [Effect.malloc n.AbsPosition (n.Velocity.divScalar 2) gm.fx_colour]
        else []
      | SurfaceType.FX_CLUMPY =>
        if env.m_particles_clump ∧ n.Velocity.squaredLength > 1 then
          [Effect.allocClump n.AbsPosition (n.Velocity.divScalar 2) gm.fx_colour]
        else []
      | SurfaceType.FX_HARD => hardSurfaceEffects env n nfx gm
      | SurfaceType.other _ => []
    else []

/-- One iteration of the loop `for (NodeGfx& nfx: m_gfx_nodes)`: the updated `NodeGfx` and the
effects of this iteration in program order. -/
def updateNodeParticles (env : ParticleEnv α) (dt_sec : α) (nfx : NodeGfx α) :
    NodeGfx α × List (Effect α) :=
  let n := env.ar_nodes nfx.nx_node_idx
  let wet := wetEffects env n dt_sec nfx
  ({ wet.1 with nx_under_water_prev := n.nd_under_water },
    wet.2 ++ splashEffects env n wet.1 ++ groundEffects env n wet.1)

/-- The method `GfxActor::UpdateParticles(float dt_sec)` on the list `m_gfx_nodes`. -/
def UpdateParticles (env : ParticleEnv α) (dt_sec : α) :
    List (NodeGfx α) → List (NodeGfx α) × List (Effect α)
  | [] => ([], [])
  | nfx :: rest =>
    let r := updateNodeParticles env dt_sec nfx
    let rs := UpdateParticles env dt_sec rest
    (r.1 :: rs.1, r.2 ++ rs.2)

/-- A run of consecutive frames: each frame calls `UpdateParticles` with its own physics state
and time step. -/
def UpdateParticlesFrames (frames : List (ParticleEnv α × α)) (nodes : List (NodeGfx α)) :
    List (NodeGfx α) :=
  frames.foldl (fun gfx f => (UpdateParticles f.1 f.2 gfx).1) nodes

/-- The wet timer after one step, following the wording of the specification: reset to zero on
leaving the water, then, unless dry, advance by `dt` and dry off above five seconds. -/
def wetTimerSpec (under_water_now under_water_prev : Bool) (timer dt : α) : α :=
  let t := if under_water_now = false ∧ under_water_prev = true then 0 else timer
  if t = -1 then t else if t + dt > 5 then -1 else t + dt

end Particles

/-! ## Flexible wheel meshes (`UpdateWheelVisuals`, `FinishWheelUpdates`) -/

/-- Visuals of one wheel, `GfxActor::WheelGfx`; a pointer is `none` when null and otherwise
the handle of the object it points to. -/
structure WheelGfx where
  wx_flex_mesh : Option Nat
  wx_scenenode : Option Nat
  wx_is_meshwheel : Bool
deriving DecidableEq

/-- Calls made by the wheel update, each tagged with the position of the wheel in `m_wheels`.
`runTask i` is `gEnv->threadPool->RunTask(func)` for the closure that calls `flexitCompute` on
wheel `i`; `flexitCompute i` is the direct call; `join i` joins the task started for wheel `i`;
`setPosition i` is `w.wx_scenenode->setPosition(w.wx_flex_mesh->flexitFinal())`. -/
inductive WheelOp where
  | flexitPrepare (wheel : Nat)
  | flexitCompute (wheel : Nat)
  | runTask (wheel : Nat)
  | join (task : Nat)
  | setPosition (wheel : Nat)
deriving DecidableEq

/-- The members `m_wheels` and `m_flexwheel_tasks`; a task handle is identified by the wheel
whose `flexitCompute` it runs. -/
structure WheelState where
  m_wheels : List WheelGfx
  m_flexwheel_tasks : List Nat
deriving DecidableEq

/-- Loop of `UpdateWheelVisuals` when `gEnv->threadPool` is set, over the wheels from position
`i` on: the task handles pushed and the calls made. `prepare i` is the value returned by
`flexitPrepare` for wheel `i`. Calling through a null `wx_flex_mesh` gives `none`. -/
def updateWheelsPool (prepare : Nat → Bool) : Nat → List WheelGfx → Option (List Nat × List WheelOp)
  | _, [] => some ([], [])
  | i, w :: ws =>
    match w.wx_scenenode with
    | none => updateWheelsPool prepare (i + 1) ws
    | some _ =>
      match w.wx_flex_mesh with
      | none => none
      | some _ =>
        if prepare i then
          (updateWheelsPool prepare (i + 1) ws).map
            (fun r => (i :: r.1, WheelOp.flexitPrepare i :: WheelOp.runTask i :: r.2))
        else
          (updateWheelsPool prepare (i + 1) ws).map
            (fun r => (r.1, WheelOp.flexitPrepare i :: r.2))

/-- Loop of `UpdateWheelVisuals` when there is no thread pool: compute and finalise in place. -/
def updateWheelsDirect (prepare : Nat → Bool) : Nat → List WheelGfx → Option (List WheelOp)
  | _, [] => some []
  | i, w :: ws =>
    match w.wx_scenenode with
    | none => updateWheelsDirect prepare (i + 1) ws
    | some _ =>
      match w.wx_flex_mesh with
      | none => none
      | some _ =>
        if prepare i then
          (updateWheelsDirect prepare (i + 1) ws).map
            (fun r => WheelOp.flexitPrepare i :: WheelOp.flexitCompute i
              :: WheelOp.setPosition i :: r)
        else
          (updateWheelsDirect prepare (i + 1) ws).map (fun r => WheelOp.flexitPrepare i :: r)

/-- The method `GfxActor::UpdateWheelVisuals()`; `threadPool` tells whether `gEnv->threadPool`
is set. The task list is cleared first. -/
def UpdateWheelVisuals (threadPool : Bool) (prepare : Nat → Bool) (st : WheelState) :
    Option (WheelState × List WheelOp) :=
  let cleared : WheelState := { st with m_flexwheel_tasks := [] }
  if threadPool then
    (updateWheelsPool prepare 0 cleared.m_wheels).map
      (fun r => ({ cleared with m_flexwheel_tasks := cleared.m_flexwheel_tasks ++ r.1 }, r.2))
  else
    (updateWheelsDirect prepare 0 cleared.m_wheels).map (fun r => (cleared, r))

/-- Second loop of `FinishWheelUpdates`: set the scene-node position of every wheel that has a
scene node. -/
def finalizeWheels : Nat → List WheelGfx → Option (List WheelOp)
  | _, [] => some []
  | i, w :: ws =>
    match w.wx_scenenode with
    | none => finalizeWheels (i + 1) ws
    | some _ =>
      match w.wx_flex_mesh with
      | none => none
      | some _ => (finalizeWheels (i + 1) ws).map (fun r => WheelOp.setPosition i :: r)

/-- The method `GfxActor::FinishWheelUpdates()`: the calls it makes, in order. -/
def FinishWheelUpdates (threadPool : Bool) (st : WheelState) : Option (List WheelOp) :=
  if threadPool then
    (finalizeWheels 0 st.m_wheels).map (fun r => st.m_flexwheel_tasks.map WheelOp.join ++ r)
  else some []

/-- Every wheel with a scene node also has a flex mesh. -/
def WheelsValid (wheels : List WheelGfx) : Prop :=
  ∀ w ∈ wheels, w.wx_scenenode ≠ none → w.wx_flex_mesh ≠ none

instance (wheels : List WheelGfx) : Decidable (WheelsValid wheels) := by
  unfold WheelsValid
  infer_instance

/-- Positions of the wheels that have a scene node, in list order. -/
def sceneWheels (wheels : List WheelGfx) : List Nat :=
  (wheels.enum.filter (fun p => p.2.wx_scenenode.isSome)).map Prod.fst

/-- Positions of the wheels that have a scene node and whose `flexitPrepare` returns true. -/
def preparedWheels (prepare : Nat → Bool) (wheels : List WheelGfx) : List Nat :=
  (wheels.enum.filter (fun p => p.2.wx_scenenode.isSome && prepare p.1)).map Prod.fst

/-- Wheels on which `flexitPrepare` is invoked, in call order. -/
def prepareCalls (ops : List WheelOp) : List Nat :=
  ops.filterMap (fun o => match o with
    | WheelOp.flexitPrepare i => some i
    | _ => none)

/-- Wheels whose `flexitCompute` is requested, directly or as a task, in call order. -/
def computeCalls (ops : List WheelOp) : List Nat :=
  ops.filterMap (fun o => match o with
    | WheelOp.flexitCompute i => some i
    | WheelOp.runTask i => some i
    | _ => none)

/-! ## Video cameras (`UpdateVideoCameras`) -/

/-- Four-component rotation, the layout of `Ogre::Quaternion`. -/
structure Quaternion (α : Type) where
  w : α
  x : α
  y : α
  z : α
deriving DecidableEq

/-- Rotation of a vector by a quaternion, `Ogre::Quaternion::operator*(const Vector3&)`. -/
def Quaternion.rotate {α : Type} [LinearOrderedField α] (q : Quaternion α) (v : Vector3 α) :
    Vector3 α :=
  let qvec : Vector3 α := ⟨q.x, q.y, q.z⟩
  let uv := qvec.crossProduct v
  let uuv := qvec.crossProduct uv
  (v.add (Vector3.smul (2 * q.w) uv)).add (Vector3.smul 2 uuv)

/-- Reflection `Ogre::Vector3::reflect`: the vector minus twice its part along `normal`. -/
def Vector3.reflect {α : Type} [LinearOrderedField α] (v normal : Vector3 α) : Vector3 α :=
  v.sub (Vector3.smul (2 * v.dotProduct normal) normal)

/-- Kinds of video camera, `GfxActor::VideoCamType`. -/
inductive VideoCamType where
  | VCTYPE_INVALID
  | VCTYPE_VIDEOCAM
  | VCTYPE_TRACKING_VIDEOCAM
  | VCTYPE_MIRROR
  | VCTYPE_MIRROR_PROP_LEFT
  | VCTYPE_MIRROR_PROP_RIGHT
deriving DecidableEq

/-- Record `GfxActor::VideoCamera`; engine objects are handles, null pointers are `none`;
`vcam_render_tex_name` is the name `vcam_render_tex->getName()` of the render texture. -/
structure VideoCamera (α : Type) where
  vcam_type : VideoCamType
  vcam_node_center : Nat
  vcam_node_dir_y : Nat
  vcam_node_dir_z : Nat
  vcam_node_alt_pos : Nat
  vcam_node_lookat : Nat
  vcam_pos_offset : Vector3 α
  vcam_rotation : Quaternion α
  vcam_ogre_camera : Nat
  vcam_render_target : Option Nat
  vcam_debug_node : Option Nat
  vcam_render_window : Option Nat
  vcam_prop_scenenode : Option Nat
  vcam_material : Nat
  vcam_render_tex_name : String
  vcam_off_tex_name : String

/-- Calls on engine objects made by `UpdateVideoCameras`. `setOrientation cam ax ay az q` is
`setOrientation(Ogre::Quaternion(ax, ay, az) * q)`; `debugSetOrientation d cam` copies the
camera's orientation to the debug node; `notifySkyCameraChanged` is the call on the sky manager
in builds with `USE_CAELUM`. -/
inductive CamOp (α : Type) where
  | renderTargetUpdate (target : Nat)
  | renderWindowUpdate (window : Nat)
  | setFixedYawAxis (camera : Nat) (axis : Vector3 α)
  | setDirection (camera : Nat) (dir : Vector3 α)
  | setOrientation (camera : Nat) (xaxis yaxis zaxis : Vector3 α) (rotation : Quaternion α)
  | debugSetPosition (node : Nat) (pos : Vector3 α)
  | debugSetOrientation (node : Nat) (camera : Nat)
  | setPosition (camera : Nat) (pos : Vector3 α)
  | lookAt (camera : Nat) (target : Vector3 α)
  | roll (camera : Nat) (angle : α)
  | notifySkyCameraChanged (camera : Nat)

section Cameras

variable {α : Type} [LinearOrderedField α]

/-- Local `normal` as first computed: "get the normal of the camera plane now". -/
def planeNormal (sqrt : α → α) (node_buf : Nat → Vector3 α) (vidcam : VideoCamera α) :
    Vector3 α :=
  let abs_pos_center := node_buf vidcam.vcam_node_center
  let abs_pos_z := node_buf vidcam.vcam_node_dir_z
  let abs_pos_y := node_buf vidcam.vcam_node_dir_y
  Vector3.normalise sqrt
    (Vector3.crossProduct (Vector3.neg (abs_pos_center.sub abs_pos_z))
      (Vector3.neg (abs_pos_center.sub abs_pos_y)))

/-- Local `pos`: the alternative-position node plus the user offset. -/
def cameraPos (sqrt : α → α) (node_buf : Nat → Vector3 α) (vidcam : VideoCamera α) :
    Vector3 α :=
  let abs_pos_center := node_buf vidcam.vcam_node_center
  let abs_pos_z := node_buf vidcam.vcam_node_dir_z
  let abs_pos_y := node_buf vidcam.vcam_node_dir_y
  (((node_buf vidcam.vcam_node_alt_pos).add
      (Vector3.smul vidcam.vcam_pos_offset.x (planeNormal sqrt node_buf vidcam))).add
      (Vector3.smul vidcam.vcam_pos_offset.y (abs_pos_center.sub abs_pos_y))).add
      (Vector3.smul vidcam.vcam_pos_offset.z (abs_pos_center.sub abs_pos_z))

/-- The branch on `vcam_type` that orients a node-driven camera. -/
def orientCamera (sqrt : α → α) (node_buf : Nat → Vector3 α) (mainCameraPos : Vector3 α)
    (vidcam : VideoCamera α) : List (CamOp α) :=
  let abs_pos_center := node_buf vidcam.vcam_node_center
  let abs_pos_z := node_buf vidcam.vcam_node_dir_z
  let abs_pos_y := node_buf vidcam.vcam_node_dir_y
  let normal := planeNormal sqrt node_buf vidcam
  let pos := cameraPos sqrt node_buf vidcam
  match vidcam.vcam_type with
  | VideoCamType.VCTYPE_MIRROR =>
    let normal1 := vidcam.vcam_rotation.rotate normal
    [CamOp.setDirection vidcam.vcam_ogre_camera ((pos.sub mainCameraPos).reflect normal1)]
  | VideoCamType.VCTYPE_VIDEOCAM =>
    let refx := Vector3.normalise sqrt (abs_pos_z.sub abs_pos_center)
    let refy := Vector3.normalise sqrt (abs_pos_center.sub abs_pos_y)
    [CamOp.setOrientation vidcam.vcam_ogre_camera refx.neg refy.neg normal.neg
      vidcam.vcam_rotation]
  | VideoCamType.VCTYPE_TRACKING_VIDEOCAM =>
    let normal1 := Vector3.normalise sqrt ((node_buf vidcam.vcam_node_lookat).sub pos)
    let refx := Vector3.normalise sqrt (abs_pos_z.sub abs_pos_center)
    let refy := Vector3.normalise sqrt (refx.crossProduct normal1)
    [CamOp.setOrientation vidcam.vcam_ogre_camera refx.neg refy.neg normal1.neg
      vidcam.vcam_rotation]
  | _ => []

/-- Loop body of `UpdateVideoCameras` for a camera that is not a mirror prop: the engine calls
in program order. -/
def updateNodeCamera (sqrt : α → α) (node_buf : Nat → Vector3 α) (mainCameraPos : Vector3 α)
    (vidcam : VideoCamera α) : List (CamOp α) :=
  let abs_pos_center := node_buf vidcam.vcam_node_center
  let abs_pos_y := node_buf vidcam.vcam_node_dir_y
  let pos := cameraPos sqrt node_buf vidcam
  let frustumUP := Vector3.normalise sqrt (abs_pos_center.sub abs_pos_y)
  (match vidcam.vcam_render_target with
    | some t => [CamOp.renderTargetUpdate t]
    | none => [])
  ++ (match vidcam.vcam_render_window with
    | some w => [CamOp.renderWindowUpdate w]
    | none => [])
  ++ [CamOp.setFixedYawAxis vidcam.vcam_ogre_camera frustumUP]
  ++ orientCamera sqrt node_buf mainCameraPos vidcam
  ++ (match vidcam.vcam_debug_node with
    | some d => [CamOp.debugSetPosition d pos, CamOp.debugSetOrientation d vidcam.vcam_ogre_camera]
    | none => [])
  ++ [CamOp.setPosition vidcam.vcam_ogre_camera pos]

/-- Three points lie on one line (or coincide): the vector product of the two differences from
the first point vanishes. -/
def Collinear (center y z : Vector3 α) : Prop :=
  Vector3.crossProduct (z.sub center) (y.sub center) = Vector3.ZERO

end Cameras

/-! ## Mirror props and the camera loop (`UpdateVideoCameras`) -/

/-- State of the video cameras, `GfxActor::VideoCamState`; the source names one state. -/
inductive VideoCamState where
  | VCSTATE_ENABLED_ONLINE
  | other (code : Nat)
deriving DecidableEq

/-- The functions `cos`, `sin`, `asin` and the constant pi used by the mirror-prop branch. -/
structure Trig (α : Type) where
  cos : α → α
  sin : α → α
  asin : α → α
  pi : α

/-- What `UpdateVideoCameras` reads besides the camera list: the node buffer
`m_simbuf.simbuf_nodes` (positions), the main camera position, the actor's mirror angles and
direction, the transform of each scene node, and whether the sky manager is to be notified
(`USE_CAELUM` build, sky manager present, application in simulation state). -/
structure VideoCamEnv (α : Type) where
  node_buf : Nat → Vector3 α
  mainCameraPos : Vector3 α
  ar_left_mirror_angle : α
  ar_right_mirror_angle : α
  actorDirection : Vector3 α
  sceneNodeOrientation : Nat → Quaternion α
  sceneNodePosition : Nat → Vector3 α
  sky_notify : Bool

section MirrorProp

variable {α : Type} [LinearOrderedField α]

/-- Projection `Ogre::Plane::projectVector` for a plane with the given normal: the product of
the matrix `1 - normal normalᵀ` with the vector. -/
def projectVector (normal p : Vector3 α) : Vector3 α :=
  ⟨(1 - normal.x * normal.x) * p.x + (-normal.x * normal.y) * p.y + (-normal.x * normal.z) * p.z,
   (-normal.y * normal.x) * p.x + (1 - normal.y * normal.y) * p.y + (-normal.y * normal.z) * p.z,
   (-normal.z * normal.x) * p.x + (-normal.z * normal.y) * p.y + (1 - normal.z * normal.z) * p.z⟩

/-- Local `roll`: `Ogre::Degree(360) - Ogre::Radian(asin(direction . UNIT_Y))`, converted to
radians. -/
def mirrorRoll (t : Trig α) (direction : Vector3 α) : α :=
  (360 - t.asin (direction.dotProduct ⟨0, 1, 0⟩) * (180 / t.pi)) * (t.pi / 180)

/-- Local `normal` of the mirror-prop branch. -/
def mirrorPropNormal (t : Trig α) (env : VideoCamEnv α) (vidcam : VideoCamera α) (node : Nat) :
    Vector3 α :=
  let mirror_angle :=
    if vidcam.vcam_type = VideoCamType.VCTYPE_MIRROR_PROP_LEFT then env.ar_left_mirror_angle
    else env.ar_right_mirror_angle
  (env.sceneNodeOrientation node).rotate ⟨t.cos mirror_angle, t.sin mirror_angle, 0⟩

/-- Local `center` of the mirror-prop branch. -/
def mirrorPropCenter (env : VideoCamEnv α) (vidcam : VideoCamera α) (node : Nat) : Vector3 α :=
  let offset : Vector3 α :=
    if vidcam.vcam_type = VideoCamType.VCTYPE_MIRROR_PROP_LEFT then ⟨7 / 100, -(22 / 100), 0⟩
    else ⟨7 / 100, 22 / 100, 0⟩
  (env.sceneNodePosition node).add ((env.sceneNodeOrientation node).rotate offset)

/-- Look-at target of the mirror-prop branch: the main camera position minus twice its
projection, relative to the centre, onto the mirror plane. -/
def mirrorPropTarget (normal center mainCameraPos : Vector3 α) : Vector3 α :=
  mainCameraPos.sub (Vector3.smul 2 (projectVector normal (mainCameraPos.sub center)))

/-- The branch "Mirror prop - special processing"; calling through a null
`vcam_prop_scenenode` gives `none`. -/
def updateMirrorProp (t : Trig α) (env : VideoCamEnv α) (vidcam : VideoCamera α) :
    Option (List (CamOp α)) :=
  match vidcam.vcam_prop_scenenode with
  | none => none
  | some node =>
    let normal := mirrorPropNormal t env vidcam node
    let center := mirrorPropCenter env vidcam node
    let roll := mirrorRoll t env.actorDirection
    some [CamOp.setPosition vidcam.vcam_ogre_camera center,
      CamOp.lookAt vidcam.vcam_ogre_camera (mirrorPropTarget normal center env.mainCameraPos),
      CamOp.roll vidcam.vcam_ogre_camera roll]

/-- One iteration of the loop over `m_videocameras`. -/
def updateVideoCamera (sqrt : α → α) (t : Trig α) (env : VideoCamEnv α)
    (vidcam : VideoCamera α) : Option (List (CamOp α)) :=
  let sky : List (CamOp α) :=
    if env.sky_notify then [CamOp.notifySkyCameraChanged vidcam.vcam_ogre_camera] else []
  if vidcam.vcam_type = VideoCamType.VCTYPE_MIRROR_PROP_LEFT
      ∨ vidcam.vcam_type = VideoCamType.VCTYPE_MIRROR_PROP_RIGHT then
    (updateMirrorProp t env vidcam).map (fun ops => sky ++ ops)
  else
    some (sky ++ updateNodeCamera sqrt env.node_buf env.mainCameraPos vidcam)

/-- The loop `for (GfxActor::VideoCamera vidcam: m_videocameras)`. -/
def videoCameraLoop (sqrt : α → α) (t : Trig α) (env : VideoCamEnv α) :
    List (VideoCamera α) → Option (List (CamOp α))
  | [] => some []
  | vidcam :: rest =>
    match updateVideoCamera sqrt t env vidcam with
    | none => none
    | some ops => (videoCameraLoop sqrt t env rest).map (fun more => ops ++ more)

/-- The method `GfxActor::UpdateVideoCameras(float dt_sec)`, which does not use `dt_sec`: the
engine calls in program order. -/
def UpdateVideoCameras (sqrt : α → α) (t : Trig α) (m_vidcam_state : VideoCamState)
    (env : VideoCamEnv α) (m_videocameras : List (VideoCamera α)) : Option (List (CamOp α)) :=
  if m_vidcam_state ≠ VideoCamState.VCSTATE_ENABLED_ONLINE then some []
  else videoCameraLoop sqrt t env m_videocameras

/-- Every mirror-prop camera has its prop scene node. -/
def CamerasValid (cams : List (VideoCamera α)) : Prop :=
  ∀ v ∈ cams, (v.vcam_type = VideoCamType.VCTYPE_MIRROR_PROP_LEFT
      ∨ v.vcam_type = VideoCamType.VCTYPE_MIRROR_PROP_RIGHT) → v.vcam_prop_scenenode ≠ none

/-- Cameras whose position is set, in call order. -/
def positionCalls (ops : List (CamOp α)) : List Nat :=
  ops.filterMap (fun o => match o with
    | CamOp.setPosition cam _ => some cam
    | _ => none)

/-- Determinant of the matrix whose columns are the three vectors. -/
def Vector3.det3 (a b c : Vector3 α) : α := a.dotProduct (b.crossProduct c)

end MirrorProp

/-! ## One wheel frame (`UpdateWheelVisuals` followed by `FinishWheelUpdates`) -/

/-- Wheels whose scene-node position is set from `flexitFinal`, in call order. -/
def finalCalls (ops : List WheelOp) : List Nat :=
  ops.filterMap (fun o => match o with
    | WheelOp.setPosition i => some i
    | _ => none)

/-- The calls of one frame: `UpdateWheelVisuals`, then `FinishWheelUpdates` on the state it
leaves. -/
def wheelFrame (threadPool : Bool) (prepare : Nat → Bool) (st : WheelState) :
    Option (List WheelOp) :=
  match UpdateWheelVisuals threadPool prepare st with
  | none => none
  | some (st1, ops1) => (FinishWheelUpdates threadPool st1).map (fun ops2 => ops1 ++ ops2)

/-! ## Simulation data buffer (`UpdateSimDataBuffer`) -/

/-- Simulation state of an actor, `Actor::SimState`; the source names two states. -/
inductive SimState where
  | LOCAL_SIMULATED
  | LOCAL_SLEEPING
  | other (code : Nat)
deriving DecidableEq

/-- Values read from `ar_engine` when it is not null. -/
structure EngineData (α : Type) where
  gear : Int
  autoShift : Int
  engineRpm : α

/-- The parts of `Actor` read by `UpdateSimDataBuffer`; `ar_airbrakes i` is the `ratio` of the
airbrake `ar_airbrakes[i]`. -/
structure ActorData (α : Type) where
  ar_sim_state : SimState
  position : Vector3 α
  headingDirectionAngle : α
  tyrePressure : α
  ar_bounding_box : Vector3 α × Vector3 α
  ar_wheel_speed : α
  m_net_username : String
  ar_num_nodes : Int
  ar_nodes : Nat → node_t α
  ar_num_airbrakes : Int
  ar_airbrakes : Nat → α
  ar_engine : Option (EngineData α)

/-- The buffer `GfxActor::SimBuffer`; `simbuf_nodes i` is the `AbsPosition` of entry `i` of the
node array. -/
structure SimBuffer (α : Type) where
  simbuf_live_local : Bool
  simbuf_pos : Vector3 α
  simbuf_heading_angle : α
  simbuf_tyre_pressure : α
  simbuf_aabb : Vector3 α × Vector3 α
  simbuf_wheel_speed : α
  simbuf_net_username : String
  simbuf_nodes : Nat → Vector3 α
  simbuf_airbrakes : List α
  simbuf_gear : Int
  simbuf_autoshift : Int
  simbuf_engine_rpm : α

section SimData

variable {α : Type}

/-- The loop over the nodes: entry `i` of the buffer takes the actor's position of node `i`,
for `i` from 0 below `num_nodes`. -/
def copyNodes (actor : ActorData α) (num_nodes : Int) (buf : Nat → Vector3 α) :
    Nat → Vector3 α :=
  (List.range num_nodes.toNat).foldl
    (fun b i => Function.update b i (actor.ar_nodes i).AbsPosition) buf

/-- The loop over the airbrakes: one `push_back` for each `i` from 0 below `num_airbrakes`. -/
def copyAirbrakes (actor : ActorData α) (num_airbrakes : Int) (airbrakes : List α) : List α :=
  (List.range num_airbrakes.toNat).foldl (fun l i => l ++ [actor.ar_airbrakes i]) airbrakes

/-- The method `GfxActor::UpdateSimDataBuffer()`. -/
def UpdateSimDataBuffer (actor : ActorData α) (m_simbuf : SimBuffer α) : SimBuffer α :=
  let b1 : SimBuffer α :=
    { m_simbuf with
      simbuf_live_local := decide (actor.ar_sim_state = SimState.LOCAL_SIMULATED)
      simbuf_pos := actor.position
      simbuf_heading_angle := actor.headingDirectionAngle
      simbuf_tyre_pressure := actor.tyrePressure
      simbuf_aabb := actor.ar_bounding_box
      simbuf_wheel_speed := actor.ar_wheel_speed
      simbuf_net_username :=
        if m_simbuf.simbuf_net_username ≠ actor.m_net_username then actor.m_net_username
        else m_simbuf.simbuf_net_username }
  -- nodes
  let b2 : SimBuffer α :=
    { b1 with simbuf_nodes := copyNodes actor actor.ar_num_nodes b1.simbuf_nodes }
  -- airbrakes: clear, then push_back
  let b3 : SimBuffer α :=
    { b2 with simbuf_airbrakes := copyAirbrakes actor actor.ar_num_airbrakes [] }
  -- Engine (+drivetrain)
  match actor.ar_engine with
  | some engine =>
    { b3 with
      simbuf_gear := engine.gear
      simbuf_autoshift := engine.autoShift
      simbuf_engine_rpm := engine.engineRpm }
  | none => b3

end SimData

/-! ## Console view (`GUI::ConsoleView::MessageFilter`) -/

/-- Area of a console message, `Console::MessageArea`; the source names five areas. -/
inductive MessageArea where
  | CONSOLE_MSGTYPE_INFO
  | CONSOLE_MSGTYPE_LOG
  | CONSOLE_MSGTYPE_ACTOR
  | CONSOLE_MSGTYPE_TERRN
  | CONSOLE_MSGTYPE_SCRIPT
  | other (code : Nat)
deriving DecidableEq

/-- Type of a console message, `Console::MessageType`; the source names six types. -/
inductive MessageType where
  | CONSOLE_HELP
  | CONSOLE_TITLE
  | CONSOLE_SYSTEM_REPLY
  | CONSOLE_SYSTEM_ERROR
  | CONSOLE_SYSTEM_WARNING
  | CONSOLE_SYSTEM_NOTICE
  | other (code : Nat)
deriving DecidableEq

/-- The record `Console::Message`. -/
structure Message where
  cm_area : MessageArea
  cm_type : MessageType
  cm_timestamp : Nat
  cm_net_userid : Nat
  cm_text : String
deriving DecidableEq

/-- The settings of `GUI::ConsoleView`. -/
structure ConsoleView where
  cvw_filter_area_echo : Bool
  cvw_filter_area_script : Bool
  cvw_filter_area_actor : Bool
  cvw_filter_area_terrn : Bool
  cvw_filter_type_notice : Bool
  cvw_filter_type_warning : Bool
  cvw_filter_type_error : Bool
  cvw_filter_duration_ms : Nat
  cvw_max_lines : Nat
  cvw_align_bottom : Bool
deriving DecidableEq

/-- The method `GUI::ConsoleView::MessageFilter`. `currentMsgTime` is the value of
`App::GetConsole()->GetCurrentMsgTime()`; the sum of the two unsigned values is taken modulo
`2 ^ wordBits`, the width of the unsigned type it is computed in. -/
def ConsoleView.MessageFilter (wordBits : Nat) (view : ConsoleView) (currentMsgTime : Nat)
    (m : Message) : Bool :=
  let area_ok : Bool :=
    decide (m.cm_area = MessageArea.CONSOLE_MSGTYPE_INFO)
    || (decide (m.cm_area = MessageArea.CONSOLE_MSGTYPE_LOG) && view.cvw_filter_area_echo)
    || (decide (m.cm_area = MessageArea.CONSOLE_MSGTYPE_ACTOR) && view.cvw_filter_area_actor)
    || (decide (m.cm_area = MessageArea.CONSOLE_MSGTYPE_TERRN) && view.cvw_filter_area_terrn)
    || (decide (m.cm_area = MessageArea.CONSOLE_MSGTYPE_SCRIPT) && view.cvw_filter_area_script)
  let type_ok : Bool :=
    decide (m.cm_type = MessageType.CONSOLE_HELP)
    || decide (m.cm_type = MessageType.CONSOLE_TITLE)
    || decide (m.cm_type = MessageType.CONSOLE_SYSTEM_REPLY)
    || (decide (m.cm_type = MessageType.CONSOLE_SYSTEM_ERROR) && view.cvw_filter_type_error)
    || (decide (m.cm_type = MessageType.CONSOLE_SYSTEM_WARNING) && view.cvw_filter_type_warning)
    || (decide (m.cm_type = MessageType.CONSOLE_SYSTEM_NOTICE) && view.cvw_filter_type_notice)
  let time_ok : Bool :=
    decide (view.cvw_filter_duration_ms = 0)
    || decide ((m.cm_timestamp + view.cvw_filter_duration_ms) % 2 ^ wordBits ≥ currentMsgTime)
  type_ok && area_ok && time_ok

/-! ## Rods (`AddRod`, `UpdateRods`, `SpecialGetRotationTo`, `ScaleActor`) -/

/-- Visual of one beam, `GfxActor::Rod`; the integer fields are `uint16_t`. -/
structure Rod where
  rod_scenenode : Nat
  rod_diameter_mm : Nat
  rod_beam_index : Nat
  rod_node1 : Nat
  rod_node2 : Nat
deriving DecidableEq

/-- Calls on the scene node of a rod made by `UpdateRods`. -/
inductive RodOp (α : Type) where
  | setPosition (node : Nat) (pos : Vector3 α)
  | setScale (node : Nat) (x y z : α)
  | setOrientation (node : Nat) (q : Quaternion α)

section Rods

variable {α : Type} [LinearOrderedField α]

/-- Conversion `static_cast<uint16_t>(float)`: the value truncated towards zero; `none` when
the truncated value does not fit 16 bits (undefined in C++). -/
def floatToU16 [FloorRing α] (x : α) : Option Nat :=
  if -1 < x ∧ x < 65536 then some (Int.toNat ⌊x⌋) else none

/-- The diameter stored by `AddRod`: `uint16_t(diameter_meters * 1000.f)`. -/
def AddRod_diameter_mm [FloorRing α] (diameter_meters : α) : Option Nat :=
  floatToU16 (diameter_meters * 1000)

/-- The rod pushed by `AddRod` on the scene node created for it. -/
def AddRod [FloorRing α] (scenenode beam_index node1_index node2_index : Nat)
    (diameter_meters : α) : Option Rod :=
  (AddRod_diameter_mm diameter_meters).map (fun mm =>
    { rod_scenenode := scenenode
      rod_diameter_mm := mm
      rod_beam_index := beam_index % 65536
      rod_node1 := node1_index % 65536
      rod_node2 := node2_index % 65536 })

/-- Local `beam_diameter` of `UpdateRods`: the stored millimetres times 0.001. -/
def beamDiameter (rod : Rod) : α := (rod.rod_diameter_mm : α) * (1 / 1000)

/-- Loop body of `ScaleActor`. -/
def scaleRod [FloorRing α] (ratio : α) (rod : Rod) : Option Rod :=
  let diameter2 : α := (rod.rod_diameter_mm : α) * (ratio * 1000)
  (floatToU16 diameter2).map (fun mm => { rod with rod_diameter_mm := mm })

/-- The method `GfxActor::ScaleActor(float ratio)` on the list `m_rods`. -/
def ScaleActor [FloorRing α] (ratio : α) : List Rod → Option (List Rod)
  | [] => some []
  | rod :: rest =>
    match scaleRod ratio rod with
    | none => none
    | some rod1 => (ScaleActor ratio rest).map (fun more => rod1 :: more)

/-- The constant `Ogre::Quaternion::IDENTITY`. -/
def Quaternion.IDENTITY : Quaternion α := ⟨1, 0, 0, 0⟩

/-- Squared norm of a quaternion, `Ogre::Quaternion::Norm`. -/
def Quaternion.Norm (q : Quaternion α) : α := q.w * q.w + q.x * q.x + q.y * q.y + q.z * q.z

/-- Test `Ogre::Vector3::isZeroLength`: squared length below `1e-06 * 1e-06`. -/
def Vector3.isZeroLength (a : Vector3 α) : Bool :=
  decide (a.squaredLength < (1 / 1000000) * (1 / 1000000))

/-- Rotation about an axis, `Ogre::Quaternion::FromAngleAxis`. -/
def Quaternion.FromAngleAxis (t : Trig α) (angle : α) (axis : Vector3 α) : Quaternion α :=
  let fHalfAngle := (1 / 2) * angle
  let fSin := t.sin fHalfAngle
  ⟨t.cos fHalfAngle, fSin * axis.x, fSin * axis.y, fSin * axis.z⟩

/-- The function `GfxActor::SpecialGetRotationTo(src, dest)`; `sqrt` is the square root of
`normalise`, `fast_sqrt` the helper of `ApproxMath.h`. -/
def SpecialGetRotationTo (sqrt fast_sqrt : α → α) (t : Trig α) (src dest : Vector3 α) :
    Quaternion α :=
  let v0 := Vector3.normalise sqrt src
  let v1 := Vector3.normalise sqrt dest
  let d := v0.dotProduct v1
  -- If dot == 1, vectors are the same
  if d ≥ 1 then Quaternion.IDENTITY
  else if d < 1 / 1000000 - 1 then
    -- Generate an axis
    let axis0 : Vector3 α := Vector3.crossProduct ⟨1, 0, 0⟩ src
    let axis : Vector3 α :=
      if axis0.isZeroLength then Vector3.crossProduct ⟨0, 1, 0⟩ src else axis0
    Quaternion.FromAngleAxis t t.pi (Vector3.normalise sqrt axis)
  else
    let s := fast_sqrt ((1 + d) * 2)
    if s = 0 then Quaternion.IDENTITY
    else
      let c := v0.crossProduct v1
      let invs := 1 / s
      ⟨s * (1 / 2), c.x * invs, c.y * invs, c.z * invs⟩

/-- Mid point `Ogre::Vector3::midPoint`. -/
def Vector3.midPoint (a b : Vector3 α) : Vector3 α :=
  ⟨(a.x + b.x) * (1 / 2), (a.y + b.y) * (1 / 2), (a.z + b.z) * (1 / 2)⟩

/-- Loop body of `UpdateRods` for one rod, `ar_nodes i` being the position of node `i`. -/
def updateRod (sqrt fast_sqrt : α → α) (t : Trig α) (ar_nodes : Nat → Vector3 α) (rod : Rod) :
    List (RodOp α) :=
  let pos1 := ar_nodes rod.rod_node1
  let pos2 := ar_nodes rod.rod_node2
  let beam_diameter : α := beamDiameter rod
  let beam_length : α := Vector3.length sqrt (pos1.sub pos2)
  [RodOp.setPosition rod.rod_scenenode (pos1.midPoint pos2),
   RodOp.setScale rod.rod_scenenode beam_diameter beam_length beam_diameter,
   RodOp.setOrientation rod.rod_scenenode
     (SpecialGetRotationTo sqrt fast_sqrt t ⟨0, 1, 0⟩ (pos1.sub pos2))]

/-- The method `GfxActor::UpdateRods()`. -/
def UpdateRods (sqrt fast_sqrt : α → α) (t : Trig α) (ar_nodes : Nat → Vector3 α)
    (m_rods : List Rod) : List (RodOp α) :=
  m_rods.flatMap (updateRod sqrt fast_sqrt t ar_nodes)

end Rods

/-! ## Wheel visuals (`SetWheelVisuals`) -/

/-- The method `GfxActor::SetWheelVisuals(uint16_t index, WheelGfx wheel_gfx)` on the list
`m_wheels`. `fresh` is the value-initialised `WheelGfx` with which `resize` fills; `index + 1` is
computed in `int` after integer promotion. -/
def SetWheelVisuals (fresh : WheelGfx) (index : Nat) (wheel_gfx : WheelGfx)
    (m_wheels : List WheelGfx) : List WheelGfx :=
  let resized :=
    if m_wheels.length ≤ index then
      m_wheels ++ List.replicate (index + 1 - m_wheels.length) fresh
    else m_wheels
  resized.set index wheel_gfx

/-! ## Video camera state (`SetVideoCamState`) -/

/-- Calls on engine objects made by `SetVideoCamState`: `setActive` on a render target,
`setTextureName` on the first texture unit of a material, `setActive` on a render window. -/
inductive VidOp where
  | setTargetActive (target : Nat) (value : Bool)
  | setTextureName (material : Nat) (name : String)
  | setWindowActive (window : Nat) (value : Bool)
deriving DecidableEq

/-- What the calls of `SetVideoCamState` act on: the active flag of each render target and
render window and the texture name of each material. -/
structure RenderState where
  targetActive : Nat → Bool
  windowActive : Nat → Bool
  textureName : Nat → String

/-- Effect of one call on the render state. -/
def RenderState.apply (rs : RenderState) : VidOp → RenderState
  | VidOp.setTargetActive t b => { rs with targetActive := Function.update rs.targetActive t b }
  | VidOp.setTextureName m n => { rs with textureName := Function.update rs.textureName m n }
  | VidOp.setWindowActive w b => { rs with windowActive := Function.update rs.windowActive w b }

/-- Effect of a sequence of calls on the render state, in order. -/
def RenderState.applyAll (rs : RenderState) (ops : List VidOp) : RenderState :=
  ops.foldl RenderState.apply rs

/-- Loop body of `SetVideoCamState` for one camera. -/
def setVideoCamActive {α : Type} (enable : Bool) (vidcam : VideoCamera α) : List VidOp :=
  match vidcam.vcam_render_target with
  | some target =>
    [VidOp.setTargetActive target enable,
     if enable then VidOp.setTextureName vidcam.vcam_material vidcam.vcam_render_tex_name
     else VidOp.setTextureName vidcam.vcam_material vidcam.vcam_off_tex_name]
  | none =>
    match vidcam.vcam_render_window with
    | some window => [VidOp.setWindowActive window enable]
    | none => []

/-- The method `GfxActor::SetVideoCamState(VideoCamState state)`: the new value of
`m_vidcam_state` and the calls made, in order. -/
def SetVideoCamState {α : Type} (m_videocameras : List (VideoCamera α))
    (m_vidcam_state state : VideoCamState) : VideoCamState × List VidOp :=
  if state = m_vidcam_state then
    -- Nothing to do.
    (m_vidcam_state, [])
  else
    let enable : Bool := decide (state = VideoCamState.VCSTATE_ENABLED_ONLINE)
    (state, m_videocameras.flatMap (setVideoCamActive enable))

/-- "Render target active iff the state is `VCSTATE_ENABLED_ONLINE`", for every camera that has
a render target. -/
def TargetsConsistent {α : Type} (cams : List (VideoCamera α)) (state : VideoCamState)
    (rs : RenderState) : Prop :=
  ∀ v ∈ cams, ∀ target, v.vcam_render_target = some target →
    (rs.targetActive target = true ↔ state = VideoCamState.VCSTATE_ENABLED_ONLINE)

/-! ## Console view (`GUI::ConsoleView::DrawConsoleMessages`) -/

/-- Colours used for console lines: the theme colours and the colour of a network player. -/
inductive TextColor where
  | highlight_text_color
  | error_text_color
  | warning_text_color
  | success_text_color
  | help_text_color
  | player (colournum : Nat)
deriving DecidableEq

/-- Calls on the GUI library made by `DrawConsoleMessages`. -/
inductive ImGuiOp where
  | NewLine
  | TextColored (color : TextColor) (text : String)
  | Text (text : String)
  | SameLine
deriving DecidableEq

/-- The drawing of one message of the display list; `userInfo id` is the user name and colour
number that `Networking::GetUserInfo` reports for the user id. -/
def drawMessage (userInfo : Nat → String × Nat) (dm : Message) : List ImGuiOp :=
  (if dm.cm_net_userid ≠ 0 then
    [ImGuiOp.TextColored (TextColor.player (userInfo dm.cm_net_userid).2)
        ((userInfo dm.cm_net_userid).1 ++ ": "),
     ImGuiOp.SameLine]
   else [])
  ++ [match dm.cm_type with
      | MessageType.CONSOLE_TITLE =>
        ImGuiOp.TextColored TextColor.highlight_text_color dm.cm_text
      | MessageType.CONSOLE_SYSTEM_ERROR =>
        ImGuiOp.TextColored TextColor.error_text_color dm.cm_text
      | MessageType.CONSOLE_SYSTEM_WARNING =>
        ImGuiOp.TextColored TextColor.warning_text_color dm.cm_text
      | MessageType.CONSOLE_SYSTEM_REPLY =>
        ImGuiOp.TextColored TextColor.success_text_color dm.cm_text
      | MessageType.CONSOLE_HELP =>
        ImGuiOp.TextColored TextColor.help_text_color dm.cm_text
      | _ => ImGuiOp.Text dm.cm_text]

/-- The list `m_display_list` built by `DrawConsoleMessages` from the console's messages: the
last `disp_max` messages that pass the filter. -/
def displayList (wordBits : Nat) (view : ConsoleView) (currentMsgTime : Nat)
    (messages : List Message) : List Message :=
  let disp_max := min view.cvw_max_lines messages.length
  (messages.drop (messages.length - disp_max)).filter
    (view.MessageFilter wordBits currentMsgTime)

/-- The blank lines emitted before the messages: one `NewLine` for each `i` from the size of
the display list below `cvw_max_lines`, when `cvw_align_bottom` is set. -/
def blankLines (view : ConsoleView) (m_display_list : List Message) : List ImGuiOp :=
  if view.cvw_align_bottom then
    List.replicate (view.cvw_max_lines - m_display_list.length) ImGuiOp.NewLine
  else []

/-- The method `GUI::ConsoleView::DrawConsoleMessages()`: the display list and the GUI calls in
order. -/
def ConsoleView.DrawConsoleMessages (wordBits : Nat) (view : ConsoleView)
    (currentMsgTime : Nat) (userInfo : Nat → String × Nat) (messages : List Message) :
    List Message × List ImGuiOp :=
  let m_display_list := displayList wordBits view currentMsgTime messages
  (m_display_list,
    blankLines view m_display_list ++ m_display_list.flatMap (drawMessage userInfo))

/-! ## Debug views (`CycleDebugViews`) -/

/-- Kind of debug overlay, `GfxActor::DebugViewType`; the source names four kinds. -/
inductive DebugViewType where
  | DEBUGVIEW_NONE
  | DEBUGVIEW_SKELETON
  | DEBUGVIEW_NODES
  | DEBUGVIEW_BEAMS
  | other (code : Nat)
deriving DecidableEq

/-- The method `GfxActor::CycleDebugViews()` as a function of `m_debug_view`. -/
def CycleDebugViews : DebugViewType → DebugViewType
  | DebugViewType.DEBUGVIEW_NONE => DebugViewType.DEBUGVIEW_SKELETON
  | DebugViewType.DEBUGVIEW_SKELETON => DebugViewType.DEBUGVIEW_NODES
  | DebugViewType.DEBUGVIEW_NODES => DebugViewType.DEBUGVIEW_BEAMS
  | DebugViewType.DEBUGVIEW_BEAMS => DebugViewType.DEBUGVIEW_NONE
  | DebugViewType.other code => DebugViewType.other code

/-- The value of `m_debug_view` set by the constructor of `GfxActor`. -/
def initialDebugView : DebugViewType := DebugViewType.DEBUGVIEW_NONE

/-! ## Float arithmetic (each `float` operation rounded on its own) -/

section FloatArithmetic

variable {α : Type} [LinearOrderedField α]

/-- Nearest integer of `q`, a tie going to the even neighbour. -/
def roundHalfEven [FloorRing α] (q : α) : ℤ :=
  let f := ⌊q⌋
  let r := q - f
  if r < 1 / 2 then f else if 1 / 2 < r then f + 1 else if f % 2 = 0 then f else f + 1

/-- Number of halvings that bring `n` below 2, at most `fuel` of them: the position of the
leading binary digit of `n` when `fuel` is at least that position. -/
def floorLog2 : Nat → Nat → Nat
  | 0, _ => 0
  | fuel + 1, n => if 2 ≤ n then floorLog2 fuel (n / 2) + 1 else 0

/-- Exponent `e` with `2 ^ e ≤ |x| < 2 ^ (e + 1)`, for `x` other than zero. -/
def binaryExponent [FloorRing α] (x : α) : ℤ :=
  if 1 ≤ |x| then (floorLog2 ⌊|x|⌋₊ ⌊|x|⌋₊ : ℤ)
  else -((floorLog2 ⌈1 / |x|⌉₊ (⌈1 / |x|⌉₊ - 1) : ℤ) + 1)

/-- Rounding of an exact result to the C++ type `float` (IEEE 754 binary32, round to nearest,
ties to even): 24 significant bits, with the exponent not below -126. Results beyond the
largest finite `float` are outside this model. -/
def roundF32 [FloorRing α] (x : α) : α :=
  if x = 0 then 0
  else
    let e := max (binaryExponent x) (-126)
    (roundHalfEven (x / 2 ^ (e - 23)) : α) * 2 ^ (e - 23)

/-- First block of the loop body of `UpdateParticles`, "Wet effects - water dripping and
vapour", with the sum `nx_wet_time_sec += dt_sec` rounded by `rnd` as a `float` addition
is. With `rnd` the identity this is `wetEffects`. -/
def wetEffectsFloat (rnd : α → α) (env : ParticleEnv α) (n : node_t α) (dt_sec : α)
    (nfx : NodeGfx α) : NodeGfx α × List (Effect α) :=
  if nfx.nx_may_get_wet && !nfx.nx_no_particles then
    -- Getting out of water?
    let wet1 : α := if !n.nd_under_water && nfx.nx_under_water_prev then 0 else nfx.nx_wet_time_sec
    -- Dripping water?
    if wet1 ≠ -1 then
      let wet2 : α := rnd (wet1 + dt_sec)
      if wet2 > 5 then
        -- Dries off in 5 sec
        ({ nfx with nx_wet_time_sec := -1 }, [])
      else if nfx.nx_may_get_wet then
        ({ nfx with nx_wet_time_sec := wet2 },
          (if env.m_particles_drip then
            [Effect.allocDrip n.AbsPosition n.Velocity wet2] else [])
          ++ (if nfx.nx_is_hot && env.m_particles_misc then
            [Effect.allocVapour n.AbsPosition n.Velocity wet2] else []))
      else ({ nfx with nx_wet_time_sec := wet2 }, [])
    else ({ nfx with nx_wet_time_sec := wet1 }, [])
  else (nfx, [])

/-- One iteration of the loop `for (NodeGfx& nfx: m_gfx_nodes)` with the timer addition
rounded by `rnd`. -/
def updateNodeParticlesFloat (rnd : α → α) (env : ParticleEnv α) (dt_sec : α)
    (nfx : NodeGfx α) : NodeGfx α × List (Effect α) :=
  let n := env.ar_nodes nfx.nx_node_idx
  let wet := wetEffectsFloat rnd env n dt_sec nfx
  ({ wet.1 with nx_under_water_prev := n.nd_under_water },
    wet.2 ++ splashEffects env n wet.1 ++ groundEffects env n wet.1)

/-- The method `GfxActor::UpdateParticles(float dt_sec)` on the list `m_gfx_nodes`, with the
timer addition rounded by `rnd`. -/
def UpdateParticlesFloat (rnd : α → α) (env : ParticleEnv α) (dt_sec : α) :
    List (NodeGfx α) → List (NodeGfx α) × List (Effect α)
  | [] => ([], [])
  | nfx :: rest =>
    let r := updateNodeParticlesFloat rnd env dt_sec nfx
    let rs := UpdateParticlesFloat rnd env dt_sec rest
    (r.1 :: rs.1, r.2 ++ rs.2)

/-- A run of consecutive frames: each frame calls `UpdateParticles` with its own physics state
and time step; the node list after the last frame. -/
def UpdateParticlesFramesFloat (rnd : α → α) (frames : List (ParticleEnv α × α))
    (nodes : List (NodeGfx α)) : List (NodeGfx α) :=
  frames.foldl (fun gfx f => (UpdateParticlesFloat rnd f.1 f.2 gfx).1) nodes

/-- One `NodeGfx` followed through consecutive frames: its state after the last frame and the
effects of its iteration in that last frame. -/
def nodeFramesFloat (rnd : α → α) (nfx : NodeGfx α) (frames : List (ParticleEnv α × α)) :
    NodeGfx α × List (Effect α) :=
  frames.foldl (fun acc f => updateNodeParticlesFloat rnd f.1 f.2 acc.1) (nfx, [])

/-- Running sum of frame times as repeated `float` addition computes it, from zero:
`s_0 = 0`, `s_k = rnd (s_(k-1) + dt_k)`. -/
def floatSum (rnd : α → α) (dts : List α) : α :=
  dts.foldl (fun s dt => rnd (s + dt)) 0

/-- Component-wise difference (`operator-`) in `float` arithmetic. -/
def Vector3.subFloat (rnd : α → α) (a b : Vector3 α) : Vector3 α :=
  ⟨rnd (a.x - b.x), rnd (a.y - b.y), rnd (a.z - b.z)⟩

/-- Vector product (`crossProduct`) in `float` arithmetic: two rounded products and a rounded
difference for each component. -/
def Vector3.crossProductFloat (rnd : α → α) (a b : Vector3 α) : Vector3 α :=
  ⟨rnd (rnd (a.y * b.z) - rnd (a.z * b.y)),
   rnd (rnd (a.z * b.x) - rnd (a.x * b.z)),
   rnd (rnd (a.x * b.y) - rnd (a.y * b.x))⟩

/-- In-place normalisation (`normalise`) in `float` arithmetic, `sqrt` being the `float`
square root: the length is the root of `x * x + y * y + z * z`, and a vector of length zero is
left as it is. -/
def Vector3.normaliseFloat (rnd sqrt : α → α) (a : Vector3 α) : Vector3 α :=
  let fLength := sqrt (rnd (rnd (rnd (a.x * a.x) + rnd (a.y * a.y)) + rnd (a.z * a.z)))
  if fLength > 0 then
    let fInvLength := rnd (1 / fLength)
    ⟨rnd (a.x * fInvLength), rnd (a.y * fInvLength), rnd (a.z * fInvLength)⟩
  else a

/-- Local `normal` of `UpdateVideoCameras` as first computed, in `float` arithmetic. -/
def planeNormalFloat (rnd sqrt : α → α) (node_buf : Nat → Vector3 α)
    (vidcam : VideoCamera α) : Vector3 α :=
  let abs_pos_center := node_buf vidcam.vcam_node_center
  let abs_pos_z := node_buf vidcam.vcam_node_dir_z
  let abs_pos_y := node_buf vidcam.vcam_node_dir_y
  Vector3.normaliseFloat rnd sqrt
    (Vector3.crossProductFloat rnd (Vector3.neg (Vector3.subFloat rnd abs_pos_center abs_pos_z))
      (Vector3.neg (Vector3.subFloat rnd abs_pos_center abs_pos_y)))

end FloatArithmetic

/-! ## Classifiers and sample inputs -/

/-- Sample physics node: a skidding wheel node on a hard surface, out of the water. -/
def sampleNode : node_t ℚ :=
  { AbsPosition := ⟨0, 0, 0⟩
    Velocity := ⟨2, 0, 0⟩
    nd_under_water := false
    nd_collision_gm := some ⟨SurfaceType.FX_HARD, 7⟩
    nd_collision_slip := 11
    iswheel := 1
    wheelid := 0 }

/-- Sample surroundings: every node is `sampleNode`, all particle pools exist. -/
def sampleEnv : ParticleEnv ℚ :=
  { ar_nodes := fun _ => sampleNode
    use_skidmarks := true
    water := none
    m_particles_drip := true
    m_particles_misc := true
    m_particles_splash := true
    m_particles_ripple := true
    m_particles_sparks := true
    m_particles_clump := true }

/-- Sample `NodeGfx`: a hot node that may get wet and was under water in the previous frame. -/
def sampleNodeGfx : NodeGfx ℚ :=
  { nx_node_idx := 0
    nx_wet_time_sec := -1
    nx_no_particles := false
    nx_may_get_wet := true
    nx_is_hot := true
    nx_no_sparks := false
    nx_under_water_prev := true }

/-- Sample wheel list: wheels 0 and 2 have a scene node and a flex mesh, wheel 1 has neither;
two stale task handles are left over from an earlier frame. -/
def sampleWheels : WheelState :=
  { m_wheels := [⟨some 10, some 20, false⟩, ⟨none, none, false⟩, ⟨some 11, some 21, true⟩]
    m_flexwheel_tasks := [5, 6] }

/-- Sample outcome of `flexitPrepare`: true for every wheel but wheel 2. -/
def samplePrepare : Nat → Bool := fun i => i != 2

/-- Sample node buffer: node 0 at the origin, node 1 at (3, 4, 0), node 2 at (1, 0, 0), every
other node at (0, 2, 0). -/
def sampleNodeBuf (α : Type) [LinearOrderedField α] : Nat → Vector3 α := fun i =>
  if i = 0 then ⟨0, 0, 0⟩
  else if i = 1 then ⟨3, 4, 0⟩
  else if i = 2 then ⟨1, 0, 0⟩
  else ⟨0, 2, 0⟩

/-- Sample camera of the given kind: centre node 0, direction-y node 1, direction-z node 2,
position node 0, look-at node 3, no offset and the identity as user rotation. -/
def sampleCamera (α : Type) [LinearOrderedField α] (type : VideoCamType) : VideoCamera α :=
  { vcam_type := type
    vcam_node_center := 0
    vcam_node_dir_y := 1
    vcam_node_dir_z := 2
    vcam_node_alt_pos := 0
    vcam_node_lookat := 3
    vcam_pos_offset := ⟨0, 0, 0⟩
    vcam_rotation := ⟨1, 0, 0, 0⟩
    vcam_ogre_camera := 0
    vcam_render_target := none
    vcam_debug_node := none
    vcam_render_window := none
    vcam_prop_scenenode := none
    vcam_material := 0
    vcam_render_tex_name := "vidcam-rtt"
    vcam_off_tex_name := "vidcam-off" }

/-- Sample surroundings of the cameras: the sample node buffer, the main camera at (0, 0, 5),
mirrors unturned, the actor heading along x, every scene node at the origin and unrotated. -/
def sampleCamEnv (α : Type) [LinearOrderedField α] : VideoCamEnv α :=
  { node_buf := sampleNodeBuf α
    mainCameraPos := ⟨0, 0, 5⟩
    ar_left_mirror_angle := 0
    ar_right_mirror_angle := 0
    actorDirection := ⟨1, 0, 0⟩
    sceneNodeOrientation := fun _ => ⟨1, 0, 0, 0⟩
    sceneNodePosition := fun _ => ⟨0, 0, 0⟩
    sky_notify := false }

/-- Sample left mirror prop: the sample camera with camera object 1 and prop scene node 4. -/
def sampleMirrorProp (α : Type) [LinearOrderedField α] : VideoCamera α :=
  { sampleCamera α VideoCamType.VCTYPE_MIRROR_PROP_LEFT with
    vcam_ogre_camera := 1
    vcam_prop_scenenode := some 4 }

/-- Sample actor: three nodes (all `sampleNode`), two airbrakes with ratios 1/2 and 1/4, no
engine. -/
def sampleActor : ActorData ℚ :=
  { ar_sim_state := SimState.LOCAL_SIMULATED
    position := ⟨0, 0, 0⟩
    headingDirectionAngle := 0
    tyrePressure := 0
    ar_bounding_box := (⟨0, 0, 0⟩, ⟨1, 1, 1⟩)
    ar_wheel_speed := 0
    m_net_username := ""
    ar_num_nodes := 3
    ar_nodes := fun _ => sampleNode
    ar_num_airbrakes := 2
    ar_airbrakes := fun i => if i = 0 then 1 / 2 else 1 / 4
    ar_engine := none }

/-- Sample buffer left by an earlier frame: every node at (9, 9, 9) and three stale airbrake
entries. -/
def sampleSimBuffer : SimBuffer ℚ :=
  { simbuf_live_local := false
    simbuf_pos := ⟨0, 0, 0⟩
    simbuf_heading_angle := 0
    simbuf_tyre_pressure := 0
    simbuf_aabb := (⟨0, 0, 0⟩, ⟨0, 0, 0⟩)
    simbuf_wheel_speed := 0
    simbuf_net_username := ""
    simbuf_nodes := fun _ => ⟨9, 9, 9⟩
    simbuf_airbrakes := [1, 1, 1]
    simbuf_gear := 0
    simbuf_autoshift := 0
    simbuf_engine_rpm := 0 }

/-- Sample console settings: only the actor area and the error level are switched on, messages
are shown for 1000 ms. -/
def sampleView : ConsoleView :=
  { cvw_filter_area_echo := false
    cvw_filter_area_script := false
    cvw_filter_area_actor := true
    cvw_filter_area_terrn := false
    cvw_filter_type_notice := false
    cvw_filter_type_warning := false
    cvw_filter_type_error := true
    cvw_filter_duration_ms := 1000
    cvw_max_lines := 3
    cvw_align_bottom := true }

/-- Sample console message: an actor error stamped at 5000 ms. -/
def sampleMessage : Message :=
  { cm_area := MessageArea.CONSOLE_MSGTYPE_ACTOR
    cm_type := MessageType.CONSOLE_SYSTEM_ERROR
    cm_timestamp := 5000
    cm_net_userid := 0
    cm_text := "flexbody missing" }

/-- Node buffer with three collinear positions that are `float` values: node 0 at (1, 0, 0),
node 1 at (16777218, 1, 0), node 2 at (50331652, 3, 0), every other node at the origin; node 2
minus node 0 is three times node 1 minus node 0. -/
def collinearNodeBuf (α : Type) [LinearOrderedField α] : Nat → Vector3 α := fun i =>
  if i = 0 then ⟨1, 0, 0⟩
  else if i = 1 then ⟨16777218, 1, 0⟩
  else if i = 2 then ⟨50331652, 3, 0⟩
  else ⟨0, 0, 0⟩

/-! ## Theorems: particle effects -/

section ParticleTheorems

variable {α : Type} [LinearOrderedField α]

/-- The wet block changes no field of the `NodeGfx` other than the timer. -/
theorem wetEffects_fields (env : ParticleEnv α) (n : node_t α) (dt : α) (nfx : NodeGfx α) :
    (wetEffects env n dt nfx).1.nx_node_idx = nfx.nx_node_idx
    ∧ (wetEffects env n dt nfx).1.nx_no_particles = nfx.nx_no_particles
    ∧ (wetEffects env n dt nfx).1.nx_may_get_wet = nfx.nx_may_get_wet
    ∧ (wetEffects env n dt nfx).1.nx_is_hot = nfx.nx_is_hot
    ∧ (wetEffects env n dt nfx).1.nx_no_sparks = nfx.nx_no_sparks
    ∧ (wetEffects env n dt nfx).1.nx_under_water_prev = nfx.nx_under_water_prev := by
  unfold wetEffects
  simp only []
  split_ifs <;> simp

/-- The timer written by the wet block is the one described by `wetTimerSpec` when the node may
get wet and has particles, and the old one otherwise. -/
theorem wetEffects_timer (env : ParticleEnv α) (n : node_t α) (dt : α) (nfx : NodeGfx α) :
    (wetEffects env n dt nfx).1.nx_wet_time_sec
      = if nfx.nx_may_get_wet = true ∧ nfx.nx_no_particles = false then
          wetTimerSpec n.nd_under_water nfx.nx_under_water_prev nfx.nx_wet_time_sec dt
        else nfx.nx_wet_time_sec := by
  unfold wetEffects wetTimerSpec
  cases hw : nfx.nx_may_get_wet <;> cases hp : nfx.nx_no_particles <;>
    cases hu : n.nd_under_water <;> cases hv : nfx.nx_under_water_prev <;>
    simp <;> split_ifs <;> simp_all

/-- The node list after `UpdateParticles` is the old list with the loop body applied to each
entry. -/
theorem UpdateParticles_fst (env : ParticleEnv α) (dt : α) (nodes : List (NodeGfx α)) :
    (UpdateParticles env dt nodes).1 = nodes.map (fun nfx => (updateNodeParticles env dt nfx).1) := by
  induction nodes with
  | nil => rfl
  | cons nfx rest ih => simp [UpdateParticles, ih]

/-- The effects of `UpdateParticles` are the effects of the loop iterations, node after node. -/
theorem UpdateParticles_snd (env : ParticleEnv α) (dt : α) (nodes : List (NodeGfx α)) :
    (UpdateParticles env dt nodes).2
      = (nodes.map (fun nfx => (updateNodeParticles env dt nfx).2)).flatten := by
  induction nodes with
  | nil => rfl
  | cons nfx rest ih => simp [UpdateParticles, ih]

/-- The splash block emits nothing but splashes and ripples. -/
theorem splashEffects_kinds (env : ParticleEnv α) (n : node_t α) (nfx : NodeGfx α)
    (e : Effect α) (he : e ∈ splashEffects env n nfx) :
    (∃ p v, e = Effect.allocSplash p v) ∨ (∃ p v, e = Effect.allocRipple p v) := by
  unfold splashEffects at he
  split_ifs at he <;> simp at he
  all_goals first
    | (rcases he with h | h <;> simp [h])
    | simp [he]

/-- The ground block reads only the two flags `nx_no_particles` and `nx_no_sparks`. -/
theorem groundEffects_congr (env : ParticleEnv α) (n : node_t α) (a b : NodeGfx α)
    (hp : a.nx_no_particles = b.nx_no_particles) (hs : a.nx_no_sparks = b.nx_no_sparks) :
    groundEffects env n a = groundEffects env n b := by
  unfold groundEffects hardSurfaceEffects
  rw [hp, hs]

/-- The splash block reads only the flag `nx_no_particles`. -/
theorem splashEffects_congr (env : ParticleEnv α) (n : node_t α) (a b : NodeGfx α)
    (hp : a.nx_no_particles = b.nx_no_particles) :
    splashEffects env n a = splashEffects env n b := by
  unfold splashEffects
  rw [hp]

/-- The effects of one loop iteration, with the later blocks expressed on the incoming
`NodeGfx`. -/
theorem updateNodeParticles_snd (env : ParticleEnv α) (dt : α) (nfx : NodeGfx α) :
    (updateNodeParticles env dt nfx).2
      = (wetEffects env (env.ar_nodes nfx.nx_node_idx) dt nfx).2
        ++ splashEffects env (env.ar_nodes nfx.nx_node_idx) nfx
        ++ groundEffects env (env.ar_nodes nfx.nx_node_idx) nfx := by
  have hf := wetEffects_fields env (env.ar_nodes nfx.nx_node_idx) dt nfx
  simp only [updateNodeParticles]
  rw [splashEffects_congr env _ _ nfx hf.2.1, groundEffects_congr env _ _ nfx hf.2.1 hf.2.2.2.2.1]

/-- The ground block allocates neither drips nor vapour. -/
theorem groundEffects_not_wet (env : ParticleEnv α) (n : node_t α) (nfx : NodeGfx α)
    (p v : Vector3 α) (t : α) :
    Effect.allocDrip p v t ∉ groundEffects env n nfx
      ∧ Effect.allocVapour p v t ∉ groundEffects env n nfx := by
  unfold groundEffects hardSurfaceEffects
  cases hg : n.nd_collision_gm with
  | none => simp
  | some gm =>
    obtain ⟨ty, col⟩ := gm
    cases ty <;> simp <;> split_ifs <;> simp

/-- One loop iteration keeps the wet timer at -1 or inside the interval from 0 to 5. -/
theorem updateNodeParticles_timer_range (env : ParticleEnv α) (dt : α) (nfx : NodeGfx α)
    (hdt : 0 ≤ dt)
    (h : nfx.nx_wet_time_sec = -1 ∨ (0 ≤ nfx.nx_wet_time_sec ∧ nfx.nx_wet_time_sec ≤ 5)) :
    (updateNodeParticles env dt nfx).1.nx_wet_time_sec = -1
      ∨ (0 ≤ (updateNodeParticles env dt nfx).1.nx_wet_time_sec
          ∧ (updateNodeParticles env dt nfx).1.nx_wet_time_sec ≤ 5) := by
  simp only [updateNodeParticles, wetEffects_timer, wetTimerSpec]
  split_ifs with h1 h2 h3 h4 h5 h6
  · exact Or.inl h3
  · exact Or.inl rfl
  · right
    constructor
    · linarith
    · linarith
  · exact Or.inl h5
  · exact Or.inl rfl
  · right
    rcases h with h | h
    · exact absurd h h5
    · constructor
      · linarith [h.1]
      · linarith
  · exact h

/-- One call of `UpdateParticles` keeps every wet timer at -1 or inside the interval from 0
to 5. -/
theorem UpdateParticles_timer_range (env : ParticleEnv α) (dt : α) (nodes : List (NodeGfx α))
    (hdt : 0 ≤ dt)
    (h : ∀ nfx ∈ nodes,
      nfx.nx_wet_time_sec = -1 ∨ (0 ≤ nfx.nx_wet_time_sec ∧ nfx.nx_wet_time_sec ≤ 5)) :
    ∀ nfx ∈ (UpdateParticles env dt nodes).1,
      nfx.nx_wet_time_sec = -1 ∨ (0 ≤ nfx.nx_wet_time_sec ∧ nfx.nx_wet_time_sec ≤ 5) := by
  intro nfx hn
  rw [UpdateParticles_fst, List.mem_map] at hn
  obtain ⟨old, hold, rfl⟩ := hn
  exact updateNodeParticles_timer_range env dt old hdt (h old hold)

/-- Any run of frames with non-negative time steps keeps every wet timer at -1 or inside the
interval from 0 to 5. -/
theorem UpdateParticlesFrames_timer_range (frames : List (ParticleEnv α × α))
    (nodes : List (NodeGfx α)) (hdt : ∀ f ∈ frames, 0 ≤ f.2)
    (h : ∀ nfx ∈ nodes,
      nfx.nx_wet_time_sec = -1 ∨ (0 ≤ nfx.nx_wet_time_sec ∧ nfx.nx_wet_time_sec ≤ 5)) :
    ∀ nfx ∈ UpdateParticlesFrames frames nodes,
      nfx.nx_wet_time_sec = -1 ∨ (0 ≤ nfx.nx_wet_time_sec ∧ nfx.nx_wet_time_sec ≤ 5) := by
  induction frames generalizing nodes with
  | nil => simpa [UpdateParticlesFrames] using h
  | cons f rest ih =>
    simp only [UpdateParticlesFrames, List.foldl_cons]
    apply ih
    · intro g hg
      exact hdt g (List.mem_cons_of_mem _ hg)
    · exact UpdateParticles_timer_range f.1 f.2 nodes (hdt f (List.mem_cons_self _ _)) h

/-- C2: wet-timer invariant. Starting from nodes whose timer is -1 (the value a new `NodeGfx`
has), after each of any number of `UpdateParticles` steps with `dt ≥ 0` every timer is exactly
-1 or lies in the closed interval from 0 to 5. -/
theorem UpdateParticles_wet_timer_invariant (frames : List (ParticleEnv α × α))
    (nodes : List (NodeGfx α)) (hdt : ∀ f ∈ frames, 0 ≤ f.2)
    (hnew : ∀ nfx ∈ nodes, nfx.nx_wet_time_sec = -1) (k : Nat) :
    ∀ nfx ∈ UpdateParticlesFrames (frames.take k) nodes,
      nfx.nx_wet_time_sec = -1 ∨ (0 ≤ nfx.nx_wet_time_sec ∧ nfx.nx_wet_time_sec ≤ 5) := by
  apply UpdateParticlesFrames_timer_range
  · intro f hf
    exact hdt f (List.mem_of_mem_take hf)
  · intro nfx hn
    exact Or.inl (hnew nfx hn)

/-- Rounding to `float` keeps a non-negative value non-negative. -/
theorem roundF32_nonneg {β : Type} [LinearOrderedField β] [FloorRing β] (x : β) (hx : 0 ≤ x) :
    0 ≤ roundF32 x := by
  unfold roundF32
  split_ifs with h0
  · exact le_refl 0
  · have hp : (0 : β) < 2 ^ (max (binaryExponent x) (-126) - 23) := zpow_pos (by norm_num) _
    have hq : 0 ≤ x / 2 ^ (max (binaryExponent x) (-126) - 23) := div_nonneg hx hp.le
    have hf : 0 ≤ ⌊x / 2 ^ (max (binaryExponent x) (-126) - 23)⌋ := Int.floor_nonneg.mpr hq
    have hr : 0 ≤ roundHalfEven (x / 2 ^ (max (binaryExponent x) (-126) - 23)) := by
      unfold roundHalfEven
      simp only []
      split_ifs <;> omega
    exact mul_nonneg (Int.cast_nonneg.mpr hr) hp.le

/-- Without rounding the wet block with a rounded sum is the wet block, and so for the loop
body. -/
theorem wetEffectsFloat_exact (env : ParticleEnv α) (n : node_t α) (dt : α) (nfx : NodeGfx α) :
    wetEffectsFloat (fun x => x) env n dt nfx = wetEffects env n dt nfx
    ∧ updateNodeParticlesFloat (fun x => x) env dt nfx = updateNodeParticles env dt nfx :=
  ⟨rfl, rfl⟩

/-- The running sum after one more frame. -/
theorem floatSum_append (rnd : α → α) (dts : List α) (dt : α) :
    floatSum rnd (dts ++ [dt]) = rnd (floatSum rnd dts + dt) := by
  simp [floatSum, List.foldl_append]

/-- Without rounding the running sum is the sum of the frame times. -/
theorem floatSum_exact (dts : List α) : floatSum (fun x => x) dts = dts.sum := by
  induction dts using List.reverseRecOn with
  | nil => simp [floatSum]
  | append_singleton l a ih => rw [floatSum_append, ih]; simp

/-- Running sums of positive frame times are not negative when rounding keeps non-negative
values non-negative. -/
theorem floatSum_nonneg (rnd : α → α) (hrnd : ∀ x, 0 ≤ x → 0 ≤ rnd x) (dts : List α)
    (hpos : ∀ dt ∈ dts, 0 < dt) : 0 ≤ floatSum rnd dts := by
  induction dts using List.reverseRecOn with
  | nil => simp [floatSum]
  | append_singleton l a ih =>
    rw [floatSum_append]
    have h1 := ih (fun dt hdt => hpos dt (List.mem_append_left _ hdt))
    have h2 := hpos a (List.mem_append_right _ (List.mem_singleton_self a))
    exact hrnd _ (by linarith)

/-- Every running sum up to one more frame is at most 5 iff every earlier running sum and the
new one are. -/
theorem running_sums_append (rnd : α → α) (dts : List α) (dt : α) :
    (∀ k, k < (dts ++ [dt]).length → floatSum rnd ((dts ++ [dt]).take (k + 1)) ≤ 5)
      ↔ (∀ k, k < dts.length → floatSum rnd (dts.take (k + 1)) ≤ 5)
        ∧ rnd (floatSum rnd dts + dt) ≤ 5 := by
  constructor
  · intro h
    refine ⟨fun k hk => ?_, ?_⟩
    · have := h k (by simp; omega)
      rwa [List.take_append_of_le_length (by omega)] at this
    · have := h dts.length (by simp)
      rwa [List.take_of_length_le (by simp), floatSum_append] at this
  · rintro ⟨h1, h2⟩ k hk
    by_cases hlt : k < dts.length
    · rw [List.take_append_of_le_length (by omega)]
      exact h1 k hlt
    · rw [List.take_of_length_le (by simp at hk ⊢; omega), floatSum_append]
      exact h2

/-- The wet block with a rounded sum, for a node that may get wet, has particles and is out of
the water: the fields it keeps, the timer it writes and the drips and vapour it allocates. -/
theorem wetEffectsFloat_out_of_water (rnd : α → α) (env : ParticleEnv α) (n : node_t α)
    (dt : α) (nfx : NodeGfx α) (hwet : nfx.nx_may_get_wet = true)
    (hnp : nfx.nx_no_particles = false) (hout : n.nd_under_water = false) :
    (wetEffectsFloat rnd env n dt nfx).1.nx_node_idx = nfx.nx_node_idx
    ∧ (wetEffectsFloat rnd env n dt nfx).1.nx_may_get_wet = true
    ∧ (wetEffectsFloat rnd env n dt nfx).1.nx_no_particles = false
    ∧ (wetEffectsFloat rnd env n dt nfx).1.nx_wet_time_sec
        = (if (if nfx.nx_under_water_prev = true then 0 else nfx.nx_wet_time_sec) = -1 then -1
          else if 5 < rnd ((if nfx.nx_under_water_prev = true then 0
              else nfx.nx_wet_time_sec) + dt) then -1
          else rnd ((if nfx.nx_under_water_prev = true then 0 else nfx.nx_wet_time_sec) + dt))
    ∧ (∀ p v t, Effect.allocDrip p v t ∈ (wetEffectsFloat rnd env n dt nfx).2 ↔
        env.m_particles_drip = true
        ∧ (if nfx.nx_under_water_prev = true then 0 else nfx.nx_wet_time_sec) ≠ -1
        ∧ rnd ((if nfx.nx_under_water_prev = true then 0 else nfx.nx_wet_time_sec) + dt) ≤ 5
        ∧ p = n.AbsPosition ∧ v = n.Velocity
        ∧ t = rnd ((if nfx.nx_under_water_prev = true then 0 else nfx.nx_wet_time_sec) + dt))
    ∧ (∀ p v t, Effect.allocVapour p v t ∈ (wetEffectsFloat rnd env n dt nfx).2 →
        (if nfx.nx_under_water_prev = true then 0 else nfx.nx_wet_time_sec) ≠ -1
        ∧ rnd ((if nfx.nx_under_water_prev = true then 0 else nfx.nx_wet_time_sec) + dt)
          ≤ 5) := by
  unfold wetEffectsFloat
  cases hd : env.m_particles_drip <;> cases hh : nfx.nx_is_hot <;>
    cases hm : env.m_particles_misc <;> cases hv : nfx.nx_under_water_prev <;>
    simp [hwet, hnp, hout] <;> split_ifs <;> simp_all

/-- One loop iteration with a rounded sum, for a node that may get wet, has particles and is
out of the water. -/
theorem updateNodeParticlesFloat_out_of_water (rnd : α → α) (env : ParticleEnv α) (dt : α)
    (nfx : NodeGfx α) (hwet : nfx.nx_may_get_wet = true) (hnp : nfx.nx_no_particles = false)
    (hout : (env.ar_nodes nfx.nx_node_idx).nd_under_water = false) :
    (updateNodeParticlesFloat rnd env dt nfx).1.nx_node_idx = nfx.nx_node_idx
    ∧ (updateNodeParticlesFloat rnd env dt nfx).1.nx_may_get_wet = true
    ∧ (updateNodeParticlesFloat rnd env dt nfx).1.nx_no_particles = false
    ∧ (updateNodeParticlesFloat rnd env dt nfx).1.nx_under_water_prev = false
    ∧ (updateNodeParticlesFloat rnd env dt nfx).1.nx_wet_time_sec
        = (if (if nfx.nx_under_water_prev = true then 0 else nfx.nx_wet_time_sec) = -1 then -1
          else if 5 < rnd ((if nfx.nx_under_water_prev = true then 0
              else nfx.nx_wet_time_sec) + dt) then -1
          else rnd ((if nfx.nx_under_water_prev = true then 0 else nfx.nx_wet_time_sec) + dt))
    ∧ (∀ p v t, Effect.allocDrip p v t ∈ (updateNodeParticlesFloat rnd env dt nfx).2 ↔
        env.m_particles_drip = true
        ∧ (if nfx.nx_under_water_prev = true then 0 else nfx.nx_wet_time_sec) ≠ -1
        ∧ rnd ((if nfx.nx_under_water_prev = true then 0 else nfx.nx_wet_time_sec) + dt) ≤ 5
        ∧ p = (env.ar_nodes nfx.nx_node_idx).AbsPosition
        ∧ v = (env.ar_nodes nfx.nx_node_idx).Velocity
        ∧ t = rnd ((if nfx.nx_under_water_prev = true then 0 else nfx.nx_wet_time_sec) + dt))
    ∧ (∀ p v t, Effect.allocVapour p v t ∈ (updateNodeParticlesFloat rnd env dt nfx).2 →
        (if nfx.nx_under_water_prev = true then 0 else nfx.nx_wet_time_sec) ≠ -1
        ∧ rnd ((if nfx.nx_under_water_prev = true then 0 else nfx.nx_wet_time_sec) + dt)
          ≤ 5) := by
  obtain ⟨w1, w2, w3, w4, w5, w6⟩ :=
    wetEffectsFloat_out_of_water rnd env (env.ar_nodes nfx.nx_node_idx) dt nfx hwet hnp hout
  simp only [updateNodeParticlesFloat]
  refine ⟨w1, w2, w3, hout, w4, fun p v t => ?_, fun p v t h => ?_⟩
  · rw [← w5]
    simp only [List.mem_append]
    constructor
    · rintro ((h | h) | h)
      · exact h
      · rcases splashEffects_kinds env _ _ _ h with ⟨_, _, h1⟩ | ⟨_, _, h1⟩ <;> cases h1
      · exact absurd h (groundEffects_not_wet env _ _ p v t).1
    · intro h
      exact Or.inl (Or.inl h)
  · simp only [List.mem_append] at h
    rcases h with (h | h) | h
    · exact w6 p v t h
    · rcases splashEffects_kinds env _ _ _ h with ⟨_, _, h1⟩ | ⟨_, _, h1⟩ <;> cases h1
    · exact absurd h (groundEffects_not_wet env _ _ p v t).2

/-- Following a node through one more frame applies the loop body to its last state. -/
theorem nodeFramesFloat_append (rnd : α → α) (nfx : NodeGfx α)
    (frames : List (ParticleEnv α × α)) (f : ParticleEnv α × α) :
    nodeFramesFloat rnd nfx (frames ++ [f])
      = updateNodeParticlesFloat rnd f.1 f.2 (nodeFramesFloat rnd nfx frames).1 := by
  simp [nodeFramesFloat, List.foldl_append]

/-- State of a node that left the water in the first frame and stayed out, the timer sum being
rounded by `rnd`: the timer the next frame starts from (after the reset, if any) is the running
sum while every running sum so far is at most 5, and -1 afterwards. -/
theorem nodeFramesFloat_out_of_water (rnd : α → α) (hrnd : ∀ x, 0 ≤ x → 0 ≤ rnd x)
    (nfx : NodeGfx α) (frames : List (ParticleEnv α × α))
    (hwet : nfx.nx_may_get_wet = true) (hnp : nfx.nx_no_particles = false)
    (hprev : nfx.nx_under_water_prev = true)
    (hout : ∀ f ∈ frames, (f.1.ar_nodes nfx.nx_node_idx).nd_under_water = false)
    (hpos : ∀ f ∈ frames, 0 < f.2) :
    (nodeFramesFloat rnd nfx frames).1.nx_node_idx = nfx.nx_node_idx
    ∧ (nodeFramesFloat rnd nfx frames).1.nx_may_get_wet = true
    ∧ (nodeFramesFloat rnd nfx frames).1.nx_no_particles = false
    ∧ 0 ≤ floatSum rnd (frames.map Prod.snd)
    ∧ ((∀ k, k < (frames.map Prod.snd).length →
          floatSum rnd ((frames.map Prod.snd).take (k + 1)) ≤ 5) →
        (if (nodeFramesFloat rnd nfx frames).1.nx_under_water_prev = true then 0
          else (nodeFramesFloat rnd nfx frames).1.nx_wet_time_sec)
          = floatSum rnd (frames.map Prod.snd))
    ∧ (¬ (∀ k, k < (frames.map Prod.snd).length →
          floatSum rnd ((frames.map Prod.snd).take (k + 1)) ≤ 5) →
        (if (nodeFramesFloat rnd nfx frames).1.nx_under_water_prev = true then 0
          else (nodeFramesFloat rnd nfx frames).1.nx_wet_time_sec) = -1)
    ∧ (frames ≠ [] → (nodeFramesFloat rnd nfx frames).1.nx_under_water_prev = false) := by
  induction frames using List.reverseRecOn with
  | nil => simp [nodeFramesFloat, floatSum, hwet, hnp, hprev]
  | append_singleton l a ih =>
    have ih1 := ih (fun f hf => hout f (List.mem_append_left _ hf))
      (fun f hf => hpos f (List.mem_append_left _ hf))
    obtain ⟨hidx, hw, hp, hS, ht1, ht2, -⟩ := ih1
    have ha : (a.1.ar_nodes (nodeFramesFloat rnd nfx l).1.nx_node_idx).nd_under_water
        = false := by
      rw [hidx]
      exact hout a (List.mem_append_right _ (List.mem_singleton_self a))
    have hdt : 0 < a.2 := hpos a (List.mem_append_right _ (List.mem_singleton_self a))
    obtain ⟨s1, s2, s3, s4, s5, -, -⟩ :=
      updateNodeParticlesFloat_out_of_water rnd a.1 a.2 (nodeFramesFloat rnd nfx l).1 hw hp ha
    rw [nodeFramesFloat_append]
    have hmap : (l ++ [a]).map Prod.snd = l.map Prod.snd ++ [a.2] := by simp
    rw [hmap, running_sums_append, floatSum_append]
    have hS1 : 0 ≤ rnd (floatSum rnd (l.map Prod.snd) + a.2) := hrnd _ (by linarith)
    refine ⟨by rw [s1, hidx], s2, s3, hS1, ?_, ?_, fun _ => s4⟩
    · rintro ⟨hall, hlast⟩
      rw [s4, s5, ht1 hall]
      have hne : floatSum rnd (l.map Prod.snd) ≠ -1 := by
        intro h
        linarith
      simp [hne, not_lt.mpr hlast]
    · intro hnot
      rw [s4, s5]
      by_cases hall : ∀ k, k < (l.map Prod.snd).length →
          floatSum rnd ((l.map Prod.snd).take (k + 1)) ≤ 5
      · have hlast : 5 < rnd (floatSum rnd (l.map Prod.snd) + a.2) := by
          by_contra hc
          exact hnot ⟨hall, not_lt.mp hc⟩
        rw [ht1 hall]
        simp [hlast]
      · rw [ht2 hall]
        simp

/-- The last frame of a node that left the water in the first frame and stayed out, the timer
sum being rounded by `rnd`: while every running sum is at most 5 the timer is the running sum
and a drip with that timer is allocated; once a running sum has exceeded 5 the timer is -1 and
neither drip nor vapour is allocated. -/
theorem nodeFramesFloat_dry_off (rnd : α → α) (hrnd : ∀ x, 0 ≤ x → 0 ≤ rnd x)
    (nfx : NodeGfx α) (frames : List (ParticleEnv α × α)) (env : ParticleEnv α) (dt : α)
    (hwet : nfx.nx_may_get_wet = true) (hnp : nfx.nx_no_particles = false)
    (hprev : nfx.nx_under_water_prev = true)
    (hout : ∀ f ∈ frames ++ [(env, dt)], (f.1.ar_nodes nfx.nx_node_idx).nd_under_water = false)
    (hpos : ∀ f ∈ frames ++ [(env, dt)], 0 < f.2) :
    ((∀ k, k < (frames.map Prod.snd ++ [dt]).length →
        floatSum rnd ((frames.map Prod.snd ++ [dt]).take (k + 1)) ≤ 5) →
      (nodeFramesFloat rnd nfx (frames ++ [(env, dt)])).1.nx_wet_time_sec
        = floatSum rnd (frames.map Prod.snd ++ [dt])
      ∧ (env.m_particles_drip = true →
          Effect.allocDrip (env.ar_nodes nfx.nx_node_idx).AbsPosition
            (env.ar_nodes nfx.nx_node_idx).Velocity (floatSum rnd (frames.map Prod.snd ++ [dt]))
            ∈ (nodeFramesFloat rnd nfx (frames ++ [(env, dt)])).2))
    ∧ (¬ (∀ k, k < (frames.map Prod.snd ++ [dt]).length →
        floatSum rnd ((frames.map Prod.snd ++ [dt]).take (k + 1)) ≤ 5) →
      (nodeFramesFloat rnd nfx (frames ++ [(env, dt)])).1.nx_wet_time_sec = -1
      ∧ ∀ p v t, Effect.allocDrip p v t ∉ (nodeFramesFloat rnd nfx (frames ++ [(env, dt)])).2
          ∧ Effect.allocVapour p v t
            ∉ (nodeFramesFloat rnd nfx (frames ++ [(env, dt)])).2) := by
  obtain ⟨-, -, -, -, hT1, hT2, hP⟩ := nodeFramesFloat_out_of_water rnd hrnd nfx
    (frames ++ [(env, dt)]) hwet hnp hprev hout hpos
  have hmap : (frames ++ [(env, dt)]).map Prod.snd = frames.map Prod.snd ++ [dt] := by simp
  rw [hP (by simp), hmap] at hT1 hT2
  simp only [Bool.false_eq_true, if_false] at hT1 hT2
  obtain ⟨hidx, hw, hp, hS, ht1, ht2, -⟩ := nodeFramesFloat_out_of_water rnd hrnd nfx frames
    hwet hnp hprev (fun f hf => hout f (List.mem_append_left _ hf))
    (fun f hf => hpos f (List.mem_append_left _ hf))
  have hnow : (env.ar_nodes (nodeFramesFloat rnd nfx frames).1.nx_node_idx).nd_under_water
      = false := by
    rw [hidx]
    exact hout (env, dt) (List.mem_append_right _ (List.mem_singleton_self _))
  obtain ⟨-, -, -, -, -, hdrip, hvap⟩ :=
    updateNodeParticlesFloat_out_of_water rnd env dt (nodeFramesFloat rnd nfx frames).1 hw hp hnow
  rw [hidx] at hdrip
  have hstep : nodeFramesFloat rnd nfx (frames ++ [(env, dt)])
      = updateNodeParticlesFloat rnd env dt (nodeFramesFloat rnd nfx frames).1 :=
    nodeFramesFloat_append rnd nfx frames _
  constructor
  · intro hall
    refine ⟨hT1 hall, fun hd => ?_⟩
    obtain ⟨hall1, hlast⟩ := (running_sums_append rnd _ dt).mp hall
    have hne : floatSum rnd (frames.map Prod.snd) ≠ -1 := by
      intro h
      linarith
    rw [hstep, hdrip, ht1 hall1, floatSum_append]
    exact ⟨hd, hne, hlast, rfl, rfl, rfl⟩
  · intro hnot
    refine ⟨hT2 hnot, fun p v t => ⟨fun hmem => ?_, fun hmem => ?_⟩⟩
    · rw [hstep, hdrip] at hmem
      obtain ⟨-, h1, h2, -⟩ := hmem
      by_cases hall1 : ∀ k, k < (frames.map Prod.snd).length →
          floatSum rnd ((frames.map Prod.snd).take (k + 1)) ≤ 5
      · rw [ht1 hall1] at h2
        exact hnot ((running_sums_append rnd _ dt).mpr ⟨hall1, h2⟩)
      · exact h1 (ht2 hall1)
    · rw [hstep] at hmem
      obtain ⟨h1, h2⟩ := hvap p v t hmem
      by_cases hall1 : ∀ k, k < (frames.map Prod.snd).length →
          floatSum rnd ((frames.map Prod.snd).take (k + 1)) ≤ 5
      · rw [ht1 hall1] at h2
        exact hnot ((running_sums_append rnd _ dt).mpr ⟨hall1, h2⟩)
      · exact h1 (ht2 hall1)

/-- The node list after `UpdateParticles` with a rounded sum is the old list with the loop body
applied to each entry. -/
theorem UpdateParticlesFloat_fst (rnd : α → α) (env : ParticleEnv α) (dt : α)
    (nodes : List (NodeGfx α)) :
    (UpdateParticlesFloat rnd env dt nodes).1
      = nodes.map (fun nfx => (updateNodeParticlesFloat rnd env dt nfx).1) := by
  induction nodes with
  | nil => rfl
  | cons nfx rest ih => simp [UpdateParticlesFloat, ih]

/-- The effects of `UpdateParticles` with a rounded sum are the effects of the loop
iterations, node after node. -/
theorem UpdateParticlesFloat_snd (rnd : α → α) (env : ParticleEnv α) (dt : α)
    (nodes : List (NodeGfx α)) :
    (UpdateParticlesFloat rnd env dt nodes).2
      = (nodes.map (fun nfx => (updateNodeParticlesFloat rnd env dt nfx).2)).flatten := by
  induction nodes with
  | nil => rfl
  | cons nfx rest ih => simp [UpdateParticlesFloat, ih]

/-- The entry at index `i` of the node list after a run of frames is the node at index `i`
followed through these frames. -/
theorem UpdateParticlesFramesFloat_getElem (rnd : α → α) (frames : List (ParticleEnv α × α))
    (nodes : List (NodeGfx α)) (i : Nat) (nfx : NodeGfx α) (hi : nodes[i]? = some nfx) :
    (UpdateParticlesFramesFloat rnd frames nodes)[i]?
      = some (nodeFramesFloat rnd nfx frames).1 := by
  induction frames using List.reverseRecOn with
  | nil => simpa [UpdateParticlesFramesFloat, nodeFramesFloat] using hi
  | append_singleton l a ih =>
    have h1 : UpdateParticlesFramesFloat rnd (l ++ [a]) nodes
        = (UpdateParticlesFloat rnd a.1 a.2 (UpdateParticlesFramesFloat rnd l nodes)).1 := by
      simp [UpdateParticlesFramesFloat, List.foldl_append]
    rw [h1, UpdateParticlesFloat_fst, List.getElem?_map, ih, nodeFramesFloat_append]
    rfl

/-- With a rounding that keeps the order and leaves its own results as they are, running sums
of positive frame times do not decrease. -/
theorem floatSum_take_le (rnd : α → α) (hrnd : ∀ x, 0 ≤ x → 0 ≤ rnd x)
    (hmono : ∀ x y, x ≤ y → rnd x ≤ rnd y) (hidem : ∀ x, rnd (rnd x) = rnd x)
    (dts : List α) (hpos : ∀ dt ∈ dts, 0 < dt) :
    (dts = [] ∨ rnd (floatSum rnd dts) = floatSum rnd dts)
    ∧ ∀ k, k < dts.length → floatSum rnd (dts.take (k + 1)) ≤ floatSum rnd dts := by
  induction dts using List.reverseRecOn with
  | nil => simp
  | append_singleton l a ih =>
    obtain ⟨h1, h2⟩ := ih (fun dt hdt => hpos dt (List.mem_append_left _ hdt))
    have ha : 0 < a := hpos a (List.mem_append_right _ (List.mem_singleton_self a))
    have hstep : floatSum rnd l ≤ floatSum rnd (l ++ [a]) := by
      rw [floatSum_append]
      rcases h1 with h | h
      · subst h
        simp only [floatSum, List.foldl_nil]
        exact hrnd _ (by linarith)
      · calc floatSum rnd l = rnd (floatSum rnd l) := h.symm
          _ ≤ rnd (floatSum rnd l + a) := hmono _ _ (by linarith)
    refine ⟨Or.inr (by rw [floatSum_append, hidem]), fun k hk => ?_⟩
    by_cases hlt : k < l.length
    · rw [List.take_append_of_le_length (by omega)]
      exact le_trans (h2 k hlt) hstep
    · rw [List.take_of_length_le (by simp at hk ⊢; omega)]

/-- C3: five-second dry-off, with the timer sum `nx_wet_time_sec += dt_sec` rounded by `rnd`
as a `float` addition is. A node that may get wet and has particles leaves the water in the
first frame and stays out, all frame times positive; the running sums are `s_0 = 0`,
`s_k = rnd (s_(k-1) + dt_k)`. The node list after the run holds, at the node's index, the node
followed through the frames, and the effects of the node's iteration are among the effects of
the last call. In a frame up to which every running sum is at most 5 the timer equals the
running sum and a drip with that timer is allocated (when the drip pool exists); in a frame at
or after the first running sum above 5 the timer is -1 and neither drip nor vapour is
allocated. For a rounding that keeps the order and leaves its own results as they are, the
wet frames are those whose own running sum is at most 5; without rounding the running sum is
the sum of the frame times. -/
theorem UpdateParticles_five_second_dry_off (rnd : α → α) (hrnd : ∀ x, 0 ≤ x → 0 ≤ rnd x)
    (nodes : List (NodeGfx α)) (i : Nat) (nfx : NodeGfx α) (hi : nodes[i]? = some nfx)
    (frames : List (ParticleEnv α × α)) (env : ParticleEnv α) (dt : α)
    (hwet : nfx.nx_may_get_wet = true) (hnp : nfx.nx_no_particles = false)
    (hprev : nfx.nx_under_water_prev = true)
    (hout : ∀ f ∈ frames ++ [(env, dt)], (f.1.ar_nodes nfx.nx_node_idx).nd_under_water = false)
    (hpos : ∀ f ∈ frames ++ [(env, dt)], 0 < f.2) :
    (UpdateParticlesFramesFloat rnd (frames ++ [(env, dt)]) nodes)[i]?
        = some (nodeFramesFloat rnd nfx (frames ++ [(env, dt)])).1
    ∧ (∀ e ∈ (nodeFramesFloat rnd nfx (frames ++ [(env, dt)])).2,
        e ∈ (UpdateParticlesFloat rnd env dt (UpdateParticlesFramesFloat rnd frames nodes)).2)
    ∧ ((∀ k, k < (frames.map Prod.snd ++ [dt]).length →
          floatSum rnd ((frames.map Prod.snd ++ [dt]).take (k + 1)) ≤ 5) →
        (nodeFramesFloat rnd nfx (frames ++ [(env, dt)])).1.nx_wet_time_sec
          = floatSum rnd (frames.map Prod.snd ++ [dt])
        ∧ (env.m_particles_drip = true →
            Effect.allocDrip (env.ar_nodes nfx.nx_node_idx).AbsPosition
              (env.ar_nodes nfx.nx_node_idx).Velocity
              (floatSum rnd (frames.map Prod.snd ++ [dt]))
              ∈ (nodeFramesFloat rnd nfx (frames ++ [(env, dt)])).2))
    ∧ (¬ (∀ k, k < (frames.map Prod.snd ++ [dt]).length →
          floatSum rnd ((frames.map Prod.snd ++ [dt]).take (k + 1)) ≤ 5) →
        (nodeFramesFloat rnd nfx (frames ++ [(env, dt)])).1.nx_wet_time_sec = -1
        ∧ ∀ p v t, Effect.allocDrip p v t
              ∉ (nodeFramesFloat rnd nfx (frames ++ [(env, dt)])).2
            ∧ Effect.allocVapour p v t
              ∉ (nodeFramesFloat rnd nfx (frames ++ [(env, dt)])).2)
    ∧ ((∀ x y, x ≤ y → rnd x ≤ rnd y) → (∀ x, rnd (rnd x) = rnd x) →
        ((∀ k, k < (frames.map Prod.snd ++ [dt]).length →
            floatSum rnd ((frames.map Prod.snd ++ [dt]).take (k + 1)) ≤ 5)
          ↔ floatSum rnd (frames.map Prod.snd ++ [dt]) ≤ 5))
    ∧ floatSum (fun x => x) (frames.map Prod.snd ++ [dt]) = (frames.map Prod.snd).sum + dt := by
  obtain ⟨h3, h4⟩ := nodeFramesFloat_dry_off rnd hrnd nfx frames env dt hwet hnp hprev hout hpos
  refine ⟨UpdateParticlesFramesFloat_getElem rnd _ nodes i nfx hi, fun e he => ?_, h3, h4,
    fun hmono hidem => ?_, ?_⟩
  · rw [nodeFramesFloat_append] at he
    rw [UpdateParticlesFloat_snd, List.mem_flatten]
    refine ⟨_, List.mem_map.mpr ⟨(nodeFramesFloat rnd nfx frames).1, ?_, rfl⟩, he⟩
    exact List.getElem?_mem (UpdateParticlesFramesFloat_getElem rnd frames nodes i nfx hi)
  · have hp : ∀ d ∈ frames.map Prod.snd ++ [dt], 0 < d := by
      intro d hd
      have hd1 : d ∈ (frames ++ [(env, dt)]).map Prod.snd := by simpa using hd
      obtain ⟨f, hf, rfl⟩ := List.mem_map.mp hd1
      exact hpos f hf
    obtain ⟨-, hle⟩ := floatSum_take_le rnd hrnd hmono hidem _ hp
    constructor
    · intro hall
      have := hall (frames.map Prod.snd).length (by simp)
      rwa [List.take_of_length_le (by simp)] at this
    · intro hlast k hk
      exact le_trans (hle k hk) hlast
  · rw [floatSum_exact]
    simp

end ParticleTheorems

/-- Instance of C2: two frames of one and three seconds on a wet sample node and a new node. -/
theorem UpdateParticles_wet_timer_invariant_witness :
    (∀ f ∈ [(sampleEnv, (1 : ℚ)), (sampleEnv, 3)], 0 ≤ f.2)
    ∧ (∀ nfx ∈ [sampleNodeGfx, NodeGfx.new 1], nfx.nx_wet_time_sec = -1)
    ∧ ∀ nfx ∈ UpdateParticlesFrames
          (List.take 2 [(sampleEnv, (1 : ℚ)), (sampleEnv, 3)]) [sampleNodeGfx, NodeGfx.new 1],
        nfx.nx_wet_time_sec = -1 ∨ (0 ≤ nfx.nx_wet_time_sec ∧ nfx.nx_wet_time_sec ≤ 5) :=
  have h1 : ∀ f ∈ [(sampleEnv, (1 : ℚ)), (sampleEnv, 3)], 0 ≤ f.2 := by simp
  have h2 : ∀ nfx ∈ [sampleNodeGfx, NodeGfx.new 1], nfx.nx_wet_time_sec = -1 := by
    simp [sampleNodeGfx, NodeGfx.new]
  ⟨h1, h2, UpdateParticles_wet_timer_invariant _ _ h1 h2 2⟩

/-- C3 fails with the cumulative time taken as the exact sum: after frames of 4 and
1 + 2^-23 seconds (both `float` values) the exact sum exceeds 5, but the `float` sum is
exactly 5, so the sample node is still wet with timer 5 and drips. -/
theorem dry_off_exact_sum_fails :
    roundF32 (4 : ℚ) = 4 ∧ roundF32 (1 + 1 / 2 ^ 23 : ℚ) = 1 + 1 / 2 ^ 23
    ∧ (5 : ℚ) < ([4, 1 + 1 / 2 ^ 23] : List ℚ).sum
    ∧ (nodeFramesFloat roundF32 sampleNodeGfx
        ([(sampleEnv, 4)] ++ [(sampleEnv, 1 + 1 / 2 ^ 23)])).1.nx_wet_time_sec = 5
    ∧ Effect.allocDrip (sampleEnv.ar_nodes sampleNodeGfx.nx_node_idx).AbsPosition
        (sampleEnv.ar_nodes sampleNodeGfx.nx_node_idx).Velocity 5
        ∈ (nodeFramesFloat roundF32 sampleNodeGfx
            ([(sampleEnv, 4)] ++ [(sampleEnv, 1 + 1 / 2 ^ 23)])).2 := by
  have hsum : floatSum roundF32 ([(sampleEnv, (4 : ℚ))].map Prod.snd ++ [1 + 1 / 2 ^ 23])
      = 5 := by decide!
  have hall : ∀ k, k < ([(sampleEnv, (4 : ℚ))].map Prod.snd ++ [1 + 1 / 2 ^ 23]).length →
      floatSum roundF32
        (([(sampleEnv, (4 : ℚ))].map Prod.snd ++ [1 + 1 / 2 ^ 23]).take (k + 1)) ≤ 5 := by
    decide!
  have h := (nodeFramesFloat_dry_off roundF32 (fun x hx => roundF32_nonneg x hx) sampleNodeGfx
    [(sampleEnv, 4)] sampleEnv (1 + 1 / 2 ^ 23) rfl rfl rfl
    (by simp [sampleEnv, sampleNode]) (by simp; norm_num)).1 hall
  rw [hsum] at h
  exact ⟨by decide!, by decide!, by norm_num, h.1, h.2 rfl⟩

/-- Instance of C3 in `float` arithmetic: after frames of 4 and 1 + 2^-21 seconds the running
sum 5 + 2^-21 is a `float` value above 5, so the sample node, entry 0 of the node list, is
dry. -/
theorem UpdateParticles_five_second_dry_off_witness :
    (UpdateParticlesFramesFloat roundF32 ([(sampleEnv, 4)] ++ [(sampleEnv, 1 + 1 / 2 ^ 21)])
        [sampleNodeGfx])[0]?
      = some (nodeFramesFloat roundF32 sampleNodeGfx
          ([(sampleEnv, 4)] ++ [(sampleEnv, 1 + 1 / 2 ^ 21)])).1
    ∧ (nodeFramesFloat roundF32 sampleNodeGfx
        ([(sampleEnv, 4)] ++ [(sampleEnv, 1 + 1 / 2 ^ 21)])).1.nx_wet_time_sec = -1 :=
  have h := UpdateParticles_five_second_dry_off roundF32 (fun x hx => roundF32_nonneg x hx)
    [sampleNodeGfx] 0 sampleNodeGfx rfl [(sampleEnv, 4)] sampleEnv (1 + 1 / 2 ^ 21) rfl rfl rfl
    (by simp [sampleEnv, sampleNode]) (by simp; norm_num)
  ⟨h.1, (h.2.2.2.1 (by decide!)).1⟩

/-! ## Theorems: flexible wheel meshes -/

/-- The pool loop pushes one task per prepared wheel, calls `flexitPrepare` once per wheel with
a scene node, and requests `flexitCompute` exactly for the wheels it pushed a task for. -/
theorem updateWheelsPool_eq (prepare : Nat → Bool) (ws : List WheelGfx) (i : Nat)
    (r : List Nat × List WheelOp) (h : updateWheelsPool prepare i ws = some r) :
    r.1 = ((ws.enumFrom i).filter (fun p => p.2.wx_scenenode.isSome && prepare p.1)).map Prod.fst
    ∧ prepareCalls r.2
        = ((ws.enumFrom i).filter (fun p => p.2.wx_scenenode.isSome)).map Prod.fst
    ∧ computeCalls r.2 = r.1 := by
  induction ws generalizing i r with
  | nil =>
    simp [updateWheelsPool] at h
    subst h
    simp [prepareCalls, computeCalls]
  | cons w ws ih =>
    obtain ⟨fm, sn, mw⟩ := w
    cases sn with
    | none =>
      simp only [updateWheelsPool] at h
      simpa [List.enumFrom_cons, List.filter_cons] using ih _ _ h
    | some s =>
      cases fm with
      | none => simp [updateWheelsPool] at h
      | some m =>
        cases hp : prepare i
        · simp only [updateWheelsPool, hp, Bool.false_eq_true, if_false,
            Option.map_eq_some'] at h
          obtain ⟨r1, hr1, rfl⟩ := h
          obtain ⟨h1, h2, h3⟩ := ih _ _ hr1
          refine ⟨?_, ?_, ?_⟩
          · simp [List.enumFrom_cons, List.filter_cons, hp, h1]
          · simp [List.enumFrom_cons, List.filter_cons, prepareCalls] at h2 ⊢
            exact h2
          · simp [computeCalls] at h3 ⊢
            exact h3
        · simp only [updateWheelsPool, hp, if_true, Option.map_eq_some'] at h
          obtain ⟨r1, hr1, rfl⟩ := h
          obtain ⟨h1, h2, h3⟩ := ih _ _ hr1
          refine ⟨?_, ?_, ?_⟩
          · simp [List.enumFrom_cons, List.filter_cons, hp, h1]
          · simp [List.enumFrom_cons, List.filter_cons, prepareCalls] at h2 ⊢
            exact h2
          · simp [computeCalls] at h3 ⊢
            exact h3

/-- The direct loop calls `flexitPrepare` once per wheel with a scene node and `flexitCompute`
exactly for the prepared wheels. -/
theorem updateWheelsDirect_eq (prepare : Nat → Bool) (ws : List WheelGfx) (i : Nat)
    (ops : List WheelOp) (h : updateWheelsDirect prepare i ws = some ops) :
    prepareCalls ops
        = ((ws.enumFrom i).filter (fun p => p.2.wx_scenenode.isSome)).map Prod.fst
    ∧ computeCalls ops
        = ((ws.enumFrom i).filter
            (fun p => p.2.wx_scenenode.isSome && prepare p.1)).map Prod.fst := by
  induction ws generalizing i ops with
  | nil =>
    simp [updateWheelsDirect] at h
    subst h
    simp [prepareCalls, computeCalls]
  | cons w ws ih =>
    obtain ⟨fm, sn, mw⟩ := w
    cases sn with
    | none =>
      simp only [updateWheelsDirect] at h
      simpa [List.enumFrom_cons, List.filter_cons] using ih _ _ h
    | some s =>
      cases fm with
      | none => simp [updateWheelsDirect] at h
      | some m =>
        cases hp : prepare i
        · simp only [updateWheelsDirect, hp, Bool.false_eq_true, if_false,
            Option.map_eq_some'] at h
          obtain ⟨r1, hr1, rfl⟩ := h
          obtain ⟨h1, h2⟩ := ih _ _ hr1
          refine ⟨?_, ?_⟩
          · simp [List.enumFrom_cons, List.filter_cons, prepareCalls] at h1 ⊢
            exact h1
          · simp [List.enumFrom_cons, List.filter_cons, computeCalls, hp] at h2 ⊢
            exact h2
        · simp only [updateWheelsDirect, hp, if_true, Option.map_eq_some'] at h
          obtain ⟨r1, hr1, rfl⟩ := h
          obtain ⟨h1, h2⟩ := ih _ _ hr1
          refine ⟨?_, ?_⟩
          · simp [List.enumFrom_cons, List.filter_cons, prepareCalls] at h1 ⊢
            exact h1
          · simp [List.enumFrom_cons, List.filter_cons, computeCalls, hp] at h2 ⊢
            exact h2

/-- The finalising loop sets the position of exactly the wheels with a scene node, in order. -/
theorem finalizeWheels_eq (ws : List WheelGfx) (i : Nat) (ops : List WheelOp)
    (h : finalizeWheels i ws = some ops) :
    ops = (((ws.enumFrom i).filter (fun p => p.2.wx_scenenode.isSome)).map Prod.fst).map
      WheelOp.setPosition := by
  induction ws generalizing i ops with
  | nil =>
    simp [finalizeWheels] at h
    subst h
    simp
  | cons w ws ih =>
    obtain ⟨fm, sn, mw⟩ := w
    cases sn with
    | none =>
      simp only [finalizeWheels] at h
      simpa [List.enumFrom_cons, List.filter_cons] using ih _ _ h
    | some s =>
      cases fm with
      | none => simp [finalizeWheels] at h
      | some m =>
        simp only [finalizeWheels, Option.map_eq_some'] at h
        obtain ⟨r1, hr1, rfl⟩ := h
        have h1 := ih _ _ hr1
        simp [List.enumFrom_cons, List.filter_cons] at h1 ⊢
        exact h1

/-- Validity of a wheel list passes to its tail. -/
theorem WheelsValid.tail {w : WheelGfx} {ws : List WheelGfx} (h : WheelsValid (w :: ws)) :
    WheelsValid ws :=
  fun v hv => h v (List.mem_cons_of_mem _ hv)

/-- On a valid wheel list the pool loop runs to completion. -/
theorem updateWheelsPool_total (prepare : Nat → Bool) (ws : List WheelGfx) (i : Nat)
    (hv : WheelsValid ws) : ∃ r, updateWheelsPool prepare i ws = some r := by
  induction ws generalizing i with
  | nil => exact ⟨_, rfl⟩
  | cons w ws ih =>
    obtain ⟨r, hr⟩ := ih (i + 1) hv.tail
    have hw := hv w (List.mem_cons_self _ _)
    obtain ⟨fm, sn, mw⟩ := w
    cases sn with
    | none => exact ⟨r, by simp [updateWheelsPool, hr]⟩
    | some s =>
      cases fm with
      | none => simp at hw
      | some m => cases hp : prepare i <;> simp [updateWheelsPool, hr, hp]

/-- On a valid wheel list the direct loop runs to completion. -/
theorem updateWheelsDirect_total (prepare : Nat → Bool) (ws : List WheelGfx) (i : Nat)
    (hv : WheelsValid ws) : ∃ r, updateWheelsDirect prepare i ws = some r := by
  induction ws generalizing i with
  | nil => exact ⟨_, rfl⟩
  | cons w ws ih =>
    obtain ⟨r, hr⟩ := ih (i + 1) hv.tail
    have hw := hv w (List.mem_cons_self _ _)
    obtain ⟨fm, sn, mw⟩ := w
    cases sn with
    | none => exact ⟨r, by simp [updateWheelsDirect, hr]⟩
    | some s =>
      cases fm with
      | none => simp at hw
      | some m => cases hp : prepare i <;> simp [updateWheelsDirect, hr, hp]

/-- On a valid wheel list the finalising loop runs to completion. -/
theorem finalizeWheels_total (ws : List WheelGfx) (i : Nat) (hv : WheelsValid ws) :
    ∃ r, finalizeWheels i ws = some r := by
  induction ws generalizing i with
  | nil => exact ⟨_, rfl⟩
  | cons w ws ih =>
    obtain ⟨r, hr⟩ := ih (i + 1) hv.tail
    have hw := hv w (List.mem_cons_self _ _)
    obtain ⟨fm, sn, mw⟩ := w
    cases sn with
    | none => exact ⟨r, by simp [finalizeWheels, hr]⟩
    | some s =>
      cases fm with
      | none => simp at hw
      | some m => simp [finalizeWheels, hr]

/-- Positions selected from an enumerated list are pairwise different. -/
theorem enum_filter_fst_nodup {β : Type} (l : List β) (q : Nat × β → Bool) :
    ((l.enum.filter q).map Prod.fst).Nodup := by
  have hsub : List.Sublist ((l.enum.filter q).map Prod.fst) (l.enum.map Prod.fst) :=
    List.Sublist.map _ (List.filter_sublist _)
  exact List.Nodup.sublist hsub (List.nodup_enum_map_fst l)

/-- A position is selected from an enumerated list iff the entry there passes the test. -/
theorem mem_enum_filter_fst {β : Type} (l : List β) (q : Nat × β → Bool) (i : Nat) :
    i ∈ (l.enum.filter q).map Prod.fst ↔ ∃ w, l[i]? = some w ∧ q (i, w) = true := by
  simp only [List.mem_map, List.mem_filter]
  constructor
  · rintro ⟨⟨j, w⟩, ⟨hm, hq⟩, rfl⟩
    exact ⟨w, List.mk_mem_enum_iff_getElem?.mp hm, hq⟩
  · rintro ⟨w, hw, hq⟩
    exact ⟨(i, w), ⟨List.mk_mem_enum_iff_getElem?.mpr hw, hq⟩, rfl⟩

/-- At most as many positions are selected as the list has entries. -/
theorem enum_filter_fst_length {β : Type} (l : List β) (q : Nat × β → Bool) :
    ((l.enum.filter q).map Prod.fst).length ≤ l.length := by
  rw [List.length_map]
  calc (l.enum.filter q).length ≤ l.enum.length := List.length_filter_le _ _
    _ = l.length := List.enum_length

/-- What `UpdateWheelVisuals` returns: the wheels are untouched, the recorded tasks are the
prepared wheels (pool) or none (no pool), and the calls are those of the matching loop. -/
theorem UpdateWheelVisuals_eq (threadPool : Bool) (prepare : Nat → Bool) (st st1 : WheelState)
    (ops : List WheelOp) (h : UpdateWheelVisuals threadPool prepare st = some (st1, ops)) :
    st1.m_wheels = st.m_wheels
    ∧ st1.m_flexwheel_tasks = (if threadPool then preparedWheels prepare st.m_wheels else [])
    ∧ prepareCalls ops = sceneWheels st.m_wheels
    ∧ computeCalls ops = preparedWheels prepare st.m_wheels := by
  cases threadPool with
  | true =>
    simp only [UpdateWheelVisuals, if_true, Option.map_eq_some'] at h
    obtain ⟨r, hr, hr2⟩ := h
    obtain ⟨h1, h2, h3⟩ := updateWheelsPool_eq prepare _ _ _ hr
    simp only [Prod.mk.injEq] at hr2
    obtain ⟨rfl, rfl⟩ := hr2
    refine ⟨rfl, ?_, ?_, ?_⟩
    · simp [h1, preparedWheels, List.enum]
    · simpa [sceneWheels, List.enum] using h2
    · rw [h3, h1]
      simp [preparedWheels, List.enum]
  | false =>
    simp only [UpdateWheelVisuals, Bool.false_eq_true, if_false, Option.map_eq_some'] at h
    obtain ⟨r, hr, hr2⟩ := h
    obtain ⟨h1, h2⟩ := updateWheelsDirect_eq prepare _ _ _ hr
    simp only [Prod.mk.injEq] at hr2
    obtain ⟨rfl, rfl⟩ := hr2
    refine ⟨rfl, by simp, ?_, ?_⟩
    · simpa [sceneWheels, List.enum] using h1
    · simpa [preparedWheels, List.enum] using h2

/-- On a valid wheel list `UpdateWheelVisuals` returns. -/
theorem UpdateWheelVisuals_total (threadPool : Bool) (prepare : Nat → Bool) (st : WheelState)
    (hv : WheelsValid st.m_wheels) : ∃ r, UpdateWheelVisuals threadPool prepare st = some r := by
  cases threadPool with
  | true =>
    obtain ⟨r, hr⟩ := updateWheelsPool_total prepare st.m_wheels 0 hv
    simp [UpdateWheelVisuals, hr]
  | false =>
    obtain ⟨r, hr⟩ := updateWheelsDirect_total prepare st.m_wheels 0 hv
    simp [UpdateWheelVisuals, hr]

/-- C6: at most one task per wheel per frame. After `UpdateWheelVisuals` the recorded tasks are
exactly the wheels that have a scene node and whose `flexitPrepare` returned true when a thread
pool is available (each such wheel once, so at most as many as there are wheels) and none
without a thread pool, whatever handles the previous frame left; a second call again records
only its own tasks. On a valid wheel list the call returns. -/
theorem UpdateWheelVisuals_task_count (threadPool : Bool) (prepare prepare2 : Nat → Bool)
    (st : WheelState) :
    (∀ st1 ops, UpdateWheelVisuals threadPool prepare st = some (st1, ops) →
      st1.m_flexwheel_tasks = (if threadPool then preparedWheels prepare st.m_wheels else [])
      ∧ st1.m_flexwheel_tasks.length
          = (if threadPool then
              (st.m_wheels.enum.filter
                (fun p => p.2.wx_scenenode.isSome && prepare p.1)).length
            else 0)
      ∧ st1.m_flexwheel_tasks.length ≤ st.m_wheels.length
      ∧ ∀ st2 ops2, UpdateWheelVisuals threadPool prepare2 st1 = some (st2, ops2) →
          st2.m_flexwheel_tasks
            = (if threadPool then preparedWheels prepare2 st.m_wheels else []))
    ∧ (∀ i, i ∈ preparedWheels prepare st.m_wheels ↔
        ∃ w, st.m_wheels[i]? = some w ∧ w.wx_scenenode ≠ none ∧ prepare i = true)
    ∧ (preparedWheels prepare st.m_wheels).Nodup
    ∧ (WheelsValid st.m_wheels → ∃ r, UpdateWheelVisuals threadPool prepare st = some r) := by
  refine ⟨fun st1 ops h => ?_, fun i => ?_, enum_filter_fst_nodup _ _,
    UpdateWheelVisuals_total threadPool prepare st⟩
  · obtain ⟨hw, ht, -, -⟩ := UpdateWheelVisuals_eq threadPool prepare st st1 ops h
    refine ⟨ht, ?_, ?_, fun st2 ops2 h2 => ?_⟩
    · rw [ht]
      cases threadPool <;> simp [preparedWheels]
    · rw [ht]
      cases threadPool
      · simp
      · exact enum_filter_fst_length _ _
    · obtain ⟨-, ht2, -, -⟩ := UpdateWheelVisuals_eq threadPool prepare2 st1 st2 ops2 h2
      rw [ht2, hw]
  · rw [preparedWheels, mem_enum_filter_fst]
    simp [Option.isSome_iff_ne_none]

/-- Instance of C6 on the sample wheels: only wheel 0 gets a task and the two stale handles are
gone. -/
theorem UpdateWheelVisuals_task_count_witness :
    ∃ st1 ops, UpdateWheelVisuals true samplePrepare sampleWheels = some (st1, ops)
      ∧ st1.m_flexwheel_tasks = [0] ∧ st1.m_flexwheel_tasks.length ≤ 3 :=
  ⟨_, _, rfl, rfl,
    ((UpdateWheelVisuals_task_count true samplePrepare samplePrepare sampleWheels).1
      _ _ rfl).2.2.1⟩

/-- C7: two-phase protocol. With or without a thread pool `flexitPrepare` is invoked exactly
once for each wheel that has a scene node and never for a wheel without one; `flexitCompute` is
requested exactly once for each wheel that has a scene node and whose prepare returned true and
never for another wheel; both paths request compute for the same wheels. On a valid wheel list
the call returns in both paths. -/
theorem UpdateWheelVisuals_two_phase (prepare : Nat → Bool) (st : WheelState) :
    (∀ threadPool st1 ops, UpdateWheelVisuals threadPool prepare st = some (st1, ops) →
      (∀ i, ((∃ w, st.m_wheels[i]? = some w ∧ w.wx_scenenode ≠ none) →
              (prepareCalls ops).count i = 1)
          ∧ ((¬ ∃ w, st.m_wheels[i]? = some w ∧ w.wx_scenenode ≠ none) →
              (prepareCalls ops).count i = 0))
      ∧ (∀ i, ((∃ w, st.m_wheels[i]? = some w ∧ w.wx_scenenode ≠ none ∧ prepare i = true) →
              (computeCalls ops).count i = 1)
          ∧ ((¬ ∃ w, st.m_wheels[i]? = some w ∧ w.wx_scenenode ≠ none ∧ prepare i = true) →
              (computeCalls ops).count i = 0)))
    ∧ (∀ st1 ops1 st2 ops2, UpdateWheelVisuals true prepare st = some (st1, ops1) →
        UpdateWheelVisuals false prepare st = some (st2, ops2) →
        computeCalls ops1 = computeCalls ops2)
    ∧ (WheelsValid st.m_wheels →
        ∀ threadPool, ∃ r, UpdateWheelVisuals threadPool prepare st = some r) := by
  refine ⟨fun threadPool st1 ops h => ?_, fun st1 ops1 st2 ops2 h1 h2 => ?_,
    fun hv threadPool => UpdateWheelVisuals_total threadPool prepare st hv⟩
  · obtain ⟨-, -, hp, hc⟩ := UpdateWheelVisuals_eq threadPool prepare st st1 ops h
    have hmp : ∀ i, i ∈ sceneWheels st.m_wheels ↔
        ∃ w, st.m_wheels[i]? = some w ∧ w.wx_scenenode ≠ none := by
      intro i
      rw [sceneWheels, mem_enum_filter_fst]
      simp [Option.isSome_iff_ne_none]
    have hmc : ∀ i, i ∈ preparedWheels prepare st.m_wheels ↔
        ∃ w, st.m_wheels[i]? = some w ∧ w.wx_scenenode ≠ none ∧ prepare i = true := by
      intro i
      rw [preparedWheels, mem_enum_filter_fst]
      simp [Option.isSome_iff_ne_none]
    refine ⟨fun i => ⟨fun hi => ?_, fun hi => ?_⟩, fun i => ⟨fun hi => ?_, fun hi => ?_⟩⟩
    · rw [hp, sceneWheels, List.count_eq_of_nodup (enum_filter_fst_nodup _ _)]
      exact if_pos ((hmp i).mpr hi)
    · rw [hp, List.count_eq_zero]
      exact fun hm => hi ((hmp i).mp hm)
    · rw [hc, preparedWheels, List.count_eq_of_nodup (enum_filter_fst_nodup _ _)]
      exact if_pos ((hmc i).mpr hi)
    · rw [hc, List.count_eq_zero]
      exact fun hm => hi ((hmc i).mp hm)
  · rw [(UpdateWheelVisuals_eq true prepare st st1 ops1 h1).2.2.2,
      (UpdateWheelVisuals_eq false prepare st st2 ops2 h2).2.2.2]

/-- Instance of C7 on the sample wheels: both paths return, and wheel 0 is prepared once in the
pool path. -/
theorem UpdateWheelVisuals_two_phase_witness :
    (∀ threadPool, ∃ r, UpdateWheelVisuals threadPool samplePrepare sampleWheels = some r)
    ∧ ∃ st1 ops, UpdateWheelVisuals true samplePrepare sampleWheels = some (st1, ops)
        ∧ (prepareCalls ops).count 0 = 1 :=
  ⟨(UpdateWheelVisuals_two_phase samplePrepare sampleWheels).2.2 (by decide),
    _, _, rfl,
    (((UpdateWheelVisuals_two_phase samplePrepare sampleWheels).1 true _ _ rfl).1 0).1
      ⟨_, rfl, by decide⟩⟩

/-- What `FinishWheelUpdates` does with a thread pool: first the joins, one per recorded task,
then the position updates of the wheels with a scene node. -/
theorem FinishWheelUpdates_eq (st : WheelState) (ops : List WheelOp)
    (h : FinishWheelUpdates true st = some ops) :
    ops = st.m_flexwheel_tasks.map WheelOp.join
      ++ (sceneWheels st.m_wheels).map WheelOp.setPosition := by
  simp only [FinishWheelUpdates, if_true, Option.map_eq_some'] at h
  obtain ⟨r, hr, rfl⟩ := h
  rw [finalizeWheels_eq _ _ _ hr]
  simp [sceneWheels, List.enum]

/-- C8: join before finalize. Without a thread pool `FinishWheelUpdates` does nothing. With
one, its calls are the joins of the recorded tasks followed by the position updates, so every
join comes before every `setPosition`; after `UpdateWheelVisuals` every recorded task is joined
exactly once and nothing else is joined. On a valid wheel list the call returns. -/
theorem FinishWheelUpdates_join_before_finalize (prepare : Nat → Bool) (st : WheelState) :
    FinishWheelUpdates false st = some []
    ∧ (∀ ops, FinishWheelUpdates true st = some ops →
        ops = st.m_flexwheel_tasks.map WheelOp.join
            ++ (sceneWheels st.m_wheels).map WheelOp.setPosition
        ∧ ∀ (m n i t : Nat), ops[m]? = some (WheelOp.setPosition i) →
            ops[n]? = some (WheelOp.join t) → n < m)
    ∧ (∀ st1 ops1 ops, UpdateWheelVisuals true prepare st = some (st1, ops1) →
        FinishWheelUpdates true st1 = some ops →
        ∀ t, ops.count (WheelOp.join t) = if t ∈ st1.m_flexwheel_tasks then 1 else 0)
    ∧ (WheelsValid st.m_wheels → ∃ ops, FinishWheelUpdates true st = some ops) := by
  refine ⟨rfl, fun ops h => ⟨FinishWheelUpdates_eq st ops h, ?_⟩, ?_, fun hv => ?_⟩
  · intro m n i t hm hn
    rw [FinishWheelUpdates_eq st ops h] at hm hn
    have hlen : (st.m_flexwheel_tasks.map WheelOp.join).length ≤ m := by
      by_contra hlt
      rw [List.getElem?_append_left (not_le.mp hlt)] at hm
      have := List.getElem?_mem hm
      simp at this
    have hn2 : n < (st.m_flexwheel_tasks.map WheelOp.join).length := by
      by_contra hge
      rw [List.getElem?_append_right (not_lt.mp hge)] at hn
      have := List.getElem?_mem hn
      simp at this
    omega
  · intro st1 ops1 ops h1 h2 t
    obtain ⟨-, ht, -, -⟩ := UpdateWheelVisuals_eq true prepare st st1 ops1 h1
    rw [FinishWheelUpdates_eq st1 ops h2, List.count_append]
    have hz : ((sceneWheels st1.m_wheels).map WheelOp.setPosition).count (WheelOp.join t) = 0 := by
      rw [List.count_eq_zero]
      simp
    have hinj : Function.Injective WheelOp.join := fun a b hab => by
      injection hab
    rw [hz, List.count_map_of_injective _ _ hinj, ht, Nat.add_zero]
    simp only [if_true]
    exact List.count_eq_of_nodup (enum_filter_fst_nodup _ _)
  · obtain ⟨r, hr⟩ := finalizeWheels_total st.m_wheels 0 hv
    exact ⟨st.m_flexwheel_tasks.map WheelOp.join ++ r, by simp [FinishWheelUpdates, hr]⟩

/-- Instance of C8 on the sample wheels: after the update, finishing joins the task of wheel 0
and then sets the positions of wheels 0 and 2. -/
theorem FinishWheelUpdates_join_before_finalize_witness :
    ∃ ops, FinishWheelUpdates true ⟨sampleWheels.m_wheels, [0]⟩ = some ops
      ∧ ops = [WheelOp.join 0, WheelOp.setPosition 0, WheelOp.setPosition 2] :=
  let ⟨ops, h⟩ := (FinishWheelUpdates_join_before_finalize samplePrepare
    ⟨sampleWheels.m_wheels, [0]⟩).2.2.2 (by decide)
  ⟨ops, h, by
    have h2 : FinishWheelUpdates true ⟨sampleWheels.m_wheels, [0]⟩
        = some [WheelOp.join 0, WheelOp.setPosition 0, WheelOp.setPosition 2] := rfl
    rw [h2] at h
    exact (Option.some.inj h).symm⟩

/-! ## Theorems: video cameras -/

section CameraLemmas

variable {α : Type} [LinearOrderedField α]

/-- Normalising scales a vector by a positive factor, whatever the square-root function. -/
theorem Vector3.normalise_scale (sqrt : α → α) (a : Vector3 α) :
    ∃ k, 0 < k ∧ Vector3.normalise sqrt a = ⟨a.x * k, a.y * k, a.z * k⟩ := by
  unfold Vector3.normalise
  split_ifs with h
  · exact ⟨1 / Vector3.length sqrt a, one_div_pos.mpr h, rfl⟩
  · exact ⟨1, zero_lt_one, by simp⟩

/-- A vector other than zero has positive squared length. -/
theorem Vector3.squaredLength_pos (a : Vector3 α) (h : a ≠ Vector3.ZERO) :
    0 < a.squaredLength := by
  obtain ⟨x, y, z⟩ := a
  simp only [Vector3.squaredLength]
  by_contra hn
  have hx : x * x = 0 := by nlinarith [mul_self_nonneg x, mul_self_nonneg y, mul_self_nonneg z]
  have hy : y * y = 0 := by nlinarith [mul_self_nonneg x, mul_self_nonneg y, mul_self_nonneg z]
  have hz : z * z = 0 := by nlinarith [mul_self_nonneg x, mul_self_nonneg y, mul_self_nonneg z]
  apply h
  simp only [Vector3.ZERO, Vector3.mk.injEq]
  exact ⟨mul_self_eq_zero.mp hx, mul_self_eq_zero.mp hy, mul_self_eq_zero.mp hz⟩

/-- The orientation call in the calls of a node-driven camera comes from the branch on the
camera kind. -/
theorem updateNodeCamera_setOrientation_mem (sqrt : α → α) (node_buf : Nat → Vector3 α)
    (mainCameraPos : Vector3 α) (vidcam : VideoCamera α) (cam : Nat) (ax ay az : Vector3 α)
    (q : Quaternion α) :
    CamOp.setOrientation cam ax ay az q ∈ updateNodeCamera sqrt node_buf mainCameraPos vidcam
      ↔ CamOp.setOrientation cam ax ay az q ∈ orientCamera sqrt node_buf mainCameraPos vidcam := by
  unfold updateNodeCamera
  cases vidcam.vcam_render_target <;> cases vidcam.vcam_render_window <;>
    cases vidcam.vcam_debug_node <;> simp

end CameraLemmas

/-- Over the reals, normalising a vector of positive squared length gives a unit vector. -/
theorem Vector3.length_normalise (a : Vector3 ℝ) (h : 0 < a.squaredLength) :
    Vector3.length Real.sqrt (Vector3.normalise Real.sqrt a) = 1 := by
  have hL : 0 < Real.sqrt a.squaredLength := Real.sqrt_pos.mpr h
  have hsq : Real.sqrt a.squaredLength * Real.sqrt a.squaredLength = a.squaredLength :=
    Real.mul_self_sqrt (le_of_lt h)
  have hn : Vector3.normalise Real.sqrt a
      = ⟨a.x * (1 / Real.sqrt a.squaredLength), a.y * (1 / Real.sqrt a.squaredLength),
          a.z * (1 / Real.sqrt a.squaredLength)⟩ := by
    simp only [Vector3.normalise, Vector3.length, if_pos hL]
  rw [hn]
  simp only [Vector3.length]
  have h1 : Vector3.squaredLength (⟨a.x * (1 / Real.sqrt a.squaredLength),
      a.y * (1 / Real.sqrt a.squaredLength), a.z * (1 / Real.sqrt a.squaredLength)⟩ : Vector3 ℝ)
      = 1 := by
    have hL0 : Real.sqrt a.squaredLength ≠ 0 := ne_of_gt hL
    simp only [Vector3.squaredLength] at hsq hL0 ⊢
    calc a.x * (1 / Real.sqrt (a.x * a.x + a.y * a.y + a.z * a.z))
            * (a.x * (1 / Real.sqrt (a.x * a.x + a.y * a.y + a.z * a.z)))
          + a.y * (1 / Real.sqrt (a.x * a.x + a.y * a.y + a.z * a.z))
            * (a.y * (1 / Real.sqrt (a.x * a.x + a.y * a.y + a.z * a.z)))
          + a.z * (1 / Real.sqrt (a.x * a.x + a.y * a.y + a.z * a.z))
            * (a.z * (1 / Real.sqrt (a.x * a.x + a.y * a.y + a.z * a.z)))
        = (a.x * a.x + a.y * a.y + a.z * a.z)
            * ((1 / Real.sqrt (a.x * a.x + a.y * a.y + a.z * a.z))
              * (1 / Real.sqrt (a.x * a.x + a.y * a.y + a.z * a.z))) := by ring
      _ = (Real.sqrt (a.x * a.x + a.y * a.y + a.z * a.z)
            * Real.sqrt (a.x * a.x + a.y * a.y + a.z * a.z))
            * ((1 / Real.sqrt (a.x * a.x + a.y * a.y + a.z * a.z))
              * (1 / Real.sqrt (a.x * a.x + a.y * a.y + a.z * a.z))) := by rw [hsq]
      _ = 1 := by field_simp
  rw [h1, Real.sqrt_one]

/-- Negation keeps the length. -/
theorem Vector3.length_neg (a : Vector3 ℝ) :
    Vector3.length Real.sqrt a.neg = Vector3.length Real.sqrt a := by
  simp [Vector3.length, Vector3.squaredLength, Vector3.neg]

/-- The vector product as the source writes it, with both factors negated differences, is the
vector product of the differences taken from the centre. -/
theorem crossProduct_neg_sub (c y z : Vector3 ℝ) :
    Vector3.crossProduct (Vector3.neg (c.sub z)) (Vector3.neg (c.sub y))
      = Vector3.crossProduct (z.sub c) (y.sub c) := by
  simp only [Vector3.crossProduct, Vector3.neg, Vector3.sub, Vector3.mk.injEq]
  refine ⟨by ring, by ring, by ring⟩

/-- For three points not on one line the two differences used for the axes and their vector
product all have positive squared length. -/
theorem not_collinear_pos (c y z : Vector3 ℝ) (h : ¬ Collinear c y z) :
    0 < (z.sub c).squaredLength ∧ 0 < (c.sub y).squaredLength
      ∧ 0 < (Vector3.crossProduct (z.sub c) (y.sub c)).squaredLength := by
  have hc : Vector3.crossProduct (z.sub c) (y.sub c) ≠ Vector3.ZERO := h
  refine ⟨?_, ?_, Vector3.squaredLength_pos _ hc⟩
  · apply Vector3.squaredLength_pos
    intro hz
    apply hc
    rw [hz]
    simp [Vector3.crossProduct, Vector3.ZERO]
  · have hy : y.sub c ≠ Vector3.ZERO := by
      intro hy
      apply hc
      rw [hy]
      simp [Vector3.crossProduct, Vector3.ZERO]
    have hpos := Vector3.squaredLength_pos _ hy
    have heq : (c.sub y).squaredLength = (y.sub c).squaredLength := by
      simp only [Vector3.squaredLength, Vector3.sub]
      ring
    rw [heq]
    exact hpos

/-- C9 (amended): for a camera of type `VCTYPE_VIDEOCAM` whose centre, direction-y and
direction-z nodes are not collinear, the axes handed to the orientation are `-refx`, `-refy`,
`-normal` with `refx = normalised (z - center)`, `refy = normalised (center - y)`,
`normal = normalised ((z - center) x (y - center))`; each has length 1, `-normal` is orthogonal
to the other two, and `-refx` is orthogonal to `-refy` exactly when `z - center` is orthogonal
to `center - y`. -/
theorem fixed_camera_axes (node_buf : Nat → Vector3 ℝ) (mainCameraPos : Vector3 ℝ)
    (vidcam : VideoCamera ℝ) (htype : vidcam.vcam_type = VideoCamType.VCTYPE_VIDEOCAM)
    (hnc : ¬ Collinear (node_buf vidcam.vcam_node_center) (node_buf vidcam.vcam_node_dir_y)
      (node_buf vidcam.vcam_node_dir_z)) :
    (∃ ax ay az q, CamOp.setOrientation vidcam.vcam_ogre_camera ax ay az q
        ∈ updateNodeCamera Real.sqrt node_buf mainCameraPos vidcam)
    ∧ ∀ cam ax ay az q, CamOp.setOrientation cam ax ay az q
          ∈ updateNodeCamera Real.sqrt node_buf mainCameraPos vidcam →
        ax = (Vector3.normalise Real.sqrt
              ((node_buf vidcam.vcam_node_dir_z).sub (node_buf vidcam.vcam_node_center))).neg
        ∧ ay = (Vector3.normalise Real.sqrt
              ((node_buf vidcam.vcam_node_center).sub (node_buf vidcam.vcam_node_dir_y))).neg
        ∧ az = (Vector3.normalise Real.sqrt
              (Vector3.crossProduct
                ((node_buf vidcam.vcam_node_dir_z).sub (node_buf vidcam.vcam_node_center))
                ((node_buf vidcam.vcam_node_dir_y).sub (node_buf vidcam.vcam_node_center)))).neg
        ∧ Vector3.length Real.sqrt ax = 1 ∧ Vector3.length Real.sqrt ay = 1
        ∧ Vector3.length Real.sqrt az = 1
        ∧ Vector3.dotProduct ax az = 0 ∧ Vector3.dotProduct ay az = 0
        ∧ (Vector3.dotProduct ax ay = 0 ↔
            Vector3.dotProduct
              ((node_buf vidcam.vcam_node_dir_z).sub (node_buf vidcam.vcam_node_center))
              ((node_buf vidcam.vcam_node_center).sub (node_buf vidcam.vcam_node_dir_y)) = 0) := by
  obtain ⟨hz, hy, hn⟩ := not_collinear_pos _ _ _ hnc
  constructor
  · refine ⟨(Vector3.normalise Real.sqrt
        ((node_buf vidcam.vcam_node_dir_z).sub (node_buf vidcam.vcam_node_center))).neg,
      (Vector3.normalise Real.sqrt
        ((node_buf vidcam.vcam_node_center).sub (node_buf vidcam.vcam_node_dir_y))).neg,
      (planeNormal Real.sqrt node_buf vidcam).neg, vidcam.vcam_rotation, ?_⟩
    rw [updateNodeCamera_setOrientation_mem]
    simp only [orientCamera, htype, List.mem_singleton]
  · intro cam ax ay az q hmem
    rw [updateNodeCamera_setOrientation_mem] at hmem
    simp only [orientCamera, htype, List.mem_singleton, CamOp.setOrientation.injEq, planeNormal,
      crossProduct_neg_sub] at hmem
    obtain ⟨-, rfl, rfl, rfl, -⟩ := hmem
    refine ⟨rfl, rfl, rfl, ?_, ?_, ?_, ?_, ?_, ?_⟩
    · rw [Vector3.length_neg, Vector3.length_normalise _ hz]
    · rw [Vector3.length_neg, Vector3.length_normalise _ hy]
    · rw [Vector3.length_neg, Vector3.length_normalise _ hn]
    · obtain ⟨k1, -, h1⟩ := Vector3.normalise_scale Real.sqrt
        ((node_buf vidcam.vcam_node_dir_z).sub (node_buf vidcam.vcam_node_center))
      obtain ⟨k3, -, h3⟩ := Vector3.normalise_scale Real.sqrt
        (Vector3.crossProduct
          ((node_buf vidcam.vcam_node_dir_z).sub (node_buf vidcam.vcam_node_center))
          ((node_buf vidcam.vcam_node_dir_y).sub (node_buf vidcam.vcam_node_center)))
      rw [h1, h3]
      simp only [Vector3.dotProduct, Vector3.neg, Vector3.crossProduct, Vector3.sub]
      ring
    · obtain ⟨k2, -, h2⟩ := Vector3.normalise_scale Real.sqrt
        ((node_buf vidcam.vcam_node_center).sub (node_buf vidcam.vcam_node_dir_y))
      obtain ⟨k3, -, h3⟩ := Vector3.normalise_scale Real.sqrt
        (Vector3.crossProduct
          ((node_buf vidcam.vcam_node_dir_z).sub (node_buf vidcam.vcam_node_center))
          ((node_buf vidcam.vcam_node_dir_y).sub (node_buf vidcam.vcam_node_center)))
      rw [h2, h3]
      simp only [Vector3.dotProduct, Vector3.neg, Vector3.crossProduct, Vector3.sub]
      ring
    · obtain ⟨k1, hk1, h1⟩ := Vector3.normalise_scale Real.sqrt
        ((node_buf vidcam.vcam_node_dir_z).sub (node_buf vidcam.vcam_node_center))
      obtain ⟨k2, hk2, h2⟩ := Vector3.normalise_scale Real.sqrt
        ((node_buf vidcam.vcam_node_center).sub (node_buf vidcam.vcam_node_dir_y))
      rw [h1, h2]
      have hk : k1 * k2 ≠ 0 := ne_of_gt (mul_pos hk1 hk2)
      have hd : Vector3.dotProduct
          (Vector3.neg ⟨((node_buf vidcam.vcam_node_dir_z).sub
              (node_buf vidcam.vcam_node_center)).x * k1,
            ((node_buf vidcam.vcam_node_dir_z).sub (node_buf vidcam.vcam_node_center)).y * k1,
            ((node_buf vidcam.vcam_node_dir_z).sub (node_buf vidcam.vcam_node_center)).z * k1⟩)
          (Vector3.neg ⟨((node_buf vidcam.vcam_node_center).sub
              (node_buf vidcam.vcam_node_dir_y)).x * k2,
            ((node_buf vidcam.vcam_node_center).sub (node_buf vidcam.vcam_node_dir_y)).y * k2,
            ((node_buf vidcam.vcam_node_center).sub (node_buf vidcam.vcam_node_dir_y)).z * k2⟩)
          = k1 * k2 * Vector3.dotProduct
              ((node_buf vidcam.vcam_node_dir_z).sub (node_buf vidcam.vcam_node_center))
              ((node_buf vidcam.vcam_node_center).sub (node_buf vidcam.vcam_node_dir_y)) := by
        simp only [Vector3.dotProduct, Vector3.neg]
        ring
      rw [hd]
      constructor
      · intro h
        rcases mul_eq_zero.mp h with h | h
        · exact absurd h hk
        · exact h
      · intro h
        rw [h, mul_zero]

/-- Normalising a real vector whose squared length is the square of a positive `l` divides it
by `l`. -/
theorem Vector3.normalise_of_length (a : Vector3 ℝ) (l : ℝ) (hl : 0 < l)
    (h : a.squaredLength = l * l) :
    Vector3.normalise Real.sqrt a = ⟨a.x * (1 / l), a.y * (1 / l), a.z * (1 / l)⟩ := by
  have hs : Vector3.length Real.sqrt a = l := by
    rw [Vector3.length, h, Real.sqrt_mul_self (le_of_lt hl)]
  simp only [Vector3.normalise, hs, if_pos hl]

/-- The sample nodes 0, 1, 2 as centre, direction-y and direction-z are not collinear. -/
theorem sampleNodeBuf_not_collinear :
    ¬ Collinear (sampleNodeBuf ℝ 0) (sampleNodeBuf ℝ 1) (sampleNodeBuf ℝ 2) := by
  simp [Collinear, sampleNodeBuf, Vector3.crossProduct, Vector3.sub, Vector3.ZERO]

/-- The orientation call of the fixed sample camera on the sample nodes. -/
theorem sample_fixed_camera_call :
    CamOp.setOrientation 0 (⟨-1, 0, 0⟩ : Vector3 ℝ) ⟨3 / 5, 4 / 5, 0⟩ ⟨0, 0, -1⟩ ⟨1, 0, 0, 0⟩
      ∈ updateNodeCamera Real.sqrt (sampleNodeBuf ℝ) ⟨0, 0, 0⟩
          (sampleCamera ℝ VideoCamType.VCTYPE_VIDEOCAM) := by
  rw [updateNodeCamera_setOrientation_mem]
  have hx : Vector3.normalise Real.sqrt ((sampleNodeBuf ℝ 2).sub (sampleNodeBuf ℝ 0))
      = ⟨1, 0, 0⟩ := by
    rw [Vector3.normalise_of_length _ 1 one_pos
      (by simp [sampleNodeBuf, Vector3.sub, Vector3.squaredLength])]
    simp [sampleNodeBuf, Vector3.sub]
  have hy : Vector3.normalise Real.sqrt ((sampleNodeBuf ℝ 0).sub (sampleNodeBuf ℝ 1))
      = ⟨-(3 / 5), -(4 / 5), 0⟩ := by
    rw [Vector3.normalise_of_length _ 5 (by norm_num)
      (by norm_num [sampleNodeBuf, Vector3.sub, Vector3.squaredLength])]
    simp [sampleNodeBuf, Vector3.sub]
    norm_num
  have hn : Vector3.normalise Real.sqrt
      (Vector3.crossProduct (Vector3.neg ((sampleNodeBuf ℝ 0).sub (sampleNodeBuf ℝ 2)))
        (Vector3.neg ((sampleNodeBuf ℝ 0).sub (sampleNodeBuf ℝ 1)))) = ⟨0, 0, 1⟩ := by
    rw [Vector3.normalise_of_length _ 4 (by norm_num)
      (by norm_num [sampleNodeBuf, Vector3.sub, Vector3.neg, Vector3.crossProduct,
            Vector3.squaredLength])]
    simp [sampleNodeBuf, Vector3.sub, Vector3.neg, Vector3.crossProduct]
  simp only [orientCamera, sampleCamera, planeNormal, hx, hy, hn]
  simp only [Vector3.neg, List.mem_singleton, CamOp.setOrientation.injEq, Vector3.mk.injEq]
  norm_num

/-- C9 as stated fails: the sample centre (0,0,0), direction-y (3,4,0) and direction-z (1,0,0)
nodes are not collinear, the fixed camera hands the axes (-1,0,0), (3/5,4/5,0), (0,0,-1) to
the orientation, and the first two are not orthogonal. -/
theorem fixed_camera_axes_not_orthogonal :
    ¬ Collinear (sampleNodeBuf ℝ 0) (sampleNodeBuf ℝ 1) (sampleNodeBuf ℝ 2)
    ∧ CamOp.setOrientation 0 (⟨-1, 0, 0⟩ : Vector3 ℝ) ⟨3 / 5, 4 / 5, 0⟩ ⟨0, 0, -1⟩ ⟨1, 0, 0, 0⟩
        ∈ updateNodeCamera Real.sqrt (sampleNodeBuf ℝ) ⟨0, 0, 0⟩
            (sampleCamera ℝ VideoCamType.VCTYPE_VIDEOCAM)
    ∧ Vector3.dotProduct (⟨-1, 0, 0⟩ : Vector3 ℝ) ⟨3 / 5, 4 / 5, 0⟩ ≠ 0 := by
  refine ⟨sampleNodeBuf_not_collinear, sample_fixed_camera_call, ?_⟩
  simp [Vector3.dotProduct]

/-- Instance of the amended C9 on the sample nodes: the three axes of the fixed sample camera
have length 1 and the third is orthogonal to the first. -/
theorem fixed_camera_axes_witness :
    ∃ ax ay az q, CamOp.setOrientation 0 ax ay az q
        ∈ updateNodeCamera Real.sqrt (sampleNodeBuf ℝ) ⟨0, 0, 0⟩
            (sampleCamera ℝ VideoCamType.VCTYPE_VIDEOCAM) :=
  (fixed_camera_axes (sampleNodeBuf ℝ) ⟨0, 0, 0⟩ (sampleCamera ℝ VideoCamType.VCTYPE_VIDEOCAM)
    rfl sampleNodeBuf_not_collinear).1

/-- C10: for a camera of type `VCTYPE_TRACKING_VIDEOCAM` the axes handed to the orientation
are `-refx`, `-refy`, `-view` with `view` the normalised vector from the computed position `pos`
(the position that is set on the camera) to the look-at node, `refx = normalised (z - center)`
and `refy` the normalised vector product of `refx` and `view`. When that product is not zero,
`refy` has length 1 and is orthogonal to `refx` and to `view`; `view` has length 1 when the
look-at node differs from `pos`. Two tracking cameras that agree on centre, direction-z and
look-at positions, on `pos`, on the user rotation and on the camera object get the same
orientation call, so the direction-y node matters only through `pos`. -/
theorem tracking_camera_axes (node_buf : Nat → Vector3 ℝ) (mainCameraPos : Vector3 ℝ)
    (vidcam : VideoCamera ℝ)
    (htype : vidcam.vcam_type = VideoCamType.VCTYPE_TRACKING_VIDEOCAM) :
    (∀ cam ax ay az q, CamOp.setOrientation cam ax ay az q
          ∈ updateNodeCamera Real.sqrt node_buf mainCameraPos vidcam ↔
        cam = vidcam.vcam_ogre_camera
        ∧ ax = (Vector3.normalise Real.sqrt
              ((node_buf vidcam.vcam_node_dir_z).sub (node_buf vidcam.vcam_node_center))).neg
        ∧ ay = (Vector3.normalise Real.sqrt
              (Vector3.crossProduct
                (Vector3.normalise Real.sqrt
                  ((node_buf vidcam.vcam_node_dir_z).sub (node_buf vidcam.vcam_node_center)))
                (Vector3.normalise Real.sqrt
                  ((node_buf vidcam.vcam_node_lookat).sub
                    (cameraPos Real.sqrt node_buf vidcam))))).neg
        ∧ az = (Vector3.normalise Real.sqrt
              ((node_buf vidcam.vcam_node_lookat).sub (cameraPos Real.sqrt node_buf vidcam))).neg
        ∧ q = vidcam.vcam_rotation)
    ∧ CamOp.setPosition vidcam.vcam_ogre_camera (cameraPos Real.sqrt node_buf vidcam)
        ∈ updateNodeCamera Real.sqrt node_buf mainCameraPos vidcam
    ∧ (Vector3.crossProduct
          (Vector3.normalise Real.sqrt
            ((node_buf vidcam.vcam_node_dir_z).sub (node_buf vidcam.vcam_node_center)))
          (Vector3.normalise Real.sqrt
            ((node_buf vidcam.vcam_node_lookat).sub (cameraPos Real.sqrt node_buf vidcam)))
          ≠ Vector3.ZERO →
        Vector3.dotProduct
          (Vector3.normalise Real.sqrt
            (Vector3.crossProduct
              (Vector3.normalise Real.sqrt
                ((node_buf vidcam.vcam_node_dir_z).sub (node_buf vidcam.vcam_node_center)))
              (Vector3.normalise Real.sqrt
                ((node_buf vidcam.vcam_node_lookat).sub (cameraPos Real.sqrt node_buf vidcam)))))
          (Vector3.normalise Real.sqrt
            ((node_buf vidcam.vcam_node_dir_z).sub (node_buf vidcam.vcam_node_center))) = 0
        ∧ Vector3.dotProduct
          (Vector3.normalise Real.sqrt
            (Vector3.crossProduct
              (Vector3.normalise Real.sqrt
                ((node_buf vidcam.vcam_node_dir_z).sub (node_buf vidcam.vcam_node_center)))
              (Vector3.normalise Real.sqrt
                ((node_buf vidcam.vcam_node_lookat).sub (cameraPos Real.sqrt node_buf vidcam)))))
          (Vector3.normalise Real.sqrt
            ((node_buf vidcam.vcam_node_lookat).sub (cameraPos Real.sqrt node_buf vidcam))) = 0
        ∧ Vector3.length Real.sqrt
          (Vector3.normalise Real.sqrt
            (Vector3.crossProduct
              (Vector3.normalise Real.sqrt
                ((node_buf vidcam.vcam_node_dir_z).sub (node_buf vidcam.vcam_node_center)))
              (Vector3.normalise Real.sqrt
                ((node_buf vidcam.vcam_node_lookat).sub
                  (cameraPos Real.sqrt node_buf vidcam))))) = 1)
    ∧ ((node_buf vidcam.vcam_node_lookat).sub (cameraPos Real.sqrt node_buf vidcam)
          ≠ Vector3.ZERO →
        Vector3.length Real.sqrt
          (Vector3.normalise Real.sqrt
            ((node_buf vidcam.vcam_node_lookat).sub (cameraPos Real.sqrt node_buf vidcam))) = 1)
    ∧ (∀ (node_buf2 : Nat → Vector3 ℝ) (mainCameraPos2 : Vector3 ℝ) (vidcam2 : VideoCamera ℝ),
        vidcam2.vcam_type = VideoCamType.VCTYPE_TRACKING_VIDEOCAM →
        node_buf2 vidcam2.vcam_node_center = node_buf vidcam.vcam_node_center →
        node_buf2 vidcam2.vcam_node_dir_z = node_buf vidcam.vcam_node_dir_z →
        node_buf2 vidcam2.vcam_node_lookat = node_buf vidcam.vcam_node_lookat →
        cameraPos Real.sqrt node_buf2 vidcam2 = cameraPos Real.sqrt node_buf vidcam →
        vidcam2.vcam_rotation = vidcam.vcam_rotation →
        vidcam2.vcam_ogre_camera = vidcam.vcam_ogre_camera →
        orientCamera Real.sqrt node_buf2 mainCameraPos2 vidcam2
          = orientCamera Real.sqrt node_buf mainCameraPos vidcam) := by
  refine ⟨fun cam ax ay az q => ?_, ?_, fun hne => ?_, fun hne => ?_, ?_⟩
  · rw [updateNodeCamera_setOrientation_mem]
    simp only [orientCamera, htype, List.mem_singleton, CamOp.setOrientation.injEq]
  · simp [updateNodeCamera]
  · obtain ⟨k, -, hk⟩ := Vector3.normalise_scale Real.sqrt
      (Vector3.crossProduct
        (Vector3.normalise Real.sqrt
          ((node_buf vidcam.vcam_node_dir_z).sub (node_buf vidcam.vcam_node_center)))
        (Vector3.normalise Real.sqrt
          ((node_buf vidcam.vcam_node_lookat).sub (cameraPos Real.sqrt node_buf vidcam))))
    refine ⟨?_, ?_, Vector3.length_normalise _ (Vector3.squaredLength_pos _ hne)⟩
    · rw [hk]
      simp only [Vector3.dotProduct, Vector3.crossProduct]
      ring
    · rw [hk]
      simp only [Vector3.dotProduct, Vector3.crossProduct]
      ring
  · exact Vector3.length_normalise _ (Vector3.squaredLength_pos _ hne)
  · intro node_buf2 mainCameraPos2 vidcam2 ht2 hc hz hl hpos hrot hcam
    simp only [orientCamera, htype, ht2, hc, hz, hl, hpos, hrot, hcam]

/-- Instance of C10 on the sample nodes: the tracking sample camera gets an orientation call. -/
theorem tracking_camera_axes_witness :
    ∃ ax ay az q, CamOp.setOrientation 0 ax ay az q
        ∈ updateNodeCamera Real.sqrt (sampleNodeBuf ℝ) ⟨0, 0, 0⟩
            (sampleCamera ℝ VideoCamType.VCTYPE_TRACKING_VIDEOCAM) :=
  ⟨_, _, _, _, ((tracking_camera_axes (sampleNodeBuf ℝ) ⟨0, 0, 0⟩
    (sampleCamera ℝ VideoCamType.VCTYPE_TRACKING_VIDEOCAM) rfl).1 0 _ _ _ _).mpr
      ⟨rfl, rfl, rfl, rfl, rfl⟩⟩

/-! ## Theorems: mirror camera -/

section ReflectLemmas

variable {α : Type} [LinearOrderedField α]

/-- Reflection across a plane with unit normal negates the component along the normal. -/
theorem Vector3.reflect_dot (v n : Vector3 α) (h : n.dotProduct n = 1) :
    (v.reflect n).dotProduct n = -(v.dotProduct n) := by
  simp only [Vector3.reflect, Vector3.dotProduct, Vector3.sub, Vector3.smul] at h ⊢
  linear_combination (-2 * (v.x * n.x + v.y * n.y + v.z * n.z)) * h

/-- Reflection across a plane with unit normal keeps the squared length. -/
theorem Vector3.reflect_squaredLength (v n : Vector3 α) (h : n.dotProduct n = 1) :
    (v.reflect n).squaredLength = v.squaredLength := by
  simp only [Vector3.reflect, Vector3.dotProduct, Vector3.sub, Vector3.smul,
    Vector3.squaredLength] at h ⊢
  linear_combination (4 * (v.x * n.x + v.y * n.y + v.z * n.z) ^ 2) * h

/-- Reflection across a plane with unit normal keeps the component within the plane. -/
theorem Vector3.reflect_tangent (v n : Vector3 α) (h : n.dotProduct n = 1) :
    (v.reflect n).sub (Vector3.smul ((v.reflect n).dotProduct n) n)
      = v.sub (Vector3.smul (v.dotProduct n) n) := by
  simp only [Vector3.reflect, Vector3.dotProduct, Vector3.sub, Vector3.smul,
    Vector3.mk.injEq] at h ⊢
  refine ⟨?_, ?_, ?_⟩
  · linear_combination (2 * (v.x * n.x + v.y * n.y + v.z * n.z) * n.x) * h
  · linear_combination (2 * (v.x * n.x + v.y * n.y + v.z * n.z) * n.y) * h
  · linear_combination (2 * (v.x * n.x + v.y * n.y + v.z * n.z) * n.z) * h

/-- Reflecting twice across a plane with unit normal gives the vector back. -/
theorem Vector3.reflect_reflect (v n : Vector3 α) (h : n.dotProduct n = 1) :
    (v.reflect n).reflect n = v := by
  obtain ⟨vx, vy, vz⟩ := v
  simp only [Vector3.reflect, Vector3.dotProduct, Vector3.sub, Vector3.smul,
    Vector3.mk.injEq] at h ⊢
  refine ⟨?_, ?_, ?_⟩
  · linear_combination (4 * (vx * n.x + vy * n.y + vz * n.z) * n.x) * h
  · linear_combination (4 * (vx * n.x + vy * n.y + vz * n.z) * n.y) * h
  · linear_combination (4 * (vx * n.x + vy * n.y + vz * n.z) * n.z) * h

/-- The direction call in the calls of a node-driven camera comes from the branch on the
camera kind. -/
theorem updateNodeCamera_setDirection_mem (sqrt : α → α) (node_buf : Nat → Vector3 α)
    (mainCameraPos : Vector3 α) (vidcam : VideoCamera α) (cam : Nat) (d : Vector3 α) :
    CamOp.setDirection cam d ∈ updateNodeCamera sqrt node_buf mainCameraPos vidcam
      ↔ CamOp.setDirection cam d ∈ orientCamera sqrt node_buf mainCameraPos vidcam := by
  unfold updateNodeCamera
  cases vidcam.vcam_render_target <;> cases vidcam.vcam_render_window <;>
    cases vidcam.vcam_debug_node <;> simp

end ReflectLemmas

/-- The plane normal of the sample camera on the sample nodes is (0, 0, 1). -/
theorem sample_planeNormal (type : VideoCamType) :
    planeNormal Real.sqrt (sampleNodeBuf ℝ) (sampleCamera ℝ type) = ⟨0, 0, 1⟩ := by
  simp only [planeNormal, sampleCamera]
  rw [Vector3.normalise_of_length _ 4 (by norm_num)
    (by norm_num [sampleNodeBuf, Vector3.sub, Vector3.neg, Vector3.crossProduct,
          Vector3.squaredLength])]
  simp [sampleNodeBuf, Vector3.sub, Vector3.neg, Vector3.crossProduct]

/-- C11: for every camera of type `VCTYPE_MIRROR` the direction given to the camera is the
reflection `r = v - 2 (v . n) n` of `v = pos - mainCameraPosition` across the plane with normal
`n = vcam_rotation * normal`, whatever the length of `n`. For unit `n`, `r` is as long as `v`,
has the negated component along `n` and the same component within the plane, and reflecting `r`
again gives `v`. -/
theorem mirror_camera_reflection (node_buf : Nat → Vector3 ℝ) (mainCameraPos : Vector3 ℝ)
    (vidcam : VideoCamera ℝ) (htype : vidcam.vcam_type = VideoCamType.VCTYPE_MIRROR) :
    (∀ cam d, CamOp.setDirection cam d
          ∈ updateNodeCamera Real.sqrt node_buf mainCameraPos vidcam ↔
        cam = vidcam.vcam_ogre_camera
        ∧ d = ((cameraPos Real.sqrt node_buf vidcam).sub mainCameraPos).reflect
              (vidcam.vcam_rotation.rotate (planeNormal Real.sqrt node_buf vidcam)))
    ∧ ((cameraPos Real.sqrt node_buf vidcam).sub mainCameraPos).reflect
          (vidcam.vcam_rotation.rotate (planeNormal Real.sqrt node_buf vidcam))
        = ((cameraPos Real.sqrt node_buf vidcam).sub mainCameraPos).sub
            (Vector3.smul
              (2 * ((cameraPos Real.sqrt node_buf vidcam).sub mainCameraPos).dotProduct
                (vidcam.vcam_rotation.rotate (planeNormal Real.sqrt node_buf vidcam)))
              (vidcam.vcam_rotation.rotate (planeNormal Real.sqrt node_buf vidcam)))
    ∧ (Vector3.dotProduct
          (vidcam.vcam_rotation.rotate (planeNormal Real.sqrt node_buf vidcam))
          (vidcam.vcam_rotation.rotate (planeNormal Real.sqrt node_buf vidcam)) = 1 →
      Vector3.length Real.sqrt
          (((cameraPos Real.sqrt node_buf vidcam).sub mainCameraPos).reflect
            (vidcam.vcam_rotation.rotate (planeNormal Real.sqrt node_buf vidcam)))
        = Vector3.length Real.sqrt ((cameraPos Real.sqrt node_buf vidcam).sub mainCameraPos)
      ∧ (((cameraPos Real.sqrt node_buf vidcam).sub mainCameraPos).reflect
            (vidcam.vcam_rotation.rotate (planeNormal Real.sqrt node_buf vidcam))).dotProduct
            (vidcam.vcam_rotation.rotate (planeNormal Real.sqrt node_buf vidcam))
          = -(((cameraPos Real.sqrt node_buf vidcam).sub mainCameraPos).dotProduct
              (vidcam.vcam_rotation.rotate (planeNormal Real.sqrt node_buf vidcam)))
      ∧ (((cameraPos Real.sqrt node_buf vidcam).sub mainCameraPos).reflect
            (vidcam.vcam_rotation.rotate (planeNormal Real.sqrt node_buf vidcam))).sub
            (Vector3.smul
              ((((cameraPos Real.sqrt node_buf vidcam).sub mainCameraPos).reflect
                (vidcam.vcam_rotation.rotate
                  (planeNormal Real.sqrt node_buf vidcam))).dotProduct
                (vidcam.vcam_rotation.rotate (planeNormal Real.sqrt node_buf vidcam)))
              (vidcam.vcam_rotation.rotate (planeNormal Real.sqrt node_buf vidcam)))
          = ((cameraPos Real.sqrt node_buf vidcam).sub mainCameraPos).sub
            (Vector3.smul
              (((cameraPos Real.sqrt node_buf vidcam).sub mainCameraPos).dotProduct
                (vidcam.vcam_rotation.rotate (planeNormal Real.sqrt node_buf vidcam)))
              (vidcam.vcam_rotation.rotate (planeNormal Real.sqrt node_buf vidcam)))
      ∧ (((cameraPos Real.sqrt node_buf vidcam).sub mainCameraPos).reflect
            (vidcam.vcam_rotation.rotate (planeNormal Real.sqrt node_buf vidcam))).reflect
            (vidcam.vcam_rotation.rotate (planeNormal Real.sqrt node_buf vidcam))
          = (cameraPos Real.sqrt node_buf vidcam).sub mainCameraPos) := by
  refine ⟨fun cam d => ?_, rfl, fun hunit => ⟨?_, Vector3.reflect_dot _ _ hunit,
    Vector3.reflect_tangent _ _ hunit, Vector3.reflect_reflect _ _ hunit⟩⟩
  · rw [updateNodeCamera_setDirection_mem]
    simp only [orientCamera, htype, List.mem_singleton, CamOp.setDirection.injEq]
  · simp only [Vector3.length]
    rw [Vector3.reflect_squaredLength _ _ hunit]

/-- Instance of C11 on the sample nodes with the main camera at (1, 2, 5): the view vector of
the mirror sample camera is (-1, -2, -5), its rotated normal (0, 0, 1) is a unit vector, the
camera gets the direction (-1, -2, 5), and reflecting that direction again gives the view
vector. -/
theorem mirror_camera_reflection_witness :
    (cameraPos Real.sqrt (sampleNodeBuf ℝ) (sampleCamera ℝ VideoCamType.VCTYPE_MIRROR)).sub
        ⟨1, 2, 5⟩ = ⟨-1, -2, -5⟩
    ∧ CamOp.setDirection 0 ⟨-1, -2, 5⟩
        ∈ updateNodeCamera Real.sqrt (sampleNodeBuf ℝ) ⟨1, 2, 5⟩
            (sampleCamera ℝ VideoCamType.VCTYPE_MIRROR)
    ∧ (((cameraPos Real.sqrt (sampleNodeBuf ℝ)
          (sampleCamera ℝ VideoCamType.VCTYPE_MIRROR)).sub ⟨1, 2, 5⟩).reflect
          ((sampleCamera ℝ VideoCamType.VCTYPE_MIRROR).vcam_rotation.rotate
            (planeNormal Real.sqrt (sampleNodeBuf ℝ)
              (sampleCamera ℝ VideoCamType.VCTYPE_MIRROR)))).reflect
          ((sampleCamera ℝ VideoCamType.VCTYPE_MIRROR).vcam_rotation.rotate
            (planeNormal Real.sqrt (sampleNodeBuf ℝ)
              (sampleCamera ℝ VideoCamType.VCTYPE_MIRROR)))
        = (cameraPos Real.sqrt (sampleNodeBuf ℝ)
            (sampleCamera ℝ VideoCamType.VCTYPE_MIRROR)).sub ⟨1, 2, 5⟩ := by
  have hn := sample_planeNormal VideoCamType.VCTYPE_MIRROR
  have hv : (cameraPos Real.sqrt (sampleNodeBuf ℝ)
      (sampleCamera ℝ VideoCamType.VCTYPE_MIRROR)).sub ⟨1, 2, 5⟩ = ⟨-1, -2, -5⟩ := by
    simp only [cameraPos]
    rw [hn]
    simp [sampleCamera, sampleNodeBuf, Vector3.add, Vector3.smul, Vector3.sub]
  have hr : (sampleCamera ℝ VideoCamType.VCTYPE_MIRROR).vcam_rotation.rotate
      (planeNormal Real.sqrt (sampleNodeBuf ℝ) (sampleCamera ℝ VideoCamType.VCTYPE_MIRROR))
      = ⟨0, 0, 1⟩ := by
    rw [hn]
    simp [sampleCamera, Quaternion.rotate, Vector3.crossProduct, Vector3.add, Vector3.smul]
  have h := mirror_camera_reflection (sampleNodeBuf ℝ) ⟨1, 2, 5⟩
    (sampleCamera ℝ VideoCamType.VCTYPE_MIRROR) rfl
  refine ⟨hv, (h.1 0 _).mpr ⟨rfl, ?_⟩, (h.2.2 ?_).2.2.2⟩
  · rw [hv, hr]
    simp only [Vector3.reflect, Vector3.dotProduct, Vector3.sub, Vector3.smul,
      Vector3.mk.injEq]
    norm_num
  · rw [hr]
    norm_num [Vector3.dotProduct]

/-! ## Theorems: normalised camera axes -/

/-- The yaw-axis call of a node-driven camera carries the normalised difference of the centre
and direction-y node positions. -/
theorem updateNodeCamera_setFixedYawAxis_mem {α : Type} [LinearOrderedField α] (sqrt : α → α)
    (node_buf : Nat → Vector3 α) (mainCameraPos : Vector3 α) (vidcam : VideoCamera α)
    (cam : Nat) (axis : Vector3 α) :
    CamOp.setFixedYawAxis cam axis ∈ updateNodeCamera sqrt node_buf mainCameraPos vidcam
      ↔ cam = vidcam.vcam_ogre_camera
        ∧ axis = Vector3.normalise sqrt
            ((node_buf vidcam.vcam_node_center).sub (node_buf vidcam.vcam_node_dir_y)) := by
  unfold updateNodeCamera orientCamera
  cases vidcam.vcam_render_target <;> cases vidcam.vcam_render_window <;>
    cases vidcam.vcam_debug_node <;> cases vidcam.vcam_type <;> simp

/-- Over the reals, a normalised vector other than zero, negated, has length 1. -/
theorem Vector3.length_neg_normalise (a : Vector3 ℝ) (h : a ≠ Vector3.ZERO) :
    Vector3.length Real.sqrt (Vector3.normalise Real.sqrt a).neg = 1 := by
  rw [Vector3.length_neg, Vector3.length_normalise _ (Vector3.squaredLength_pos _ h)]

/-- C12: in a pass over a node-driven camera the fixed yaw axis is the normalised difference
of the current centre and direction-y positions, and for fixed and tracking cameras the three
axes passed to the orientation are negated normalised vectors computed from the current node
positions; each has length 1 over the reals whenever the vector being normalised is not
zero. -/
theorem camera_axes_renormalised (node_buf : Nat → Vector3 ℝ) (mainCameraPos : Vector3 ℝ)
    (vidcam : VideoCamera ℝ) :
    (∀ cam axis, CamOp.setFixedYawAxis cam axis
          ∈ updateNodeCamera Real.sqrt node_buf mainCameraPos vidcam ↔
        cam = vidcam.vcam_ogre_camera
        ∧ axis = Vector3.normalise Real.sqrt
            ((node_buf vidcam.vcam_node_center).sub (node_buf vidcam.vcam_node_dir_y)))
    ∧ ((node_buf vidcam.vcam_node_center).sub (node_buf vidcam.vcam_node_dir_y)
          ≠ Vector3.ZERO →
        Vector3.length Real.sqrt (Vector3.normalise Real.sqrt
          ((node_buf vidcam.vcam_node_center).sub (node_buf vidcam.vcam_node_dir_y))) = 1)
    ∧ (vidcam.vcam_type = VideoCamType.VCTYPE_VIDEOCAM →
        ∀ cam ax ay az q, CamOp.setOrientation cam ax ay az q
            ∈ updateNodeCamera Real.sqrt node_buf mainCameraPos vidcam →
          ax = (Vector3.normalise Real.sqrt
                ((node_buf vidcam.vcam_node_dir_z).sub (node_buf vidcam.vcam_node_center))).neg
          ∧ ay = (Vector3.normalise Real.sqrt
                ((node_buf vidcam.vcam_node_center).sub (node_buf vidcam.vcam_node_dir_y))).neg
          ∧ az = (Vector3.normalise Real.sqrt
                (Vector3.crossProduct
                  ((node_buf vidcam.vcam_node_center).sub
                    (node_buf vidcam.vcam_node_dir_z)).neg
                  ((node_buf vidcam.vcam_node_center).sub
                    (node_buf vidcam.vcam_node_dir_y)).neg)).neg
          ∧ ((node_buf vidcam.vcam_node_dir_z).sub (node_buf vidcam.vcam_node_center)
                ≠ Vector3.ZERO → Vector3.length Real.sqrt ax = 1)
          ∧ ((node_buf vidcam.vcam_node_center).sub (node_buf vidcam.vcam_node_dir_y)
                ≠ Vector3.ZERO → Vector3.length Real.sqrt ay = 1)
          ∧ (Vector3.crossProduct
                ((node_buf vidcam.vcam_node_center).sub (node_buf vidcam.vcam_node_dir_z)).neg
                ((node_buf vidcam.vcam_node_center).sub (node_buf vidcam.vcam_node_dir_y)).neg
                ≠ Vector3.ZERO → Vector3.length Real.sqrt az = 1))
    ∧ (vidcam.vcam_type = VideoCamType.VCTYPE_TRACKING_VIDEOCAM →
        ∀ cam ax ay az q, CamOp.setOrientation cam ax ay az q
            ∈ updateNodeCamera Real.sqrt node_buf mainCameraPos vidcam →
          ax = (Vector3.normalise Real.sqrt
                ((node_buf vidcam.vcam_node_dir_z).sub (node_buf vidcam.vcam_node_center))).neg
          ∧ ay = (Vector3.normalise Real.sqrt
                (Vector3.crossProduct
                  (Vector3.normalise Real.sqrt
                    ((node_buf vidcam.vcam_node_dir_z).sub (node_buf vidcam.vcam_node_center)))
                  (Vector3.normalise Real.sqrt
                    ((node_buf vidcam.vcam_node_lookat).sub
                      (cameraPos Real.sqrt node_buf vidcam))))).neg
          ∧ az = (Vector3.normalise Real.sqrt
                ((node_buf vidcam.vcam_node_lookat).sub
                  (cameraPos Real.sqrt node_buf vidcam))).neg
          ∧ ((node_buf vidcam.vcam_node_dir_z).sub (node_buf vidcam.vcam_node_center)
                ≠ Vector3.ZERO → Vector3.length Real.sqrt ax = 1)
          ∧ (Vector3.crossProduct
                (Vector3.normalise Real.sqrt
                  ((node_buf vidcam.vcam_node_dir_z).sub (node_buf vidcam.vcam_node_center)))
                (Vector3.normalise Real.sqrt
                  ((node_buf vidcam.vcam_node_lookat).sub
                    (cameraPos Real.sqrt node_buf vidcam)))
                ≠ Vector3.ZERO → Vector3.length Real.sqrt ay = 1)
          ∧ ((node_buf vidcam.vcam_node_lookat).sub (cameraPos Real.sqrt node_buf vidcam)
                ≠ Vector3.ZERO → Vector3.length Real.sqrt az = 1)) := by
  refine ⟨fun cam axis => updateNodeCamera_setFixedYawAxis_mem _ _ _ _ _ _,
    fun h => Vector3.length_normalise _ (Vector3.squaredLength_pos _ h), ?_, ?_⟩
  · intro htype cam ax ay az q hmem
    rw [updateNodeCamera_setOrientation_mem] at hmem
    simp only [orientCamera, htype, List.mem_singleton, CamOp.setOrientation.injEq,
      planeNormal] at hmem
    obtain ⟨-, rfl, rfl, rfl, -⟩ := hmem
    exact ⟨rfl, rfl, rfl, Vector3.length_neg_normalise _, Vector3.length_neg_normalise _,
      Vector3.length_neg_normalise _⟩
  · intro htype cam ax ay az q hmem
    rw [updateNodeCamera_setOrientation_mem] at hmem
    simp only [orientCamera, htype, List.mem_singleton, CamOp.setOrientation.injEq] at hmem
    obtain ⟨-, rfl, rfl, rfl, -⟩ := hmem
    exact ⟨rfl, rfl, rfl, Vector3.length_neg_normalise _, Vector3.length_neg_normalise _,
      Vector3.length_neg_normalise _⟩

/-- Instance of C12 on the sample nodes: the yaw axis of the fixed sample camera has length 1,
the centre (0, 0, 0) and the direction-y node (3, 4, 0) being different. -/
theorem camera_axes_renormalised_witness :
    Vector3.length Real.sqrt (Vector3.normalise Real.sqrt
      ((sampleNodeBuf ℝ (sampleCamera ℝ VideoCamType.VCTYPE_VIDEOCAM).vcam_node_center).sub
        (sampleNodeBuf ℝ (sampleCamera ℝ VideoCamType.VCTYPE_VIDEOCAM).vcam_node_dir_y))) = 1 :=
  (camera_axes_renormalised (sampleNodeBuf ℝ) ⟨0, 0, 0⟩
    (sampleCamera ℝ VideoCamType.VCTYPE_VIDEOCAM)).2.1
    (by simp [sampleCamera, sampleNodeBuf, Vector3.sub, Vector3.ZERO])

/-! ## Theorems: mirror props and the camera loop -/

section CameraLoopTheorems

variable {α : Type} [LinearOrderedField α]

/-- The calls of the mirror-prop branch, when its prop scene node is set. -/
theorem updateMirrorProp_eq (t : Trig α) (env : VideoCamEnv α) (vidcam : VideoCamera α)
    (node : Nat) (hnode : vidcam.vcam_prop_scenenode = some node) :
    updateMirrorProp t env vidcam
      = some [CamOp.setPosition vidcam.vcam_ogre_camera (mirrorPropCenter env vidcam node),
          CamOp.lookAt vidcam.vcam_ogre_camera
            (mirrorPropTarget (mirrorPropNormal t env vidcam node)
              (mirrorPropCenter env vidcam node) env.mainCameraPos),
          CamOp.roll vidcam.vcam_ogre_camera (mirrorRoll t env.actorDirection)] := by
  simp only [updateMirrorProp, hnode]

/-- The mirror-prop branch does not read the node buffer. -/
theorem updateMirrorProp_node_buf (t : Trig α) (env : VideoCamEnv α)
    (buf : Nat → Vector3 α) (vidcam : VideoCamera α) :
    updateMirrorProp t { env with node_buf := buf } vidcam = updateMirrorProp t env vidcam := by
  cases h : vidcam.vcam_prop_scenenode with
  | none => simp [updateMirrorProp, h]
  | some node =>
    simp [updateMirrorProp, h, mirrorPropNormal, mirrorPropCenter]

/-- The projection removes the part of the vector along the normal. -/
theorem projectVector_eq (n p : Vector3 α) :
    projectVector n p = p.sub (Vector3.smul (p.dotProduct n) n) := by
  simp only [projectVector, Vector3.sub, Vector3.smul, Vector3.dotProduct, Vector3.mk.injEq]
  refine ⟨by ring, by ring, by ring⟩

/-- The look-at target of a mirror prop, taken from the centre, is the reflection of the
direction from the main camera to the centre. -/
theorem mirrorPropTarget_sub (n c m : Vector3 α) :
    (mirrorPropTarget n c m).sub c = (c.sub m).reflect n := by
  simp only [mirrorPropTarget, projectVector, Vector3.reflect, Vector3.sub, Vector3.smul,
    Vector3.dotProduct, Vector3.mk.injEq]
  refine ⟨by ring, by ring, by ring⟩

/-- A node-driven camera has its position set once, at the end of its iteration. -/
theorem positionCalls_updateNodeCamera (sqrt : α → α) (node_buf : Nat → Vector3 α)
    (mainCameraPos : Vector3 α) (vidcam : VideoCamera α) :
    positionCalls (updateNodeCamera sqrt node_buf mainCameraPos vidcam)
      = [vidcam.vcam_ogre_camera] := by
  unfold updateNodeCamera orientCamera positionCalls
  cases vidcam.vcam_render_target <;> cases vidcam.vcam_render_window <;>
    cases vidcam.vcam_debug_node <;> cases vidcam.vcam_type <;> simp

/-- One loop iteration sets the position of its camera exactly once. -/
theorem positionCalls_updateVideoCamera (sqrt : α → α) (t : Trig α) (env : VideoCamEnv α)
    (vidcam : VideoCamera α) (ops : List (CamOp α))
    (h : updateVideoCamera sqrt t env vidcam = some ops) :
    positionCalls ops = [vidcam.vcam_ogre_camera] := by
  unfold updateVideoCamera at h
  simp only [] at h
  split_ifs at h with hp hs hs
  · cases hn : vidcam.vcam_prop_scenenode with
    | none => simp [updateMirrorProp, hn] at h
    | some node =>
      rw [updateMirrorProp_eq t env vidcam node hn] at h
      simp only [Option.map_some', Option.some.injEq] at h
      subst h
      simp [positionCalls]
  · cases hn : vidcam.vcam_prop_scenenode with
    | none => simp [updateMirrorProp, hn] at h
    | some node =>
      rw [updateMirrorProp_eq t env vidcam node hn] at h
      simp only [Option.map_some', Option.some.injEq] at h
      subst h
      simp [positionCalls]
  · simp only [Option.some.injEq] at h
    subst h
    have := positionCalls_updateNodeCamera sqrt env.node_buf env.mainCameraPos vidcam
    simp only [positionCalls] at this ⊢
    simp [this]
  · simp only [Option.some.injEq] at h
    subst h
    have := positionCalls_updateNodeCamera sqrt env.node_buf env.mainCameraPos vidcam
    simp only [positionCalls] at this ⊢
    simp [this]

/-- Position calls of a concatenation. -/
theorem positionCalls_append {β : Type} (a b : List (CamOp β)) :
    positionCalls (a ++ b) = positionCalls a ++ positionCalls b := by
  simp [positionCalls, List.filterMap_append]

/-- The camera loop sets the position of each camera once, in list order. -/
theorem videoCameraLoop_positions (sqrt : α → α) (t : Trig α) (env : VideoCamEnv α)
    (cams : List (VideoCamera α)) (ops : List (CamOp α))
    (h : videoCameraLoop sqrt t env cams = some ops) :
    positionCalls ops = cams.map (fun v => v.vcam_ogre_camera) := by
  induction cams generalizing ops with
  | nil =>
    simp only [videoCameraLoop, Option.some.injEq] at h
    subst h
    rfl
  | cons v vs ih =>
    simp only [videoCameraLoop] at h
    cases h1 : updateVideoCamera sqrt t env v with
    | none => simp [h1] at h
    | some ops1 =>
      simp only [h1, Option.map_eq_some'] at h
      obtain ⟨more, hmore, rfl⟩ := h
      rw [positionCalls_append, positionCalls_updateVideoCamera sqrt t env v ops1 h1,
        ih more hmore]
      rfl

/-- One loop iteration returns for a camera that is no mirror prop or has its prop scene
node. -/
theorem updateVideoCamera_total (sqrt : α → α) (t : Trig α) (env : VideoCamEnv α)
    (vidcam : VideoCamera α)
    (hv : (vidcam.vcam_type = VideoCamType.VCTYPE_MIRROR_PROP_LEFT
        ∨ vidcam.vcam_type = VideoCamType.VCTYPE_MIRROR_PROP_RIGHT) →
      vidcam.vcam_prop_scenenode ≠ none) :
    ∃ ops, updateVideoCamera sqrt t env vidcam = some ops := by
  unfold updateVideoCamera
  simp only []
  by_cases hp : vidcam.vcam_type = VideoCamType.VCTYPE_MIRROR_PROP_LEFT
      ∨ vidcam.vcam_type = VideoCamType.VCTYPE_MIRROR_PROP_RIGHT
  · rw [if_pos hp]
    cases hn : vidcam.vcam_prop_scenenode with
    | none => exact absurd hn (hv hp)
    | some node =>
      rw [updateMirrorProp_eq t env vidcam node hn]
      exact ⟨_, rfl⟩
  · rw [if_neg hp]
    exact ⟨_, rfl⟩

/-- On a valid camera list the loop runs to completion. -/
theorem videoCameraLoop_total (sqrt : α → α) (t : Trig α) (env : VideoCamEnv α)
    (cams : List (VideoCamera α)) (hv : CamerasValid cams) :
    ∃ ops, videoCameraLoop sqrt t env cams = some ops := by
  induction cams with
  | nil => exact ⟨[], rfl⟩
  | cons v vs ih =>
    obtain ⟨more, hmore⟩ := ih (fun w hw => hv w (List.mem_cons_of_mem _ hw))
    obtain ⟨ops1, h1⟩ := updateVideoCamera_total sqrt t env v (hv v (List.mem_cons_self _ _))
    exact ⟨ops1 ++ more, by simp [videoCameraLoop, h1, hmore]⟩

/-- C13: a mirror-prop camera is not node-driven. For a camera of type
`VCTYPE_MIRROR_PROP_LEFT` or `VCTYPE_MIRROR_PROP_RIGHT` the calls of its loop iteration are the
same for any two node buffers, everything else being equal; they are, after the optional sky
notification, the position, look-at and roll calls computed from the prop scene node, the
mirror angle, the actor direction and the main camera position, and contain no render-target
or render-window update. The iteration returns when the prop scene node is set. -/
theorem mirror_prop_not_node_driven (sqrt : α → α) (t : Trig α) (env : VideoCamEnv α)
    (buf1 buf2 : Nat → Vector3 α) (vidcam : VideoCamera α)
    (htype : vidcam.vcam_type = VideoCamType.VCTYPE_MIRROR_PROP_LEFT
      ∨ vidcam.vcam_type = VideoCamType.VCTYPE_MIRROR_PROP_RIGHT) :
    updateVideoCamera sqrt t { env with node_buf := buf1 } vidcam
      = updateVideoCamera sqrt t { env with node_buf := buf2 } vidcam
    ∧ (∀ ops, updateVideoCamera sqrt t env vidcam = some ops →
        ∃ node, vidcam.vcam_prop_scenenode = some node
          ∧ ops = (if env.sky_notify then
                [CamOp.notifySkyCameraChanged vidcam.vcam_ogre_camera] else [])
              ++ [CamOp.setPosition vidcam.vcam_ogre_camera (mirrorPropCenter env vidcam node),
                  CamOp.lookAt vidcam.vcam_ogre_camera
                    (mirrorPropTarget (mirrorPropNormal t env vidcam node)
                      (mirrorPropCenter env vidcam node) env.mainCameraPos),
                  CamOp.roll vidcam.vcam_ogre_camera (mirrorRoll t env.actorDirection)]
          ∧ ∀ x, CamOp.renderTargetUpdate x ∉ ops ∧ CamOp.renderWindowUpdate x ∉ ops)
    ∧ (vidcam.vcam_prop_scenenode ≠ none →
        ∃ ops, updateVideoCamera sqrt t env vidcam = some ops) := by
  refine ⟨?_, fun ops h => ?_, fun hn => updateVideoCamera_total sqrt t env vidcam (fun _ => hn)⟩
  · simp only [updateVideoCamera, if_pos htype, updateMirrorProp_node_buf]
  · simp only [updateVideoCamera, if_pos htype] at h
    cases hn : vidcam.vcam_prop_scenenode with
    | none => simp [updateMirrorProp, hn] at h
    | some node =>
      rw [updateMirrorProp_eq t env vidcam node hn] at h
      simp only [Option.map_some', Option.some.injEq] at h
      subst h
      refine ⟨node, rfl, rfl, fun x => ?_⟩
      cases env.sky_notify <;> simp

/-- Instance of C13: the sample left mirror prop, with the real trigonometric functions, gets
the same calls for the sample node buffer and for a buffer with every node at the origin. -/
theorem mirror_prop_not_node_driven_witness :
    updateVideoCamera Real.sqrt ⟨Real.cos, Real.sin, Real.arcsin, Real.pi⟩
        { sampleCamEnv ℝ with node_buf := sampleNodeBuf ℝ } (sampleMirrorProp ℝ)
      = updateVideoCamera Real.sqrt ⟨Real.cos, Real.sin, Real.arcsin, Real.pi⟩
        { sampleCamEnv ℝ with node_buf := fun _ => ⟨0, 0, 0⟩ } (sampleMirrorProp ℝ) :=
  (mirror_prop_not_node_driven Real.sqrt ⟨Real.cos, Real.sin, Real.arcsin, Real.pi⟩
    (sampleCamEnv ℝ) (sampleNodeBuf ℝ) (fun _ => ⟨0, 0, 0⟩) (sampleMirrorProp ℝ)
    (Or.inl rfl)).1

/-- C14: the mirror-prop look direction is a reflection. With `n` the plane normal (the prop
orientation applied to (cos a, sin a, 0)), `c` the mirror centre and `m` the main camera
position, the branch sets the position `c` and looks at `m - 2 * project (m - c)`, where
`project` removes the part along `n`; that target satisfies
`target - c = reflect (c - m) n = (c - m) - 2 ((c - m) . n) n`, the direction the `VCTYPE_MIRROR`
formula gives for `pos = c`. -/
theorem mirror_prop_reflection (t : Trig α) (env : VideoCamEnv α) (vidcam : VideoCamera α)
    (node : Nat) (hnode : vidcam.vcam_prop_scenenode = some node) :
    updateMirrorProp t env vidcam
      = some [CamOp.setPosition vidcam.vcam_ogre_camera (mirrorPropCenter env vidcam node),
          CamOp.lookAt vidcam.vcam_ogre_camera
            (env.mainCameraPos.sub (Vector3.smul 2
              (projectVector (mirrorPropNormal t env vidcam node)
                (env.mainCameraPos.sub (mirrorPropCenter env vidcam node))))),
          CamOp.roll vidcam.vcam_ogre_camera (mirrorRoll t env.actorDirection)]
    ∧ mirrorPropNormal t env vidcam node
        = (env.sceneNodeOrientation node).rotate
            ⟨t.cos (if vidcam.vcam_type = VideoCamType.VCTYPE_MIRROR_PROP_LEFT
                then env.ar_left_mirror_angle else env.ar_right_mirror_angle),
              t.sin (if vidcam.vcam_type = VideoCamType.VCTYPE_MIRROR_PROP_LEFT
                then env.ar_left_mirror_angle else env.ar_right_mirror_angle), 0⟩
    ∧ (∀ p, projectVector (mirrorPropNormal t env vidcam node) p
        = p.sub (Vector3.smul (p.dotProduct (mirrorPropNormal t env vidcam node))
            (mirrorPropNormal t env vidcam node)))
    ∧ (env.mainCameraPos.sub (Vector3.smul 2
          (projectVector (mirrorPropNormal t env vidcam node)
            (env.mainCameraPos.sub (mirrorPropCenter env vidcam node))))).sub
          (mirrorPropCenter env vidcam node)
        = ((mirrorPropCenter env vidcam node).sub env.mainCameraPos).reflect
            (mirrorPropNormal t env vidcam node)
    ∧ ((mirrorPropCenter env vidcam node).sub env.mainCameraPos).reflect
          (mirrorPropNormal t env vidcam node)
        = ((mirrorPropCenter env vidcam node).sub env.mainCameraPos).sub
            (Vector3.smul
              (2 * ((mirrorPropCenter env vidcam node).sub env.mainCameraPos).dotProduct
                (mirrorPropNormal t env vidcam node))
              (mirrorPropNormal t env vidcam node)) := by
  refine ⟨updateMirrorProp_eq t env vidcam node hnode, rfl, fun p => projectVector_eq _ p,
    mirrorPropTarget_sub _ _ _, rfl⟩

/-- C15: when the video-camera state is `VCSTATE_ENABLED_ONLINE`, `UpdateVideoCameras` sets
the position of every registered camera exactly once, in registration order; in any other state
it makes no call at all. On a camera list where every mirror prop has its scene node the call
returns. -/
theorem UpdateVideoCameras_positions (sqrt : α → α) (t : Trig α) (state : VideoCamState)
    (env : VideoCamEnv α) (cams : List (VideoCamera α)) :
    (∀ ops, UpdateVideoCameras sqrt t VideoCamState.VCSTATE_ENABLED_ONLINE env cams = some ops →
        positionCalls ops = cams.map (fun v => v.vcam_ogre_camera))
    ∧ (state ≠ VideoCamState.VCSTATE_ENABLED_ONLINE →
        UpdateVideoCameras sqrt t state env cams = some [])
    ∧ (CamerasValid cams → ∃ ops, UpdateVideoCameras sqrt t state env cams = some ops) := by
  refine ⟨fun ops h => ?_, fun hs => ?_, fun hv => ?_⟩
  · simp only [UpdateVideoCameras, ne_eq, not_true_eq_false, if_false] at h
    exact videoCameraLoop_positions sqrt t env cams ops h
  · simp only [UpdateVideoCameras, if_pos hs]
  · by_cases hs : state = VideoCamState.VCSTATE_ENABLED_ONLINE
    · obtain ⟨ops, h⟩ := videoCameraLoop_total sqrt t env cams hv
      exact ⟨ops, by simp [UpdateVideoCameras, hs, h]⟩
    · exact ⟨[], by simp only [UpdateVideoCameras, ne_eq, hs, not_false_eq_true, if_true]⟩

end CameraLoopTheorems

/-- Instance of C14: the sample left mirror prop, with the real trigonometric functions, sets
its position and looks at the reflected target. -/
theorem mirror_prop_reflection_witness :
    ∃ c target r, updateMirrorProp ⟨Real.cos, Real.sin, Real.arcsin, Real.pi⟩
        (sampleCamEnv ℝ) (sampleMirrorProp ℝ)
      = some [CamOp.setPosition 1 c, CamOp.lookAt 1 target, CamOp.roll 1 r] :=
  ⟨_, _, _, (mirror_prop_reflection ⟨Real.cos, Real.sin, Real.arcsin, Real.pi⟩
    (sampleCamEnv ℝ) (sampleMirrorProp ℝ) 4 rfl).1⟩

/-- Instance of C15: on the sample mirror prop followed by the fixed sample camera the call
returns and sets the positions of camera objects 1 and 0, in that order. -/
theorem UpdateVideoCameras_positions_witness :
    ∃ ops, UpdateVideoCameras Real.sqrt ⟨Real.cos, Real.sin, Real.arcsin, Real.pi⟩
        VideoCamState.VCSTATE_ENABLED_ONLINE (sampleCamEnv ℝ)
        [sampleMirrorProp ℝ, sampleCamera ℝ VideoCamType.VCTYPE_VIDEOCAM] = some ops
      ∧ positionCalls ops = [1, 0] :=
  let h := UpdateVideoCameras_positions Real.sqrt ⟨Real.cos, Real.sin, Real.arcsin, Real.pi⟩
    VideoCamState.VCSTATE_ENABLED_ONLINE (sampleCamEnv ℝ)
    [sampleMirrorProp ℝ, sampleCamera ℝ VideoCamType.VCTYPE_VIDEOCAM]
  let ⟨ops, hops⟩ := h.2.2 (by
    intro v hv _
    simp only [List.mem_cons, List.mem_singleton, List.not_mem_nil, or_false] at hv
    rcases hv with rfl | rfl
    · simp [sampleMirrorProp]
    · rename_i hp
      simp [sampleCamera] at hp)
  ⟨ops, hops, h.1 ops hops⟩

/-! ## Theorems: simulation data buffer -/

section SimDataTheorems

variable {α : Type}

/-- The node loop over the first `n` indices overwrites exactly those entries. -/
theorem copyNodes_range (f : Nat → Vector3 α) (buf : Nat → Vector3 α) (n i : Nat) :
    ((List.range n).foldl (fun b j => Function.update b j (f j)) buf) i
      = if i < n then f i else buf i := by
  induction n with
  | zero => simp
  | succ k ih =>
    rw [List.range_succ, List.foldl_append]
    simp only [List.foldl_cons, List.foldl_nil]
    by_cases hik : i = k
    · subst hik
      simp
    · rw [Function.update_noteq hik, ih]
      have : (i < k + 1) ↔ (i < k) := by omega
      simp only [this]

/-- The airbrake loop over the first `n` indices appends their ratios in order. -/
theorem copyAirbrakes_range (g : Nat → α) (init : List α) (n : Nat) :
    (List.range n).foldl (fun l j => l ++ [g j]) init = init ++ (List.range n).map g := by
  induction n with
  | zero => simp
  | succ k ih =>
    rw [List.range_succ, List.foldl_append, ih]
    simp

/-- The node entries after `UpdateSimDataBuffer`. -/
theorem UpdateSimDataBuffer_nodes (actor : ActorData α) (m_simbuf : SimBuffer α) (i : Nat) :
    (UpdateSimDataBuffer actor m_simbuf).simbuf_nodes i
      = if i < actor.ar_num_nodes.toNat then (actor.ar_nodes i).AbsPosition
        else m_simbuf.simbuf_nodes i := by
  unfold UpdateSimDataBuffer copyNodes
  cases actor.ar_engine <;>
    exact copyNodes_range (fun j => (actor.ar_nodes j).AbsPosition) _ _ i

/-- The airbrake entries after `UpdateSimDataBuffer`. -/
theorem UpdateSimDataBuffer_airbrakes (actor : ActorData α) (m_simbuf : SimBuffer α) :
    (UpdateSimDataBuffer actor m_simbuf).simbuf_airbrakes
      = (List.range actor.ar_num_airbrakes.toNat).map actor.ar_airbrakes := by
  unfold UpdateSimDataBuffer copyAirbrakes
  cases actor.ar_engine <;>
    simpa using copyAirbrakes_range actor.ar_airbrakes [] actor.ar_num_airbrakes.toNat

/-- C16: after `UpdateSimDataBuffer` the buffered position of every node `i` below
`ar_num_nodes` is the actor's current position of node `i`, and `simbuf_airbrakes` consists of
the ratios of the actor's airbrakes 0 .. `ar_num_airbrakes - 1` in order, whatever it held
before: it has `ar_num_airbrakes` entries (the count being non-negative) and its `i`-th entry
is the ratio of airbrake `i`. -/
theorem UpdateSimDataBuffer_mirrors (actor : ActorData α) (m_simbuf : SimBuffer α) :
    (∀ i : Nat, (i : Int) < actor.ar_num_nodes →
        (UpdateSimDataBuffer actor m_simbuf).simbuf_nodes i = (actor.ar_nodes i).AbsPosition)
    ∧ (UpdateSimDataBuffer actor m_simbuf).simbuf_airbrakes
        = (List.range actor.ar_num_airbrakes.toNat).map actor.ar_airbrakes
    ∧ (0 ≤ actor.ar_num_airbrakes →
        ((UpdateSimDataBuffer actor m_simbuf).simbuf_airbrakes.length : Int)
          = actor.ar_num_airbrakes)
    ∧ (∀ i : Nat, (i : Int) < actor.ar_num_airbrakes →
        (UpdateSimDataBuffer actor m_simbuf).simbuf_airbrakes[i]?
          = some (actor.ar_airbrakes i)) := by
  refine ⟨fun i hi => ?_, UpdateSimDataBuffer_airbrakes actor m_simbuf, fun h0 => ?_,
    fun i hi => ?_⟩
  · rw [UpdateSimDataBuffer_nodes, if_pos (by omega)]
  · rw [UpdateSimDataBuffer_airbrakes]
    simp only [List.length_map, List.length_range]
    omega
  · rw [UpdateSimDataBuffer_airbrakes, List.getElem?_map,
      List.getElem?_range (by omega)]
    rfl

end SimDataTheorems

/-- Instance of C16 on the sample actor: the three stale airbrake entries are replaced by the
two current ratios and node 2 holds the actor's position. -/
theorem UpdateSimDataBuffer_mirrors_witness :
    (UpdateSimDataBuffer sampleActor sampleSimBuffer).simbuf_airbrakes = [1 / 2, 1 / 4]
    ∧ (UpdateSimDataBuffer sampleActor sampleSimBuffer).simbuf_nodes 2 = ⟨0, 0, 0⟩ :=
  ⟨(UpdateSimDataBuffer_mirrors sampleActor sampleSimBuffer).2.1.trans (by
      simp [sampleActor, List.range_succ]),
    (UpdateSimDataBuffer_mirrors sampleActor sampleSimBuffer).1 2 (by simp [sampleActor])⟩

/-! ## Theorems: degenerate nodes and handedness -/

/-- Over the reals, normalising the zero vector leaves it as it is. -/
theorem Vector3.normalise_zero : Vector3.normalise Real.sqrt (Vector3.ZERO : Vector3 ℝ)
    = Vector3.ZERO := by
  simp [Vector3.normalise, Vector3.length, Vector3.squaredLength, Vector3.ZERO]

/-- For collinear centre, direction-y and direction-z positions the plane normal is zero. -/
theorem planeNormal_collinear (node_buf : Nat → Vector3 ℝ) (vidcam : VideoCamera ℝ)
    (hcol : Collinear (node_buf vidcam.vcam_node_center) (node_buf vidcam.vcam_node_dir_y)
      (node_buf vidcam.vcam_node_dir_z)) :
    planeNormal Real.sqrt node_buf vidcam = Vector3.ZERO := by
  have h : Vector3.crossProduct
      ((node_buf vidcam.vcam_node_dir_z).sub (node_buf vidcam.vcam_node_center))
      ((node_buf vidcam.vcam_node_dir_y).sub (node_buf vidcam.vcam_node_center))
      = Vector3.ZERO := hcol
  simp only [planeNormal, crossProduct_neg_sub, h, Vector3.normalise_zero]

section FloatNormal

variable {α : Type} [LinearOrderedField α]

/-- In `float` arithmetic the vector product of a vector with itself is zero: the two rounded
products of each component are the same number. -/
theorem Vector3.crossProductFloat_self (rnd : α → α) (h0 : rnd 0 = 0) (a : Vector3 α) :
    Vector3.crossProductFloat rnd a a = Vector3.ZERO := by
  simp only [Vector3.crossProductFloat, Vector3.ZERO, Vector3.mk.injEq]
  refine ⟨?_, ?_, ?_⟩
  · rw [mul_comm a.z a.y, sub_self, h0]
  · rw [mul_comm a.x a.z, sub_self, h0]
  · rw [mul_comm a.y a.x, sub_self, h0]

/-- In `float` arithmetic the vector product with a zero factor is zero. -/
theorem Vector3.crossProductFloat_zero (rnd : α → α) (h0 : rnd 0 = 0) (a : Vector3 α) :
    Vector3.crossProductFloat rnd Vector3.ZERO a = Vector3.ZERO
    ∧ Vector3.crossProductFloat rnd a Vector3.ZERO = Vector3.ZERO := by
  simp [Vector3.crossProductFloat, Vector3.ZERO, h0]

/-- In `float` arithmetic the difference of a vector and itself is zero, and so is its
negation. -/
theorem Vector3.subFloat_self (rnd : α → α) (h0 : rnd 0 = 0) (a : Vector3 α) :
    Vector3.neg (Vector3.subFloat rnd a a) = Vector3.ZERO := by
  simp [Vector3.subFloat, Vector3.neg, Vector3.ZERO, h0]

/-- In `float` arithmetic normalising the zero vector leaves it as it is. -/
theorem Vector3.normaliseFloat_zero (rnd sqrt : α → α) (h0 : rnd 0 = 0) (hs : sqrt 0 = 0) :
    Vector3.normaliseFloat rnd sqrt Vector3.ZERO = Vector3.ZERO := by
  simp [Vector3.normaliseFloat, Vector3.ZERO, h0, hs]

/-- Without rounding the plane normal in `float` arithmetic is the plane normal. -/
theorem planeNormalFloat_exact (sqrt : α → α) (node_buf : Nat → Vector3 α)
    (vidcam : VideoCamera α) :
    planeNormalFloat (fun x => x) sqrt node_buf vidcam = planeNormal sqrt node_buf vidcam := by
  simp only [planeNormalFloat, planeNormal, Vector3.normaliseFloat, Vector3.normalise,
    Vector3.length, Vector3.squaredLength, Vector3.crossProductFloat, Vector3.crossProduct,
    Vector3.subFloat, Vector3.sub]

/-- In `float` arithmetic the plane normal is zero when two of the three node positions
coincide. -/
theorem planeNormalFloat_coincident (rnd sqrt : α → α) (h0 : rnd 0 = 0) (hs : sqrt 0 = 0)
    (node_buf : Nat → Vector3 α) (vidcam : VideoCamera α)
    (h : node_buf vidcam.vcam_node_center = node_buf vidcam.vcam_node_dir_z
      ∨ node_buf vidcam.vcam_node_center = node_buf vidcam.vcam_node_dir_y
      ∨ node_buf vidcam.vcam_node_dir_y = node_buf vidcam.vcam_node_dir_z) :
    planeNormalFloat rnd sqrt node_buf vidcam = Vector3.ZERO := by
  simp only [planeNormalFloat]
  rcases h with h | h | h
  · rw [← h, Vector3.subFloat_self rnd h0, (Vector3.crossProductFloat_zero rnd h0 _).1,
      Vector3.normaliseFloat_zero rnd sqrt h0 hs]
  · rw [← h, Vector3.subFloat_self rnd h0, (Vector3.crossProductFloat_zero rnd h0 _).2,
      Vector3.normaliseFloat_zero rnd sqrt h0 hs]
  · rw [h, Vector3.crossProductFloat_self rnd h0, Vector3.normaliseFloat_zero rnd sqrt h0 hs]

end FloatNormal

/-- C17: collinear (or coincident) centre, direction-y and direction-z positions are not
guarded. In exact arithmetic the vector product `(z - center) x (y - center)` is zero,
normalising leaves it zero, so the plane normal is the zero vector. The iteration still runs to
its end: it sets the yaw axis and the position `alt + offset.x * 0 + offset.y * (center - y) +
offset.z * (center - z)`, a fixed camera still gets an orientation whose third axis is the
negated zero vector, a mirror camera a direction reflected at the rotated zero vector, and a
tracking camera its orientation (whose axes use the zero normal only through the position).
In `float` arithmetic, with each operation rounded by `rnd`, the plane normal is zero when two
of the three positions coincide. -/
theorem degenerate_camera_not_guarded (node_buf : Nat → Vector3 ℝ) (mainCameraPos : Vector3 ℝ)
    (vidcam : VideoCamera ℝ)
    (hcol : Collinear (node_buf vidcam.vcam_node_center) (node_buf vidcam.vcam_node_dir_y)
      (node_buf vidcam.vcam_node_dir_z)) :
    Vector3.crossProduct
        ((node_buf vidcam.vcam_node_dir_z).sub (node_buf vidcam.vcam_node_center))
        ((node_buf vidcam.vcam_node_dir_y).sub (node_buf vidcam.vcam_node_center))
      = Vector3.ZERO
    ∧ Vector3.normalise Real.sqrt (Vector3.ZERO : Vector3 ℝ) = Vector3.ZERO
    ∧ planeNormal Real.sqrt node_buf vidcam = Vector3.ZERO
    ∧ Vector3.length Real.sqrt (planeNormal Real.sqrt node_buf vidcam) ≠ 1
    ∧ cameraPos Real.sqrt node_buf vidcam
        = (((node_buf vidcam.vcam_node_alt_pos).add
            (Vector3.smul vidcam.vcam_pos_offset.x Vector3.ZERO)).add
            (Vector3.smul vidcam.vcam_pos_offset.y
              ((node_buf vidcam.vcam_node_center).sub (node_buf vidcam.vcam_node_dir_y)))).add
            (Vector3.smul vidcam.vcam_pos_offset.z
              ((node_buf vidcam.vcam_node_center).sub (node_buf vidcam.vcam_node_dir_z)))
    ∧ CamOp.setPosition vidcam.vcam_ogre_camera (cameraPos Real.sqrt node_buf vidcam)
        ∈ updateNodeCamera Real.sqrt node_buf mainCameraPos vidcam
    ∧ (vidcam.vcam_type = VideoCamType.VCTYPE_VIDEOCAM →
        CamOp.setOrientation vidcam.vcam_ogre_camera
            (Vector3.normalise Real.sqrt
              ((node_buf vidcam.vcam_node_dir_z).sub (node_buf vidcam.vcam_node_center))).neg
            (Vector3.normalise Real.sqrt
              ((node_buf vidcam.vcam_node_center).sub (node_buf vidcam.vcam_node_dir_y))).neg
            (Vector3.ZERO : Vector3 ℝ).neg vidcam.vcam_rotation
          ∈ updateNodeCamera Real.sqrt node_buf mainCameraPos vidcam)
    ∧ (vidcam.vcam_type = VideoCamType.VCTYPE_MIRROR →
        CamOp.setDirection vidcam.vcam_ogre_camera
            (((cameraPos Real.sqrt node_buf vidcam).sub mainCameraPos).reflect
              (vidcam.vcam_rotation.rotate Vector3.ZERO))
          ∈ updateNodeCamera Real.sqrt node_buf mainCameraPos vidcam)
    ∧ (vidcam.vcam_type = VideoCamType.VCTYPE_TRACKING_VIDEOCAM →
        CamOp.setOrientation vidcam.vcam_ogre_camera
            (Vector3.normalise Real.sqrt
              ((node_buf vidcam.vcam_node_dir_z).sub (node_buf vidcam.vcam_node_center))).neg
            (Vector3.normalise Real.sqrt
              (Vector3.crossProduct
                (Vector3.normalise Real.sqrt
                  ((node_buf vidcam.vcam_node_dir_z).sub (node_buf vidcam.vcam_node_center)))
                (Vector3.normalise Real.sqrt
                  ((node_buf vidcam.vcam_node_lookat).sub
                    (cameraPos Real.sqrt node_buf vidcam))))).neg
            (Vector3.normalise Real.sqrt
              ((node_buf vidcam.vcam_node_lookat).sub
                (cameraPos Real.sqrt node_buf vidcam))).neg
            vidcam.vcam_rotation
          ∈ updateNodeCamera Real.sqrt node_buf mainCameraPos vidcam)
    ∧ (∀ rnd fsqrt : ℝ → ℝ, rnd 0 = 0 → fsqrt 0 = 0 →
        (node_buf vidcam.vcam_node_center = node_buf vidcam.vcam_node_dir_z
          ∨ node_buf vidcam.vcam_node_center = node_buf vidcam.vcam_node_dir_y
          ∨ node_buf vidcam.vcam_node_dir_y = node_buf vidcam.vcam_node_dir_z) →
        planeNormalFloat rnd fsqrt node_buf vidcam = Vector3.ZERO) := by
  have hn := planeNormal_collinear node_buf vidcam hcol
  refine ⟨hcol, Vector3.normalise_zero, hn, ?_, ?_, ?_, fun ht => ?_, fun ht => ?_,
    fun ht => ?_, fun rnd fsqrt h0 hs h => planeNormalFloat_coincident rnd fsqrt h0 hs _ _ h⟩
  · rw [hn]
    simp [Vector3.length, Vector3.squaredLength, Vector3.ZERO]
  · simp only [cameraPos, hn]
  · simp [updateNodeCamera]
  · rw [updateNodeCamera_setOrientation_mem]
    simp only [orientCamera, ht, hn, List.mem_singleton]
  · rw [updateNodeCamera_setDirection_mem]
    simp only [orientCamera, ht, hn, List.mem_singleton]
  · rw [updateNodeCamera_setOrientation_mem]
    simp only [orientCamera, ht, List.mem_singleton]

/-- Instance of C17: a fixed camera whose three nodes are all node 0 has the zero plane
normal, in exact arithmetic and in `float` arithmetic. -/
theorem degenerate_camera_not_guarded_witness :
    planeNormal Real.sqrt (sampleNodeBuf ℝ)
      { sampleCamera ℝ VideoCamType.VCTYPE_VIDEOCAM with
        vcam_node_dir_y := 0, vcam_node_dir_z := 0 } = Vector3.ZERO
    ∧ planeNormalFloat roundF32 Real.sqrt (sampleNodeBuf ℝ)
      { sampleCamera ℝ VideoCamType.VCTYPE_VIDEOCAM with
        vcam_node_dir_y := 0, vcam_node_dir_z := 0 } = Vector3.ZERO :=
  have h := degenerate_camera_not_guarded (sampleNodeBuf ℝ) ⟨0, 0, 0⟩
    { sampleCamera ℝ VideoCamType.VCTYPE_VIDEOCAM with
      vcam_node_dir_y := 0, vcam_node_dir_z := 0 }
    (by simp [Collinear, sampleCamera, sampleNodeBuf, Vector3.crossProduct, Vector3.sub,
      Vector3.ZERO])
  ⟨h.2.2.1, h.2.2.2.2.2.2.2.2.2 roundF32 Real.sqrt (by simp [roundF32]) Real.sqrt_zero
    (Or.inl rfl)⟩

/-- C17 fails in `float` arithmetic for collinear positions that do not coincide. The nodes
(1, 0, 0), (16777218, 1, 0) and (50331652, 3, 0) are `float` values on one line, and with exact
arithmetic the plane normal is zero. The code rounds the differences to (16777216, 1, 0) and
(50331652, 3, 0), whose product is (0, 0, 4), and normalising gives the unit vector
(0, 0, 1), the square root of 16 being 4. -/
theorem collinear_float_normal_unit :
    (∀ i ∈ [0, 1, 2], roundF32 (collinearNodeBuf ℚ i).x = (collinearNodeBuf ℚ i).x
      ∧ roundF32 (collinearNodeBuf ℚ i).y = (collinearNodeBuf ℚ i).y
      ∧ roundF32 (collinearNodeBuf ℚ i).z = (collinearNodeBuf ℚ i).z)
    ∧ Collinear (collinearNodeBuf ℚ 0) (collinearNodeBuf ℚ 1) (collinearNodeBuf ℚ 2)
    ∧ (∀ sqrt : ℚ → ℚ, planeNormal sqrt (collinearNodeBuf ℚ)
        (sampleCamera ℚ VideoCamType.VCTYPE_VIDEOCAM) = Vector3.ZERO)
    ∧ Vector3.neg (Vector3.subFloat roundF32 (collinearNodeBuf ℚ 0) (collinearNodeBuf ℚ 1))
        = ⟨16777216, 1, 0⟩
    ∧ Vector3.neg (Vector3.subFloat roundF32 (collinearNodeBuf ℚ 0) (collinearNodeBuf ℚ 2))
        = ⟨50331652, 3, 0⟩
    ∧ Vector3.crossProductFloat roundF32
        (Vector3.neg (Vector3.subFloat roundF32 (collinearNodeBuf ℚ 0) (collinearNodeBuf ℚ 2)))
        (Vector3.neg (Vector3.subFloat roundF32 (collinearNodeBuf ℚ 0) (collinearNodeBuf ℚ 1)))
        = ⟨0, 0, 4⟩
    ∧ (∀ sqrt : ℚ → ℚ, sqrt 16 = 4 →
        planeNormalFloat roundF32 sqrt (collinearNodeBuf ℚ)
          (sampleCamera ℚ VideoCamType.VCTYPE_VIDEOCAM) = ⟨0, 0, 1⟩) := by
  have hc : Vector3.crossProductFloat roundF32
      (Vector3.neg (Vector3.subFloat roundF32 (collinearNodeBuf ℚ 0) (collinearNodeBuf ℚ 2)))
      (Vector3.neg (Vector3.subFloat roundF32 (collinearNodeBuf ℚ 0) (collinearNodeBuf ℚ 1)))
      = ⟨0, 0, 4⟩ := by decide!
  refine ⟨by decide!, by unfold Collinear; decide!, fun sqrt => ?_, by decide!, by decide!, hc,
    fun sqrt h16 => ?_⟩
  · have h : Vector3.crossProduct
        (Vector3.neg ((collinearNodeBuf ℚ 0).sub (collinearNodeBuf ℚ 2)))
        (Vector3.neg ((collinearNodeBuf ℚ 0).sub (collinearNodeBuf ℚ 1)))
        = Vector3.ZERO := by decide!
    simp only [planeNormal, sampleCamera, h]
    simp [Vector3.normalise, Vector3.ZERO]
  · have hl : roundF32 (roundF32 (roundF32 ((0 : ℚ) * 0) + roundF32 ((0 : ℚ) * 0))
        + roundF32 ((4 : ℚ) * 4)) = 16 := by decide!
    have hi : roundF32 ((1 : ℚ) / 4) = 1 / 4 := by decide!
    have hx : roundF32 ((0 : ℚ) * (1 / 4)) = 0 := by decide!
    have hz : roundF32 ((4 : ℚ) * (1 / 4)) = 1 := by decide!
    simp only [planeNormalFloat, sampleCamera, hc, Vector3.normaliseFloat, hl, h16, hi, hx, hz]
    norm_num

/-- Determinant of the negated triple `a k1`, `b k2`, `(a x b) k3` with `b` negated first:
the form the fixed-camera axes take. -/
theorem det3_fixed (a b : Vector3 ℝ) (k1 k2 k3 : ℝ) :
    Vector3.det3
        (Vector3.neg ⟨a.x * k1, a.y * k1, a.z * k1⟩)
        (Vector3.neg ⟨-b.x * k2, -b.y * k2, -b.z * k2⟩)
        (Vector3.neg ⟨(a.crossProduct b).x * k3, (a.crossProduct b).y * k3,
          (a.crossProduct b).z * k3⟩)
      = k1 * k2 * k3 * (a.crossProduct b).squaredLength := by
  simp only [Vector3.det3, Vector3.dotProduct, Vector3.crossProduct, Vector3.neg,
    Vector3.squaredLength]
  ring

/-- Determinant of the negated triple `X`, `(X x n) k`, `n`: the form the tracking-camera axes
take. -/
theorem det3_tracking (X n : Vector3 ℝ) (k : ℝ) :
    Vector3.det3 X.neg
        (Vector3.neg ⟨(X.crossProduct n).x * k, (X.crossProduct n).y * k,
          (X.crossProduct n).z * k⟩)
        n.neg
      = k * (X.crossProduct n).squaredLength := by
  simp only [Vector3.det3, Vector3.dotProduct, Vector3.crossProduct, Vector3.neg,
    Vector3.squaredLength]
  ring

/-- C18: fixed and tracking cameras produce bases of the same handedness. The determinant of
the axis triple (-refx, -refy, -normal) passed to the orientation is strictly positive for a
fixed camera whose centre, direction-y and direction-z positions are not collinear, and for a
tracking camera whose refx and view vector have a non-zero vector product. -/
theorem camera_bases_same_handedness (node_buf : Nat → Vector3 ℝ) (mainCameraPos : Vector3 ℝ)
    (vidcam : VideoCamera ℝ) :
    (vidcam.vcam_type = VideoCamType.VCTYPE_VIDEOCAM →
      ¬ Collinear (node_buf vidcam.vcam_node_center) (node_buf vidcam.vcam_node_dir_y)
        (node_buf vidcam.vcam_node_dir_z) →
      ∀ cam ax ay az q, CamOp.setOrientation cam ax ay az q
          ∈ updateNodeCamera Real.sqrt node_buf mainCameraPos vidcam →
        0 < Vector3.det3 ax ay az)
    ∧ (vidcam.vcam_type = VideoCamType.VCTYPE_TRACKING_VIDEOCAM →
      Vector3.crossProduct
          (Vector3.normalise Real.sqrt
            ((node_buf vidcam.vcam_node_dir_z).sub (node_buf vidcam.vcam_node_center)))
          (Vector3.normalise Real.sqrt
            ((node_buf vidcam.vcam_node_lookat).sub (cameraPos Real.sqrt node_buf vidcam)))
          ≠ Vector3.ZERO →
      ∀ cam ax ay az q, CamOp.setOrientation cam ax ay az q
          ∈ updateNodeCamera Real.sqrt node_buf mainCameraPos vidcam →
        0 < Vector3.det3 ax ay az) := by
  constructor
  · intro htype hnc cam ax ay az q hmem
    obtain ⟨-, -, hn⟩ := not_collinear_pos _ _ _ hnc
    rw [updateNodeCamera_setOrientation_mem] at hmem
    simp only [orientCamera, htype, List.mem_singleton, CamOp.setOrientation.injEq, planeNormal,
      crossProduct_neg_sub] at hmem
    obtain ⟨-, rfl, rfl, rfl, -⟩ := hmem
    obtain ⟨k1, hk1, h1⟩ := Vector3.normalise_scale Real.sqrt
      ((node_buf vidcam.vcam_node_dir_z).sub (node_buf vidcam.vcam_node_center))
    obtain ⟨k2, hk2, h2⟩ := Vector3.normalise_scale Real.sqrt
      ((node_buf vidcam.vcam_node_center).sub (node_buf vidcam.vcam_node_dir_y))
    obtain ⟨k3, hk3, h3⟩ := Vector3.normalise_scale Real.sqrt
      (Vector3.crossProduct
        ((node_buf vidcam.vcam_node_dir_z).sub (node_buf vidcam.vcam_node_center))
        ((node_buf vidcam.vcam_node_dir_y).sub (node_buf vidcam.vcam_node_center)))
    have hy : ((node_buf vidcam.vcam_node_center).sub (node_buf vidcam.vcam_node_dir_y))
        = ⟨-((node_buf vidcam.vcam_node_dir_y).sub (node_buf vidcam.vcam_node_center)).x,
            -((node_buf vidcam.vcam_node_dir_y).sub (node_buf vidcam.vcam_node_center)).y,
            -((node_buf vidcam.vcam_node_dir_y).sub (node_buf vidcam.vcam_node_center)).z⟩ := by
      simp [Vector3.sub]
    rw [h1, h2, h3, hy, det3_fixed]
    exact mul_pos (mul_pos (mul_pos hk1 hk2) hk3) hn
  · intro htype hne cam ax ay az q hmem
    rw [updateNodeCamera_setOrientation_mem] at hmem
    simp only [orientCamera, htype, List.mem_singleton, CamOp.setOrientation.injEq] at hmem
    obtain ⟨-, rfl, rfl, rfl, -⟩ := hmem
    obtain ⟨k, hk, h⟩ := Vector3.normalise_scale Real.sqrt
      (Vector3.crossProduct
        (Vector3.normalise Real.sqrt
          ((node_buf vidcam.vcam_node_dir_z).sub (node_buf vidcam.vcam_node_center)))
        (Vector3.normalise Real.sqrt
          ((node_buf vidcam.vcam_node_lookat).sub (cameraPos Real.sqrt node_buf vidcam))))
    rw [h, det3_tracking]
    exact mul_pos hk (Vector3.squaredLength_pos _ hne)

/-- Instance of C18 on the sample nodes: the axis triple (-1,0,0), (3/5,4/5,0), (0,0,-1) of the
fixed sample camera has a positive determinant. -/
theorem camera_bases_same_handedness_witness :
    0 < Vector3.det3 (⟨-1, 0, 0⟩ : Vector3 ℝ) ⟨3 / 5, 4 / 5, 0⟩ ⟨0, 0, -1⟩ :=
  (camera_bases_same_handedness (sampleNodeBuf ℝ) ⟨0, 0, 0⟩
    (sampleCamera ℝ VideoCamType.VCTYPE_VIDEOCAM)).1 rfl sampleNodeBuf_not_collinear
    0 _ _ _ _ sample_fixed_camera_call

/-! ## Theorems: console message filter -/

/-- C19: `MessageFilter` accepts a message iff its area is INFO or an area whose toggle is on,
its type is HELP, TITLE or SYSTEM_REPLY or a level whose toggle is on, and the duration is 0 or
timestamp + duration (as the unsigned sum the code computes) is at least the current message
time; without wrap-around that sum is the plain sum. A message of any other area or type is
rejected, and settings with more toggles on accept every message accepted before. -/
theorem MessageFilter_accepts (wordBits : Nat) (view : ConsoleView) (currentMsgTime : Nat)
    (m : Message) :
    (view.MessageFilter wordBits currentMsgTime m = true ↔
      (m.cm_area = MessageArea.CONSOLE_MSGTYPE_INFO
        ∨ (m.cm_area = MessageArea.CONSOLE_MSGTYPE_LOG ∧ view.cvw_filter_area_echo = true)
        ∨ (m.cm_area = MessageArea.CONSOLE_MSGTYPE_ACTOR ∧ view.cvw_filter_area_actor = true)
        ∨ (m.cm_area = MessageArea.CONSOLE_MSGTYPE_TERRN ∧ view.cvw_filter_area_terrn = true)
        ∨ (m.cm_area = MessageArea.CONSOLE_MSGTYPE_SCRIPT ∧ view.cvw_filter_area_script = true))
      ∧ (m.cm_type = MessageType.CONSOLE_HELP
        ∨ m.cm_type = MessageType.CONSOLE_TITLE
        ∨ m.cm_type = MessageType.CONSOLE_SYSTEM_REPLY
        ∨ (m.cm_type = MessageType.CONSOLE_SYSTEM_ERROR ∧ view.cvw_filter_type_error = true)
        ∨ (m.cm_type = MessageType.CONSOLE_SYSTEM_WARNING
            ∧ view.cvw_filter_type_warning = true)
        ∨ (m.cm_type = MessageType.CONSOLE_SYSTEM_NOTICE ∧ view.cvw_filter_type_notice = true))
      ∧ (view.cvw_filter_duration_ms = 0
        ∨ (m.cm_timestamp + view.cvw_filter_duration_ms) % 2 ^ wordBits ≥ currentMsgTime))
    ∧ (m.cm_timestamp + view.cvw_filter_duration_ms < 2 ^ wordBits →
        (m.cm_timestamp + view.cvw_filter_duration_ms) % 2 ^ wordBits
          = m.cm_timestamp + view.cvw_filter_duration_ms)
    ∧ (∀ c, m.cm_area = MessageArea.other c →
        view.MessageFilter wordBits currentMsgTime m = false)
    ∧ (∀ c, m.cm_type = MessageType.other c →
        view.MessageFilter wordBits currentMsgTime m = false)
    ∧ (∀ view2 : ConsoleView,
        (view.cvw_filter_area_echo = true → view2.cvw_filter_area_echo = true) →
        (view.cvw_filter_area_script = true → view2.cvw_filter_area_script = true) →
        (view.cvw_filter_area_actor = true → view2.cvw_filter_area_actor = true) →
        (view.cvw_filter_area_terrn = true → view2.cvw_filter_area_terrn = true) →
        (view.cvw_filter_type_notice = true → view2.cvw_filter_type_notice = true) →
        (view.cvw_filter_type_warning = true → view2.cvw_filter_type_warning = true) →
        (view.cvw_filter_type_error = true → view2.cvw_filter_type_error = true) →
        view2.cvw_filter_duration_ms = view.cvw_filter_duration_ms →
        view.MessageFilter wordBits currentMsgTime m = true →
        view2.MessageFilter wordBits currentMsgTime m = true) := by
  have hiff : ∀ v : ConsoleView, (v.MessageFilter wordBits currentMsgTime m = true ↔
      (m.cm_area = MessageArea.CONSOLE_MSGTYPE_INFO
        ∨ (m.cm_area = MessageArea.CONSOLE_MSGTYPE_LOG ∧ v.cvw_filter_area_echo = true)
        ∨ (m.cm_area = MessageArea.CONSOLE_MSGTYPE_ACTOR ∧ v.cvw_filter_area_actor = true)
        ∨ (m.cm_area = MessageArea.CONSOLE_MSGTYPE_TERRN ∧ v.cvw_filter_area_terrn = true)
        ∨ (m.cm_area = MessageArea.CONSOLE_MSGTYPE_SCRIPT ∧ v.cvw_filter_area_script = true))
      ∧ (m.cm_type = MessageType.CONSOLE_HELP
        ∨ m.cm_type = MessageType.CONSOLE_TITLE
        ∨ m.cm_type = MessageType.CONSOLE_SYSTEM_REPLY
        ∨ (m.cm_type = MessageType.CONSOLE_SYSTEM_ERROR ∧ v.cvw_filter_type_error = true)
        ∨ (m.cm_type = MessageType.CONSOLE_SYSTEM_WARNING ∧ v.cvw_filter_type_warning = true)
        ∨ (m.cm_type = MessageType.CONSOLE_SYSTEM_NOTICE ∧ v.cvw_filter_type_notice = true))
      ∧ (v.cvw_filter_duration_ms = 0
        ∨ (m.cm_timestamp + v.cvw_filter_duration_ms) % 2 ^ wordBits ≥ currentMsgTime)) := by
    intro v
    simp only [ConsoleView.MessageFilter, Bool.and_eq_true, Bool.or_eq_true, decide_eq_true_eq,
      or_assoc, and_assoc]
    exact ⟨fun ⟨ht, ha, hti⟩ => ⟨ha, ht, hti⟩, fun ⟨ha, ht, hti⟩ => ⟨ht, ha, hti⟩⟩
  refine ⟨hiff view, fun h => Nat.mod_eq_of_lt h, fun c hc => ?_, fun c hc => ?_, ?_⟩
  · rw [Bool.eq_false_iff, Ne, hiff view, hc]
    simp
  · rw [Bool.eq_false_iff, Ne, hiff view, hc]
    simp
  · intro view2 h1 h2 h3 h4 h5 h6 h7 hd hacc
    rw [hiff view] at hacc
    rw [hiff view2, hd]
    obtain ⟨ha, ht, hti⟩ := hacc
    refine ⟨?_, ?_, hti⟩
    · rcases ha with h | ⟨h, e⟩ | ⟨h, e⟩ | ⟨h, e⟩ | ⟨h, e⟩
      · exact Or.inl h
      · exact Or.inr (Or.inl ⟨h, h1 e⟩)
      · exact Or.inr (Or.inr (Or.inl ⟨h, h3 e⟩))
      · exact Or.inr (Or.inr (Or.inr (Or.inl ⟨h, h4 e⟩)))
      · exact Or.inr (Or.inr (Or.inr (Or.inr ⟨h, h2 e⟩)))
    · rcases ht with h | h | h | ⟨h, e⟩ | ⟨h, e⟩ | ⟨h, e⟩
      · exact Or.inl h
      · exact Or.inr (Or.inl h)
      · exact Or.inr (Or.inr (Or.inl h))
      · exact Or.inr (Or.inr (Or.inr (Or.inl ⟨h, h7 e⟩)))
      · exact Or.inr (Or.inr (Or.inr (Or.inr (Or.inl ⟨h, h6 e⟩))))
      · exact Or.inr (Or.inr (Or.inr (Or.inr (Or.inr ⟨h, h5 e⟩))))

/-- Instance of C19: the sample settings accept the sample actor error while it is fresh and
reject it once 1000 ms have passed. -/
theorem MessageFilter_accepts_witness :
    sampleView.MessageFilter 64 5500 sampleMessage = true
    ∧ sampleView.MessageFilter 64 6001 sampleMessage = false :=
  ⟨(MessageFilter_accepts 64 sampleView 5500 sampleMessage).1.mpr (by decide), by decide⟩

/-! ## Theorems: one wheel frame -/

/-- The pool loop of `UpdateWheelVisuals` sets no scene-node position. -/
theorem updateWheelsPool_finalCalls (prepare : Nat → Bool) (ws : List WheelGfx) (i : Nat)
    (r : List Nat × List WheelOp) (h : updateWheelsPool prepare i ws = some r) :
    finalCalls r.2 = [] := by
  induction ws generalizing i r with
  | nil =>
    simp [updateWheelsPool] at h
    subst h
    rfl
  | cons w ws ih =>
    obtain ⟨fm, sn, mw⟩ := w
    cases sn with
    | none =>
      simp only [updateWheelsPool] at h
      exact ih _ _ h
    | some s =>
      cases fm with
      | none => simp [updateWheelsPool] at h
      | some m =>
        cases hp : prepare i
        · simp only [updateWheelsPool, hp, Bool.false_eq_true, if_false,
            Option.map_eq_some'] at h
          obtain ⟨r1, hr1, rfl⟩ := h
          have h1 := ih _ _ hr1
          simp only [finalCalls] at h1 ⊢
          simpa using h1
        · simp only [updateWheelsPool, hp, if_true, Option.map_eq_some'] at h
          obtain ⟨r1, hr1, rfl⟩ := h
          have h1 := ih _ _ hr1
          simp only [finalCalls] at h1 ⊢
          simpa using h1

/-- The direct loop of `UpdateWheelVisuals` sets the scene-node position of exactly the
prepared wheels. -/
theorem updateWheelsDirect_finalCalls (prepare : Nat → Bool) (ws : List WheelGfx) (i : Nat)
    (ops : List WheelOp) (h : updateWheelsDirect prepare i ws = some ops) :
    finalCalls ops
      = ((ws.enumFrom i).filter
          (fun p => p.2.wx_scenenode.isSome && prepare p.1)).map Prod.fst := by
  induction ws generalizing i ops with
  | nil =>
    simp [updateWheelsDirect] at h
    subst h
    rfl
  | cons w ws ih =>
    obtain ⟨fm, sn, mw⟩ := w
    cases sn with
    | none =>
      simp only [updateWheelsDirect] at h
      simpa [List.enumFrom_cons, List.filter_cons] using ih _ _ h
    | some s =>
      cases fm with
      | none => simp [updateWheelsDirect] at h
      | some m =>
        cases hp : prepare i
        · simp only [updateWheelsDirect, hp, Bool.false_eq_true, if_false,
            Option.map_eq_some'] at h
          obtain ⟨r1, hr1, rfl⟩ := h
          have h1 := ih _ _ hr1
          simp [List.enumFrom_cons, List.filter_cons, finalCalls, hp] at h1 ⊢
          exact h1
        · simp only [updateWheelsDirect, hp, if_true, Option.map_eq_some'] at h
          obtain ⟨r1, hr1, rfl⟩ := h
          have h1 := ih _ _ hr1
          simp [List.enumFrom_cons, List.filter_cons, finalCalls, hp] at h1 ⊢
          exact h1

/-- Finalising calls of a concatenation. -/
theorem finalCalls_append (a b : List WheelOp) :
    finalCalls (a ++ b) = finalCalls a ++ finalCalls b := by
  simp [finalCalls, List.filterMap_append]

/-- Joins are no finalising calls. -/
theorem finalCalls_join (l : List Nat) : finalCalls (l.map WheelOp.join) = [] := by
  induction l with
  | nil => rfl
  | cons a l ih =>
    simp only [finalCalls] at ih ⊢
    simp

/-- Position updates are the finalising calls. -/
theorem finalCalls_setPosition (l : List Nat) :
    finalCalls (l.map WheelOp.setPosition) = l := by
  induction l with
  | nil => rfl
  | cons a l ih =>
    simp only [finalCalls] at ih ⊢
    simpa using ih

/-- The wheels finalised in one frame: with a thread pool all wheels with a scene node,
without one only the wheels whose `flexitPrepare` returned true. -/
theorem wheelFrame_finalCalls (prepare : Nat → Bool) (st : WheelState) :
    (∀ ops, wheelFrame true prepare st = some ops → finalCalls ops = sceneWheels st.m_wheels)
    ∧ (∀ ops, wheelFrame false prepare st = some ops →
        finalCalls ops = preparedWheels prepare st.m_wheels) := by
  constructor
  · intro ops h
    simp only [wheelFrame] at h
    cases hu : UpdateWheelVisuals true prepare st with
    | none => simp [hu] at h
    | some r =>
      obtain ⟨st1, ops1⟩ := r
      simp only [hu, Option.map_eq_some'] at h
      obtain ⟨ops2, h2, rfl⟩ := h
      have hw := (UpdateWheelVisuals_eq true prepare st st1 ops1 hu).1
      simp only [UpdateWheelVisuals, if_true, Option.map_eq_some'] at hu
      obtain ⟨r1, hr1, hr2⟩ := hu
      simp only [Prod.mk.injEq] at hr2
      obtain ⟨-, rfl⟩ := hr2
      have hf := updateWheelsPool_finalCalls prepare _ _ _ hr1
      rw [FinishWheelUpdates_eq st1 ops2 h2, hw, finalCalls_append, finalCalls_append, hf,
        finalCalls_join, finalCalls_setPosition]
      rfl
  · intro ops h
    simp only [wheelFrame] at h
    cases hu : UpdateWheelVisuals false prepare st with
    | none => simp [hu] at h
    | some r =>
      obtain ⟨st1, ops1⟩ := r
      simp only [hu, FinishWheelUpdates, Bool.false_eq_true, if_false, Option.map_some',
        Option.some.injEq] at h
      subst h
      simp only [UpdateWheelVisuals, Bool.false_eq_true, if_false, Option.map_eq_some'] at hu
      obtain ⟨r1, hr1, hr2⟩ := hu
      simp only [Prod.mk.injEq] at hr2
      obtain ⟨-, rfl⟩ := hr2
      have hf := updateWheelsDirect_finalCalls prepare _ _ _ hr1
      simp only [List.append_nil, preparedWheels, List.enum]
      exact hf

/-- C20 fails on the code: for a single wheel that has a scene node and a flex mesh and whose
`flexitPrepare` returns false, a frame with a thread pool sets the wheel's scene-node position
(in `FinishWheelUpdates`), a frame without a thread pool does not. -/
theorem wheelFrame_finalised_wheels_differ :
    (wheelFrame true (fun _ => false) ⟨[⟨some 10, some 20, false⟩], []⟩).map finalCalls
        = some [0]
    ∧ (wheelFrame false (fun _ => false) ⟨[⟨some 10, some 20, false⟩], []⟩).map finalCalls
        = some [] := by
  decide

/-! ## Theorems: debug views -/

/-- C27: `CycleDebugViews` maps NONE to SKELETON, SKELETON to NODES, NODES to BEAMS and BEAMS
back to NONE; from each of these four views four calls return to the view and one, two or
three calls do not; from the constructor's view NONE the four views are reached after zero,
one, two and three calls. -/
theorem CycleDebugViews_four_cycle :
    CycleDebugViews DebugViewType.DEBUGVIEW_NONE = DebugViewType.DEBUGVIEW_SKELETON
    ∧ CycleDebugViews DebugViewType.DEBUGVIEW_SKELETON = DebugViewType.DEBUGVIEW_NODES
    ∧ CycleDebugViews DebugViewType.DEBUGVIEW_NODES = DebugViewType.DEBUGVIEW_BEAMS
    ∧ CycleDebugViews DebugViewType.DEBUGVIEW_BEAMS = DebugViewType.DEBUGVIEW_NONE
    ∧ (∀ v ∈ [DebugViewType.DEBUGVIEW_NONE, DebugViewType.DEBUGVIEW_SKELETON,
          DebugViewType.DEBUGVIEW_NODES, DebugViewType.DEBUGVIEW_BEAMS],
        CycleDebugViews (CycleDebugViews (CycleDebugViews (CycleDebugViews v))) = v
        ∧ CycleDebugViews v ≠ v
        ∧ CycleDebugViews (CycleDebugViews v) ≠ v
        ∧ CycleDebugViews (CycleDebugViews (CycleDebugViews v)) ≠ v)
    ∧ initialDebugView = DebugViewType.DEBUGVIEW_NONE
    ∧ CycleDebugViews initialDebugView = DebugViewType.DEBUGVIEW_SKELETON
    ∧ CycleDebugViews (CycleDebugViews initialDebugView) = DebugViewType.DEBUGVIEW_NODES
    ∧ CycleDebugViews (CycleDebugViews (CycleDebugViews initialDebugView))
        = DebugViewType.DEBUGVIEW_BEAMS := by
  decide

/-! ## Theorems: nodes without particles -/

/-- C24: a node with `nx_no_particles` set is inert in `UpdateParticles`: its loop iteration
has no effect at all (no particle, no sound, no write to a wheel) and leaves its wet timer as
it was. For every node the iteration sets `nx_under_water_prev` to the node's current
`nd_under_water` and changes no field other than that one and `nx_wet_time_sec`. -/
theorem UpdateParticles_no_particles_inert {α : Type} [LinearOrderedField α]
    (env : ParticleEnv α) (dt : α) (nfx : NodeGfx α) :
    (nfx.nx_no_particles = true →
      (updateNodeParticles env dt nfx).2 = []
      ∧ (updateNodeParticles env dt nfx).1.nx_wet_time_sec = nfx.nx_wet_time_sec)
    ∧ (updateNodeParticles env dt nfx).1.nx_under_water_prev
        = (env.ar_nodes nfx.nx_node_idx).nd_under_water
    ∧ (updateNodeParticles env dt nfx).1.nx_node_idx = nfx.nx_node_idx
    ∧ (updateNodeParticles env dt nfx).1.nx_no_particles = nfx.nx_no_particles
    ∧ (updateNodeParticles env dt nfx).1.nx_may_get_wet = nfx.nx_may_get_wet
    ∧ (updateNodeParticles env dt nfx).1.nx_is_hot = nfx.nx_is_hot
    ∧ (updateNodeParticles env dt nfx).1.nx_no_sparks = nfx.nx_no_sparks := by
  have hf := wetEffects_fields env (env.ar_nodes nfx.nx_node_idx) dt nfx
  refine ⟨fun hnp => ?_, rfl, hf.1, hf.2.1, hf.2.2.1, hf.2.2.2.1, hf.2.2.2.2.1⟩
  constructor
  · rw [updateNodeParticles_snd]
    have h1 : (wetEffects env (env.ar_nodes nfx.nx_node_idx) dt nfx).2 = [] := by
      simp [wetEffects, hnp]
    have h2 : splashEffects env (env.ar_nodes nfx.nx_node_idx) nfx = [] := by
      simp [splashEffects, hnp]
    have h3 : groundEffects env (env.ar_nodes nfx.nx_node_idx) nfx = [] := by
      unfold groundEffects
      cases (env.ar_nodes nfx.nx_node_idx).nd_collision_gm <;> simp [hnp]
    rw [h1, h2, h3]
    rfl
  · simp [updateNodeParticles, wetEffects_timer, hnp]

/-- Instance of C24: the sample node with particles switched off has no effect in a step. -/
theorem UpdateParticles_no_particles_inert_witness :
    (updateNodeParticles sampleEnv (1 : ℚ) { sampleNodeGfx with nx_no_particles := true }).2
      = [] :=
  ((UpdateParticles_no_particles_inert sampleEnv (1 : ℚ)
    { sampleNodeGfx with nx_no_particles := true }).1 rfl).1

/-! ## Theorems: wheel visuals -/

/-- The list after the `resize` step of `SetWheelVisuals`. -/
theorem SetWheelVisuals_length (fresh : WheelGfx) (index : Nat) (wheel_gfx : WheelGfx)
    (m_wheels : List WheelGfx) :
    (SetWheelVisuals fresh index wheel_gfx m_wheels).length = max m_wheels.length (index + 1) := by
  simp only [SetWheelVisuals, List.length_set]
  split_ifs with h
  · simp only [List.length_append, List.length_replicate]
    omega
  · omega

/-- C23: after `SetWheelVisuals(index, wheel_gfx)` the wheel list has length
max(previous length, index + 1), its entry at `index` is `wheel_gfx`, every entry at another
position below the previous length is as before, and the list is not shorter than before. For a
16-bit index the sum `index + 1`, computed in `int`, is at most 65536 and does not wrap. -/
theorem SetWheelVisuals_stores (fresh : WheelGfx) (index : Nat) (wheel_gfx : WheelGfx)
    (m_wheels : List WheelGfx) :
    (SetWheelVisuals fresh index wheel_gfx m_wheels).length = max m_wheels.length (index + 1)
    ∧ (SetWheelVisuals fresh index wheel_gfx m_wheels)[index]? = some wheel_gfx
    ∧ (∀ j, j < m_wheels.length → j ≠ index →
        (SetWheelVisuals fresh index wheel_gfx m_wheels)[j]? = m_wheels[j]?)
    ∧ m_wheels.length ≤ (SetWheelVisuals fresh index wheel_gfx m_wheels).length
    ∧ (index ≤ 65535 → index + 1 ≤ 65536 ∧ index + 1 < 2 ^ 31) := by
  have hlen := SetWheelVisuals_length fresh index wheel_gfx m_wheels
  refine ⟨hlen, ?_, fun j hj hne => ?_, by omega, fun h => by omega⟩
  · simp only [SetWheelVisuals]
    rw [List.getElem?_set_self]
    split_ifs with h
    · simp only [List.length_append, List.length_replicate]
      omega
    · omega
  · simp only [SetWheelVisuals]
    rw [List.getElem?_set_ne (Ne.symm hne)]
    split_ifs with h
    · rw [List.getElem?_append_left hj]
    · rfl

/-- Instance of C23 at the largest 16-bit index: on the sample wheels the list grows to 65536
entries and the last one is the wheel stored. -/
theorem SetWheelVisuals_stores_witness :
    (SetWheelVisuals ⟨none, none, false⟩ 65535 ⟨some 12, some 22, false⟩
        sampleWheels.m_wheels).length = 65536
    ∧ (SetWheelVisuals ⟨none, none, false⟩ 65535 ⟨some 12, some 22, false⟩
        sampleWheels.m_wheels)[65535]? = some ⟨some 12, some 22, false⟩ :=
  ⟨(SetWheelVisuals_stores ⟨none, none, false⟩ 65535 ⟨some 12, some 22, false⟩
      sampleWheels.m_wheels).1,
    (SetWheelVisuals_stores ⟨none, none, false⟩ 65535 ⟨some 12, some 22, false⟩
      sampleWheels.m_wheels).2.1⟩

/-! ## Theorems: console display list -/

/-- Drawing a message emits no blank line. -/
theorem drawMessage_no_NewLine (userInfo : Nat → String × Nat) (dm : Message) :
    ImGuiOp.NewLine ∉ drawMessage userInfo dm := by
  unfold drawMessage
  cases dm.cm_type <;> split_ifs <;> simp

/-- Drawing a list of messages emits no blank line. -/
theorem drawMessages_count_NewLine (userInfo : Nat → String × Nat) (l : List Message) :
    (l.flatMap (drawMessage userInfo)).count ImGuiOp.NewLine = 0 := by
  rw [List.count_eq_zero]
  intro h
  rw [List.mem_flatMap] at h
  obtain ⟨dm, -, hm⟩ := h
  exact drawMessage_no_NewLine userInfo dm hm

/-- C26: `DrawConsoleMessages` builds its display list as the messages, in their original
order, that pass `MessageFilter` among the last min(`cvw_max_lines`, n) of the n console
messages: the window is cut first and filtered afterwards. The list has at most
`cvw_max_lines` entries. With `cvw_align_bottom` set the calls are `cvw_max_lines` minus the
length of the list blank lines, followed by the calls that draw the displayed messages in
order, none of which is a blank line: the blank lines come before every displayed line, and
blank and displayed lines together are `cvw_max_lines`. Without `cvw_align_bottom` there is
no blank line. -/
theorem DrawConsoleMessages_display_list (wordBits : Nat) (view : ConsoleView)
    (currentMsgTime : Nat) (userInfo : Nat → String × Nat) (messages : List Message) :
    (∃ older window, messages = older ++ window
        ∧ window.length = min view.cvw_max_lines messages.length
        ∧ (view.DrawConsoleMessages wordBits currentMsgTime userInfo messages).1
            = window.filter (view.MessageFilter wordBits currentMsgTime))
    ∧ List.Sublist (view.DrawConsoleMessages wordBits currentMsgTime userInfo messages).1
        messages
    ∧ (view.DrawConsoleMessages wordBits currentMsgTime userInfo messages).1.length
        ≤ view.cvw_max_lines
    ∧ (view.cvw_align_bottom = true →
        (view.DrawConsoleMessages wordBits currentMsgTime userInfo messages).2.count
            ImGuiOp.NewLine
          = view.cvw_max_lines
            - (view.DrawConsoleMessages wordBits currentMsgTime userInfo messages).1.length
        ∧ (view.DrawConsoleMessages wordBits currentMsgTime userInfo messages).2.count
            ImGuiOp.NewLine
          + (view.DrawConsoleMessages wordBits currentMsgTime userInfo messages).1.length
          = view.cvw_max_lines
        ∧ (view.DrawConsoleMessages wordBits currentMsgTime userInfo messages).2
          = List.replicate (view.cvw_max_lines
              - (view.DrawConsoleMessages wordBits currentMsgTime userInfo messages).1.length)
              ImGuiOp.NewLine
            ++ (view.DrawConsoleMessages wordBits currentMsgTime userInfo messages).1.flatMap
              (drawMessage userInfo))
    ∧ (view.cvw_align_bottom = false →
        (view.DrawConsoleMessages wordBits currentMsgTime userInfo messages).2
          = (view.DrawConsoleMessages wordBits currentMsgTime userInfo messages).1.flatMap
              (drawMessage userInfo))
    ∧ ImGuiOp.NewLine
        ∉ (view.DrawConsoleMessages wordBits currentMsgTime userInfo messages).1.flatMap
            (drawMessage userInfo)
    ∧ (∀ dm ∈ (view.DrawConsoleMessages wordBits currentMsgTime userInfo messages).1,
        drawMessage userInfo dm ≠ []) := by
  have hlen : (displayList wordBits view currentMsgTime messages).length
      ≤ view.cvw_max_lines := by
    simp only [displayList]
    calc ((messages.drop (messages.length - min view.cvw_max_lines messages.length)).filter
            (view.MessageFilter wordBits currentMsgTime)).length
        ≤ (messages.drop (messages.length - min view.cvw_max_lines messages.length)).length :=
          List.length_filter_le _ _
      _ ≤ view.cvw_max_lines := by
          rw [List.length_drop]
          omega
  refine ⟨⟨messages.take (messages.length - min view.cvw_max_lines messages.length),
      messages.drop (messages.length - min view.cvw_max_lines messages.length),
      (List.take_append_drop _ _).symm, ?_, rfl⟩, ?_, hlen, fun ha => ?_, fun ha => ?_, ?_, ?_⟩
  · rw [List.length_drop]
    omega
  · exact (List.filter_sublist _).trans (List.drop_sublist _ _)
  · have hc : (view.DrawConsoleMessages wordBits currentMsgTime userInfo messages).2.count
          ImGuiOp.NewLine
        = view.cvw_max_lines - (displayList wordBits view currentMsgTime messages).length := by
      simp only [ConsoleView.DrawConsoleMessages, blankLines, ha, if_true, List.count_append,
        drawMessages_count_NewLine, List.count_replicate_self, Nat.add_zero]
    refine ⟨hc, ?_, ?_⟩
    · rw [hc]
      simp only [ConsoleView.DrawConsoleMessages]
      omega
    · simp only [ConsoleView.DrawConsoleMessages, blankLines, ha, if_true]
  · simp only [ConsoleView.DrawConsoleMessages, blankLines, ha, Bool.false_eq_true, if_false,
      List.nil_append]
  · intro h
    have h0 := drawMessages_count_NewLine userInfo
      (view.DrawConsoleMessages wordBits currentMsgTime userInfo messages).1
    rw [List.count_eq_zero] at h0
    exact h0 h
  · intro dm _
    simp [drawMessage]

/-- Instance of C26: with three lines and four messages of which the oldest and the newest
pass the filter, the display list is the newest message alone (the window of the last three is
cut before filtering) and the calls are two blank lines followed by the line of that
message. -/
theorem DrawConsoleMessages_display_list_witness :
    sampleView.cvw_align_bottom = true
    ∧ (sampleView.DrawConsoleMessages 64 5500 (fun _ => ("", 0))
        [sampleMessage, { sampleMessage with cm_area := MessageArea.CONSOLE_MSGTYPE_LOG },
          { sampleMessage with cm_area := MessageArea.CONSOLE_MSGTYPE_LOG },
          { sampleMessage with cm_text := "beam broken" }]).1
        = [{ sampleMessage with cm_text := "beam broken" }]
    ∧ (sampleView.DrawConsoleMessages 64 5500 (fun _ => ("", 0))
        [sampleMessage, { sampleMessage with cm_area := MessageArea.CONSOLE_MSGTYPE_LOG },
          { sampleMessage with cm_area := MessageArea.CONSOLE_MSGTYPE_LOG },
          { sampleMessage with cm_text := "beam broken" }]).2
        = [ImGuiOp.NewLine, ImGuiOp.NewLine,
            ImGuiOp.TextColored TextColor.error_text_color "beam broken"]
    ∧ (sampleView.DrawConsoleMessages 64 5500 (fun _ => ("", 0))
        [sampleMessage, { sampleMessage with cm_area := MessageArea.CONSOLE_MSGTYPE_LOG },
          { sampleMessage with cm_area := MessageArea.CONSOLE_MSGTYPE_LOG },
          { sampleMessage with cm_text := "beam broken" }]).2
        = List.replicate (sampleView.cvw_max_lines
            - (sampleView.DrawConsoleMessages 64 5500 (fun _ => ("", 0))
              [sampleMessage, { sampleMessage with cm_area := MessageArea.CONSOLE_MSGTYPE_LOG },
                { sampleMessage with cm_area := MessageArea.CONSOLE_MSGTYPE_LOG },
                { sampleMessage with cm_text := "beam broken" }]).1.length) ImGuiOp.NewLine
          ++ (sampleView.DrawConsoleMessages 64 5500 (fun _ => ("", 0))
              [sampleMessage, { sampleMessage with cm_area := MessageArea.CONSOLE_MSGTYPE_LOG },
                { sampleMessage with cm_area := MessageArea.CONSOLE_MSGTYPE_LOG },
                { sampleMessage with cm_text := "beam broken" }]).1.flatMap
              (drawMessage (fun _ => ("", 0))) :=
  ⟨rfl, by decide, by decide,
    ((DrawConsoleMessages_display_list 64 sampleView 5500 (fun _ => ("", 0))
      [sampleMessage, { sampleMessage with cm_area := MessageArea.CONSOLE_MSGTYPE_LOG },
        { sampleMessage with cm_area := MessageArea.CONSOLE_MSGTYPE_LOG },
        { sampleMessage with cm_text := "beam broken" }]).2.2.2.1 rfl).2.2⟩

/-! ## Theorems: video camera state -/

section VideoCamStateTheorems

variable {α : Type}

/-- The calls of `SetVideoCamState` for one camera write the value `enable` to every render
target they touch. -/
theorem setVideoCamActive_target_value (enable : Bool) (v : VideoCamera α) (t : Nat) (b : Bool)
    (h : VidOp.setTargetActive t b ∈ setVideoCamActive enable v) :
    b = enable ∧ v.vcam_render_target = some t := by
  unfold setVideoCamActive at h
  cases ht : v.vcam_render_target with
  | some target =>
    simp only [ht] at h
    cases enable <;> simp at h <;> simp [h]
  | none =>
    simp only [ht] at h
    cases hw : v.vcam_render_window <;> simp [hw] at h

/-- After a sequence of calls that write only `e` to render targets, a target is either at `e`
or untouched. -/
theorem applyAll_targetActive (e : Bool) (t : Nat) (ops : List VidOp) (rs : RenderState)
    (hval : ∀ t1 b, VidOp.setTargetActive t1 b ∈ ops → b = e) :
    (rs.applyAll ops).targetActive t = e
      ∨ ((rs.applyAll ops).targetActive t = rs.targetActive t
          ∧ ∀ b, VidOp.setTargetActive t b ∉ ops) := by
  induction ops generalizing rs with
  | nil => exact Or.inr ⟨rfl, fun b hb => by simp at hb⟩
  | cons o ops ih =>
    have hval1 : ∀ t1 b, VidOp.setTargetActive t1 b ∈ ops → b = e :=
      fun t1 b hb => hval t1 b (List.mem_cons_of_mem _ hb)
    simp only [RenderState.applyAll, List.foldl_cons]
    rcases ih (rs.apply o) hval1 with h | ⟨h1, h2⟩
    · exact Or.inl h
    · simp only [RenderState.applyAll] at h1
      rw [h1]
      cases o with
      | setTargetActive t1 b =>
        have hb : b = e := hval t1 b (List.mem_cons_self _ _)
        by_cases ht : t = t1
        · subst ht
          left
          simp [RenderState.apply, hb]
        · right
          refine ⟨by simp [RenderState.apply, Function.update_noteq ht], fun b1 hb1 => ?_⟩
          rcases List.mem_cons.mp hb1 with h3 | h3
          · injection h3 with h4 _
            exact ht h4
          · exact h2 b1 h3
      | setTextureName m n =>
        right
        refine ⟨rfl, fun b1 hb1 => ?_⟩
        rcases List.mem_cons.mp hb1 with h3 | h3
        · cases h3
        · exact h2 b1 h3
      | setWindowActive w b =>
        right
        refine ⟨rfl, fun b1 hb1 => ?_⟩
        rcases List.mem_cons.mp hb1 with h3 | h3
        · cases h3
        · exact h2 b1 h3

/-- C25: after `SetVideoCamState(s)` the stored state is `s`. If `s` is the current state no
call is made. Otherwise the calls are, camera after camera: for a camera with a render target,
the target's active flag set to `s == VCSTATE_ENABLED_ONLINE` and the material's texture set to
the render texture when enabling and to the off texture otherwise; for a camera without a
render target but with a render window, the window's active flag set to the same value. The
property "render target active iff the state is VCSTATE_ENABLED_ONLINE" is preserved, and a
second call with the same `s` changes nothing. -/
theorem SetVideoCamState_consistent (cams : List (VideoCamera α))
    (m_vidcam_state s : VideoCamState) (rs : RenderState) :
    (SetVideoCamState cams m_vidcam_state s).1 = s
    ∧ (s = m_vidcam_state → (SetVideoCamState cams m_vidcam_state s).2 = [])
    ∧ (s ≠ m_vidcam_state →
        (SetVideoCamState cams m_vidcam_state s).2
          = cams.flatMap
              (setVideoCamActive (decide (s = VideoCamState.VCSTATE_ENABLED_ONLINE))))
    ∧ (∀ (enable : Bool) (v : VideoCamera α) target, v.vcam_render_target = some target →
        setVideoCamActive enable v
          = [VidOp.setTargetActive target enable,
              VidOp.setTextureName v.vcam_material
                (if enable then v.vcam_render_tex_name else v.vcam_off_tex_name)])
    ∧ (∀ (enable : Bool) (v : VideoCamera α) window, v.vcam_render_target = none →
        v.vcam_render_window = some window →
        setVideoCamActive enable v = [VidOp.setWindowActive window enable])
    ∧ (∀ (enable : Bool) (v : VideoCamera α), v.vcam_render_target = none →
        v.vcam_render_window = none → setVideoCamActive enable v = [])
    ∧ (TargetsConsistent cams m_vidcam_state rs →
        TargetsConsistent cams (SetVideoCamState cams m_vidcam_state s).1
          (rs.applyAll (SetVideoCamState cams m_vidcam_state s).2))
    ∧ SetVideoCamState cams (SetVideoCamState cams m_vidcam_state s).1 s
        = ((SetVideoCamState cams m_vidcam_state s).1, []) := by
  have hst : (SetVideoCamState cams m_vidcam_state s).1 = s := by
    unfold SetVideoCamState
    split_ifs with h
    · exact h.symm
    · rfl
  refine ⟨hst, fun h => by simp [SetVideoCamState, h], fun h => by simp [SetVideoCamState, h],
    ?_, ?_, ?_, ?_, ?_⟩
  · intro enable v target ht
    cases enable <;> simp [setVideoCamActive, ht]
  · intro enable v window ht hw
    simp [setVideoCamActive, ht, hw]
  · intro enable v ht hw
    simp [setVideoCamActive, ht, hw]
  · intro hinv
    by_cases h : s = m_vidcam_state
    · subst h
      simpa [SetVideoCamState, RenderState.applyAll] using hinv
    · rw [hst]
      have hops : (SetVideoCamState cams m_vidcam_state s).2
          = cams.flatMap
              (setVideoCamActive (decide (s = VideoCamState.VCSTATE_ENABLED_ONLINE))) := by
        simp [SetVideoCamState, h]
      rw [hops]
      intro v hv target ht
      have hval : ∀ t1 b, VidOp.setTargetActive t1 b
          ∈ cams.flatMap
              (setVideoCamActive (decide (s = VideoCamState.VCSTATE_ENABLED_ONLINE))) →
          b = decide (s = VideoCamState.VCSTATE_ENABLED_ONLINE) := by
        intro t1 b hb
        rw [List.mem_flatMap] at hb
        obtain ⟨v1, -, hb1⟩ := hb
        exact (setVideoCamActive_target_value _ v1 t1 b hb1).1
      have hmem : VidOp.setTargetActive target
          (decide (s = VideoCamState.VCSTATE_ENABLED_ONLINE))
          ∈ cams.flatMap
              (setVideoCamActive (decide (s = VideoCamState.VCSTATE_ENABLED_ONLINE))) := by
        rw [List.mem_flatMap]
        refine ⟨v, hv, ?_⟩
        cases hd : decide (s = VideoCamState.VCSTATE_ENABLED_ONLINE) <;>
          simp [setVideoCamActive, ht]
      rcases applyAll_targetActive _ target _ rs hval with h1 | ⟨-, h2⟩
      · rw [h1]
        simp
      · exact absurd hmem (h2 _)
  · rw [hst]
    simp [SetVideoCamState]

end VideoCamStateTheorems

/-- Instance of C25: switching the cameras off when a camera with render target 7 is
registered deactivates the target and shows the off texture; the stored state is the new
one. -/
theorem SetVideoCamState_consistent_witness :
    SetVideoCamState [{ sampleCamera ℚ VideoCamType.VCTYPE_VIDEOCAM with
        vcam_render_target := some 7 }]
      VideoCamState.VCSTATE_ENABLED_ONLINE (VideoCamState.other 0)
      = (VideoCamState.other 0,
          [VidOp.setTargetActive 7 false, VidOp.setTextureName 0 "vidcam-off"]) :=
  Prod.ext
    (SetVideoCamState_consistent [{ sampleCamera ℚ VideoCamType.VCTYPE_VIDEOCAM with
        vcam_render_target := some 7 }]
      VideoCamState.VCSTATE_ENABLED_ONLINE (VideoCamState.other 0) ⟨fun _ => true,
        fun _ => true, fun _ => ""⟩).1
    rfl

/-! ## Theorems: rods -/

/-- The diameter `ScaleActor` stores for one rod, when the conversion is defined: the old
millimetres times `ratio * 1000`, truncated. -/
theorem scaleRod_diameter {α : Type} [LinearOrderedField α] [FloorRing α] (ratio : α)
    (rod rod1 : Rod) (h : scaleRod ratio rod = some rod1) :
    rod1.rod_diameter_mm = Int.toNat ⌊(rod.rod_diameter_mm : α) * (ratio * 1000)⌋
    ∧ rod1.rod_scenenode = rod.rod_scenenode ∧ rod1.rod_beam_index = rod.rod_beam_index
    ∧ rod1.rod_node1 = rod.rod_node1 ∧ rod1.rod_node2 = rod.rod_node2 := by
  simp only [scaleRod, floatToU16, Option.map_eq_some'] at h
  obtain ⟨mm, hmm, rfl⟩ := h
  split_ifs at hmm with hr
  simp only [Option.some.injEq] at hmm
  subst hmm
  exact ⟨rfl, rfl, rfl, rfl, rfl⟩

/-- C21 fails on the code: `ScaleActor(1)` on a rod of 5 mm stores 5000 mm, so the beam
diameter `UpdateRods` applies afterwards is 5 metres instead of 0.005 metres, 1000 times the
one before; the code multiplies the millimetres by `ratio * 1000`, not by `ratio`. -/
theorem ScaleActor_one_multiplies_by_1000 :
    ScaleActor (1 : ℚ) [⟨0, 5, 0, 0, 1⟩] = some [⟨0, 5000, 0, 0, 1⟩]
    ∧ beamDiameter (⟨0, 5, 0, 0, 1⟩ : Rod) = (5 / 1000 : ℚ)
    ∧ beamDiameter (⟨0, 5000, 0, 0, 1⟩ : Rod) = (5 : ℚ) := by
  refine ⟨?_, ?_, ?_⟩
  · simp only [ScaleActor, scaleRod, floatToU16]
    norm_num
    rfl
  · norm_num [beamDiameter]
  · norm_num [beamDiameter]

/-! ## Theorems: rod orientation -/

section RotationLemmas

variable {α : Type} [LinearOrderedField α]

/-- The quaternion with scalar part `s / 2` and vector part `(a x b) / s`, for unit vectors `a`
and `b` and `s * s = 2 (1 + a . b)`, has norm 1. -/
theorem halfAngle_Norm (a b : Vector3 α) (s k : α) (h0 : a.dotProduct a = 1)
    (h1 : b.dotProduct b = 1) (hkk : k * k * ((1 + a.dotProduct b) * 2) = 1)
    (hss : s * s = (1 + a.dotProduct b) * 2) :
    Quaternion.Norm (⟨s * (1 / 2), (a.crossProduct b).x * k, (a.crossProduct b).y * k,
      (a.crossProduct b).z * k⟩ : Quaternion α) = 1 := by
  obtain ⟨ax, ay, az⟩ := a
  obtain ⟨bx, b_y, bz⟩ := b
  simp only [Quaternion.Norm, Vector3.crossProduct, Vector3.dotProduct] at h0 h1 hkk hss ⊢
  linear_combination (1 / 4 : α) * hss
    + (k * k * (bx * bx + b_y * b_y + bz * bz)) * h0 + (k * k) * h1
    + (1 / 2 * (1 - (ax * bx + ay * b_y + az * bz))) * hkk

/-- The quaternion with scalar part `s / 2` and vector part `(a x b) / s`, for unit vectors `a`
and `b` and `s * s = 2 (1 + a . b)`, rotates `a` onto `b`. -/
theorem halfAngle_rotate (a b : Vector3 α) (s k : α) (h0 : a.dotProduct a = 1)
    (h1 : b.dotProduct b = 1) (hsk : s * k = 1)
    (hkk : k * k * ((1 + a.dotProduct b) * 2) = 1) :
    Quaternion.rotate (⟨s * (1 / 2), (a.crossProduct b).x * k, (a.crossProduct b).y * k,
      (a.crossProduct b).z * k⟩ : Quaternion α) a = b := by
  obtain ⟨ax, ay, az⟩ := a
  obtain ⟨bx, b_y, bz⟩ := b
  simp only [Quaternion.rotate, Vector3.crossProduct, Vector3.dotProduct, Vector3.add,
    Vector3.smul, Vector3.mk.injEq] at h0 h1 hsk hkk ⊢
  refine ⟨?_, ?_, ?_⟩
  · linear_combination
      (bx * (ax * ax + ay * ay + az * az) - ax * (ax * bx + ay * b_y + az * bz)) * hsk
      + (bx - 2 * k * k * ax * (bx * bx + b_y * b_y + bz * bz)) * h0
      + (-2 * k * k * ax) * h1
      + (ax * ((ax * bx + ay * b_y + az * bz) - 1)) * hkk
  · linear_combination
      (b_y * (ax * ax + ay * ay + az * az) - ay * (ax * bx + ay * b_y + az * bz)) * hsk
      + (b_y - 2 * k * k * ay * (bx * bx + b_y * b_y + bz * bz)) * h0
      + (-2 * k * k * ay) * h1
      + (ay * ((ax * bx + ay * b_y + az * bz) - 1)) * hkk
  · linear_combination
      (bz * (ax * ax + ay * ay + az * az) - az * (ax * bx + ay * b_y + az * bz)) * hsk
      + (bz - 2 * k * k * az * (bx * bx + b_y * b_y + bz * bz)) * h0
      + (-2 * k * k * az) * h1
      + (az * ((ax * bx + ay * b_y + az * bz) - 1)) * hkk

/-- Two unit vectors whose scalar product is at least 1 are equal. -/
theorem unit_eq_of_dot_ge_one (a b : Vector3 α) (h0 : a.dotProduct a = 1)
    (h1 : b.dotProduct b = 1) (hd : a.dotProduct b ≥ 1) : a = b := by
  obtain ⟨ax, ay, az⟩ := a
  obtain ⟨bx, b_y, bz⟩ := b
  simp only [Vector3.dotProduct] at h0 h1 hd
  have hexp : (ax - bx) * (ax - bx) + (ay - b_y) * (ay - b_y) + (az - bz) * (az - bz)
      = (ax * ax + ay * ay + az * az) + (bx * bx + b_y * b_y + bz * bz)
        - 2 * (ax * bx + ay * b_y + az * bz) := by ring
  have hsum : (ax - bx) * (ax - bx) + (ay - b_y) * (ay - b_y) + (az - bz) * (az - bz) ≤ 0 := by
    rw [hexp, h0, h1]
    linarith
  have nx := mul_self_nonneg (ax - bx)
  have ny := mul_self_nonneg (ay - b_y)
  have nz := mul_self_nonneg (az - bz)
  have hx : (ax - bx) * (ax - bx) = 0 := le_antisymm (by linarith) nx
  have hy : (ay - b_y) * (ay - b_y) = 0 := le_antisymm (by linarith) ny
  have hz : (az - bz) * (az - bz) = 0 := le_antisymm (by linarith) nz
  simp only [Vector3.mk.injEq]
  exact ⟨sub_eq_zero.mp (mul_self_eq_zero.mp hx), sub_eq_zero.mp (mul_self_eq_zero.mp hy),
    sub_eq_zero.mp (mul_self_eq_zero.mp hz)⟩

/-- The identity quaternion leaves every vector as it is and has norm 1. -/
theorem Quaternion.IDENTITY_rotate (v : Vector3 α) :
    (Quaternion.IDENTITY : Quaternion α).rotate v = v
    ∧ Quaternion.Norm (Quaternion.IDENTITY : Quaternion α) = 1 := by
  obtain ⟨x, y, z⟩ := v
  simp [Quaternion.IDENTITY, Quaternion.rotate, Quaternion.Norm, Vector3.crossProduct,
    Vector3.add, Vector3.smul]

end RotationLemmas

/-- A normalised non-zero vector has scalar product 1 with itself. -/
theorem Vector3.dot_normalise_self (a : Vector3 ℝ) (h : a ≠ Vector3.ZERO) :
    (Vector3.normalise Real.sqrt a).dotProduct (Vector3.normalise Real.sqrt a) = 1 := by
  have hl := Vector3.length_normalise a (Vector3.squaredLength_pos a h)
  rw [Vector3.length, Real.sqrt_eq_one] at hl
  simpa [Vector3.squaredLength, Vector3.dotProduct] using hl

/-- With a zero vector as `src` or `dest` the scalar product of the normalised vectors is 0 and
their vector product is zero. -/
theorem Vector3.zero_dot_cross (v : Vector3 ℝ) :
    (Vector3.ZERO : Vector3 ℝ).dotProduct v = 0 ∧ v.dotProduct Vector3.ZERO = 0
    ∧ (Vector3.ZERO : Vector3 ℝ).crossProduct v = Vector3.ZERO
    ∧ v.crossProduct Vector3.ZERO = Vector3.ZERO := by
  simp [Vector3.dotProduct, Vector3.crossProduct, Vector3.ZERO]

/-- The result of `SpecialGetRotationTo` when the scalar product of the normalised vectors is 0
and their vector product is zero. -/
theorem SpecialGetRotationTo_of_zero (t : Trig ℝ) (src dest : Vector3 ℝ)
    (hd : (Vector3.normalise Real.sqrt src).dotProduct (Vector3.normalise Real.sqrt dest) = 0)
    (hc : (Vector3.normalise Real.sqrt src).crossProduct (Vector3.normalise Real.sqrt dest)
      = Vector3.ZERO) :
    SpecialGetRotationTo Real.sqrt Real.sqrt t src dest = ⟨Real.sqrt 2 * (1 / 2), 0, 0, 0⟩ := by
  have h2 : Real.sqrt 2 ≠ 0 := (Real.sqrt_pos.mpr (by norm_num)).ne'
  simp only [SpecialGetRotationTo, hd, hc]
  have e : ((1 : ℝ) + 0) * 2 = 2 := by norm_num
  rw [if_neg (by norm_num), if_neg (by norm_num), e, if_neg h2]
  simp [Vector3.ZERO]

/-- C22: `SpecialGetRotationTo`, with the exact real square root for `normalise` and for
`fast_sqrt`: for non-zero `src` and `dest` whose normalised scalar product `d` is at least
`1e-6 - 1`, the returned quaternion has norm 1 and rotates the normalised `src` onto the
normalised `dest`, and it is the identity when `d >= 1`; when `src` or `dest` is the zero
vector the result has scalar part `sqrt 2 / 2` and zero vector part, of norm `1 / 2`. -/
theorem SpecialGetRotationTo_rotates (t : Trig ℝ) (src dest : Vector3 ℝ) :
    (src ≠ Vector3.ZERO → dest ≠ Vector3.ZERO →
      (Vector3.normalise Real.sqrt src).dotProduct (Vector3.normalise Real.sqrt dest)
        ≥ 1 / 1000000 - 1 →
      Quaternion.Norm (SpecialGetRotationTo Real.sqrt Real.sqrt t src dest) = 1
      ∧ (SpecialGetRotationTo Real.sqrt Real.sqrt t src dest).rotate
          (Vector3.normalise Real.sqrt src) = Vector3.normalise Real.sqrt dest
      ∧ ((Vector3.normalise Real.sqrt src).dotProduct (Vector3.normalise Real.sqrt dest) ≥ 1 →
          SpecialGetRotationTo Real.sqrt Real.sqrt t src dest = Quaternion.IDENTITY))
    ∧ (src = Vector3.ZERO ∨ dest = Vector3.ZERO →
      SpecialGetRotationTo Real.sqrt Real.sqrt t src dest = ⟨Real.sqrt 2 * (1 / 2), 0, 0, 0⟩
      ∧ Quaternion.Norm (SpecialGetRotationTo Real.sqrt Real.sqrt t src dest) = 1 / 2
      ∧ Quaternion.Norm (SpecialGetRotationTo Real.sqrt Real.sqrt t src dest) ≠ 1) := by
  constructor
  · intro hs hd hdot
    have h0 := Vector3.dot_normalise_self src hs
    have h1 := Vector3.dot_normalise_self dest hd
    by_cases hge : (Vector3.normalise Real.sqrt src).dotProduct
        (Vector3.normalise Real.sqrt dest) ≥ 1
    · have hq : SpecialGetRotationTo Real.sqrt Real.sqrt t src dest = Quaternion.IDENTITY := by
        simp only [SpecialGetRotationTo, if_pos hge]
      rw [hq]
      refine ⟨(Quaternion.IDENTITY_rotate (Vector3.normalise Real.sqrt src)).2, ?_, fun _ => rfl⟩
      rw [(Quaternion.IDENTITY_rotate (Vector3.normalise Real.sqrt src)).1]
      exact unit_eq_of_dot_ge_one _ _ h0 h1 hge
    · have hpos : 0 < (1 + (Vector3.normalise Real.sqrt src).dotProduct
          (Vector3.normalise Real.sqrt dest)) * 2 := by linarith
      have hs_pos := Real.sqrt_pos.mpr hpos
      have hss := Real.mul_self_sqrt hpos.le
      have hsk := mul_one_div_cancel hs_pos.ne'
      have hkk : 1 / Real.sqrt ((1 + (Vector3.normalise Real.sqrt src).dotProduct
          (Vector3.normalise Real.sqrt dest)) * 2)
          * (1 / Real.sqrt ((1 + (Vector3.normalise Real.sqrt src).dotProduct
          (Vector3.normalise Real.sqrt dest)) * 2))
          * ((1 + (Vector3.normalise Real.sqrt src).dotProduct
          (Vector3.normalise Real.sqrt dest)) * 2) = 1 := by
        have aux : ∀ s x : ℝ, s ≠ 0 → s * s = x → 1 / s * (1 / s) * x = 1 := by
          intro s x h e
          rw [← e]
          field_simp
        exact aux _ _ hs_pos.ne' hss
      have hq : SpecialGetRotationTo Real.sqrt Real.sqrt t src dest
          = ⟨Real.sqrt ((1 + (Vector3.normalise Real.sqrt src).dotProduct
              (Vector3.normalise Real.sqrt dest)) * 2) * (1 / 2),
            ((Vector3.normalise Real.sqrt src).crossProduct
              (Vector3.normalise Real.sqrt dest)).x
              * (1 / Real.sqrt ((1 + (Vector3.normalise Real.sqrt src).dotProduct
              (Vector3.normalise Real.sqrt dest)) * 2)),
            ((Vector3.normalise Real.sqrt src).crossProduct
              (Vector3.normalise Real.sqrt dest)).y
              * (1 / Real.sqrt ((1 + (Vector3.normalise Real.sqrt src).dotProduct
              (Vector3.normalise Real.sqrt dest)) * 2)),
            ((Vector3.normalise Real.sqrt src).crossProduct
              (Vector3.normalise Real.sqrt dest)).z
              * (1 / Real.sqrt ((1 + (Vector3.normalise Real.sqrt src).dotProduct
              (Vector3.normalise Real.sqrt dest)) * 2))⟩ := by
        simp only [SpecialGetRotationTo, if_neg hge, if_neg (not_lt.mpr hdot),
          if_neg hs_pos.ne']
      rw [hq]
      exact ⟨halfAngle_Norm _ _ _ _ h0 h1 hkk hss, halfAngle_rotate _ _ _ _ h0 h1 hsk hkk,
        fun h => absurd h hge⟩
  · intro hz
    have hq : SpecialGetRotationTo Real.sqrt Real.sqrt t src dest
        = ⟨Real.sqrt 2 * (1 / 2), 0, 0, 0⟩ := by
      rcases hz with h | h
      · subst h
        apply SpecialGetRotationTo_of_zero
        · rw [Vector3.normalise_zero]; exact (Vector3.zero_dot_cross _).1
        · rw [Vector3.normalise_zero]; exact (Vector3.zero_dot_cross _).2.2.1
      · subst h
        apply SpecialGetRotationTo_of_zero
        · rw [Vector3.normalise_zero]; exact (Vector3.zero_dot_cross _).2.1
        · rw [Vector3.normalise_zero]; exact (Vector3.zero_dot_cross _).2.2.2
    have h2 : Real.sqrt 2 * Real.sqrt 2 = 2 := Real.mul_self_sqrt (by norm_num)
    have hn : Quaternion.Norm (⟨Real.sqrt 2 * (1 / 2), 0, 0, 0⟩ : Quaternion ℝ) = 1 / 2 := by
      simp only [Quaternion.Norm]
      linear_combination (1 / 4 : ℝ) * h2
    rw [hq]
    exact ⟨rfl, hn, by rw [hn]; norm_num⟩

/-- Witness for C22: the rod orientation from the Y axis to `(0, 3, 4)` is a unit quaternion,
and with a zero source vector the result is `(sqrt 2 / 2, 0, 0, 0)`. -/
theorem SpecialGetRotationTo_rotates_witness :
    Quaternion.Norm (SpecialGetRotationTo Real.sqrt Real.sqrt
      ⟨Real.cos, Real.sin, Real.arcsin, Real.pi⟩ ⟨0, 1, 0⟩ ⟨0, 3, 4⟩) = 1
    ∧ SpecialGetRotationTo Real.sqrt Real.sqrt ⟨Real.cos, Real.sin, Real.arcsin, Real.pi⟩
        Vector3.ZERO ⟨0, 3, 4⟩ = ⟨Real.sqrt 2 * (1 / 2), 0, 0, 0⟩ := by
  have n0 : Vector3.normalise Real.sqrt (⟨0, 1, 0⟩ : Vector3 ℝ)
      = ⟨0 * (1 / 1), 1 * (1 / 1), 0 * (1 / 1)⟩ :=
    Vector3.normalise_of_length _ 1 (by norm_num) (by norm_num [Vector3.squaredLength])
  have n1 : Vector3.normalise Real.sqrt (⟨0, 3, 4⟩ : Vector3 ℝ)
      = ⟨0 * (1 / 5), 3 * (1 / 5), 4 * (1 / 5)⟩ :=
    Vector3.normalise_of_length _ 5 (by norm_num) (by norm_num [Vector3.squaredLength])
  refine ⟨((SpecialGetRotationTo_rotates _ ⟨0, 1, 0⟩ ⟨0, 3, 4⟩).1 ?_ ?_ ?_).1,
    ((SpecialGetRotationTo_rotates _ Vector3.ZERO ⟨0, 3, 4⟩).2 (Or.inl rfl)).1⟩
  · simp [Vector3.ZERO]
  · simp [Vector3.ZERO]
  · rw [n0, n1]
    norm_num [Vector3.dotProduct]

end RoR
